import Mathlib

/-!
# JVMTI implementation core: `src/hotspot/share/prims/jvmtiImpl.cpp`

A shallow embedding of the breakpoint registry (`JvmtiBreakpoint`,
`JvmtiBreakpoints`, `VM_ChangeBreakpoints`), of the frame resolution used by the
local-variable accessors (`VM_GetOrSetLocal`, `VM_VirtualThreadGetOrSetLocal`)
of the local-variable operation itself (`VM_BaseGetOrSetLocal`: the slot
checks and `doit`) and of the deferred events and their queue
(`JvmtiDeferredEvent`, `JvmtiDeferredEventQueue`), followed by the properties
proved about them.

Pointers are modelled by natural-number addresses, compared with `==` exactly
where the source compares pointers.  Null-terminated chains reached through a
`next`-like accessor are modelled by inductive types with a `nullptr`
constructor.  State that the source mutates in place is passed explicitly.
-/

namespace JvmtiImpl

/-! ## Metadata consumed from the rest of the VM -/

/-- A `Method*`: methods are identified by their address. -/
abbrev Method := Nat

/-- A `Symbol*`: symbols are interned, so the source compares them by address. -/
abbrev Symbol := Nat

/-- A `Klass*` used as an identity only. -/
abbrev Klass := Nat

/-- An `InstanceKlass*`: either null or a class with its address, its
`methods()` array and its `previous_versions()` link. -/
inductive InstanceKlass where
  | nullptr : InstanceKlass
  | klass (addr : Klass) (methods : List Method) (previous_versions : InstanceKlass) :
      InstanceKlass
deriving DecidableEq, Repr

/-- The address of an `InstanceKlass*`; the null pointer has address 0. -/
def InstanceKlass.addr : InstanceKlass → Klass
  | .nullptr => 0
  | .klass a _ _ => a

/-- The accessor `InstanceKlass::previous_versions()`. -/
def InstanceKlass.previous_versions : InstanceKlass → InstanceKlass
  | .nullptr => .nullptr
  | .klass _ _ pv => pv

/-- The `methods()` arrays met along a null-terminated `previous_versions()`
chain, starting at the given node. -/
def InstanceKlass.version_methods : InstanceKlass → List (List Method)
  | .nullptr => []
  | .klass _ methods pv => methods :: pv.version_methods

/-- The accessors of `Method` that `jvmtiImpl.cpp` reads (`method.hpp` is not
part of the sources, so they are supplied by the environment). -/
structure Metadata where
  method_holder : Method → InstanceKlass
  name : Method → Symbol
  signature : Method → Symbol
  is_old : Method → Bool
  is_obsolete : Method → Bool

/-- The two member functions of `Method` that `each_method_version_do` is
instantiated with; they patch the globally visible code state `σ`. -/
structure MethodCode (σ : Type) where
  set_breakpoint : Method → Int → σ → σ
  clear_breakpoint : Method → Int → σ → σ

/-- The JVMTI error codes used in `jvmtiImpl.cpp`. -/
inductive jvmtiError where
  | JVMTI_ERROR_NONE
  | JVMTI_ERROR_DUPLICATE
  | JVMTI_ERROR_NOT_FOUND
  | JVMTI_ERROR_INVALID_SLOT
  | JVMTI_ERROR_TYPE_MISMATCH
  | JVMTI_ERROR_OPAQUE_FRAME
  | JVMTI_ERROR_THREAD_NOT_SUSPENDED
  | JVMTI_ERROR_NO_MORE_FRAMES
  | JVMTI_ERROR_INVALID_OBJECT
  | JVMTI_ERROR_OUT_OF_MEMORY
deriving DecidableEq, Repr

open jvmtiError

/-! ## class JvmtiBreakpoint -/

/-- A breakpoint record: `_method` and `_bci`.  The third member of the source,
`_class_holder`, is a keep-alive handle computed from `_method`; no function
modelled here reads it. -/
structure JvmtiBreakpoint where
  _method : Method
  _bci : Int
deriving DecidableEq, Repr

/-- `JvmtiBreakpoint::equals`. -/
def JvmtiBreakpoint.equals (self bp : JvmtiBreakpoint) : Bool :=
  self._method == bp._method && self._bci == bp._bci

/-- The inner loop of `each_method_version_do`,
`for (int i = methods->length() - 1; i >= 0; i--)`; the counter is `i + 1`.
The first method found that is not obsolete and has the wanted name and
signature receives the action and the loop is left (`break`). -/
def JvmtiBreakpoint.scan_methods {σ : Type} (md : Metadata) (m_name m_signature : Symbol)
    (bci : Int) (meth_act : Method → Int → σ → σ) (methods : List Method) : Nat → σ → σ
  | 0, c => c
  | i + 1, c =>
    match methods[i]? with
    | some method =>
      if !md.is_obsolete method && md.name method == m_name
          && md.signature method == m_signature then
        meth_act method bci c
      else
        JvmtiBreakpoint.scan_methods md m_name m_signature bci meth_act methods i c
    | none => JvmtiBreakpoint.scan_methods md m_name m_signature bci meth_act methods i c

/-- The outer loop of `each_method_version_do` over the previous versions,
`for (pv_node = ...; pv_node != nullptr; pv_node = pv_node->previous_versions())`. -/
def JvmtiBreakpoint.scan_versions {σ : Type} (md : Metadata) (m_name m_signature : Symbol)
    (bci : Int) (meth_act : Method → Int → σ → σ) : InstanceKlass → σ → σ
  | .nullptr, c => c
  | .klass _ methods pv, c =>
    JvmtiBreakpoint.scan_versions md m_name m_signature bci meth_act pv
      (JvmtiBreakpoint.scan_methods md m_name m_signature bci meth_act methods methods.length c)

/-- `JvmtiBreakpoint::each_method_version_do`.  The leading
`assert(!_method->is_old())` is a precondition and appears as a hypothesis of
the theorems that need it. -/
def JvmtiBreakpoint.each_method_version_do {σ : Type} (md : Metadata) (self : JvmtiBreakpoint)
    (meth_act : Method → Int → σ → σ) (c : σ) : σ :=
  let c1 := meth_act self._method self._bci c
  let ik := md.method_holder self._method
  let m_name := md.name self._method
  let m_signature := md.signature self._method
  JvmtiBreakpoint.scan_versions md m_name m_signature self._bci meth_act ik.previous_versions c1

/-- `JvmtiBreakpoint::set`. -/
def JvmtiBreakpoint.set {σ : Type} (md : Metadata) (mc : MethodCode σ) (self : JvmtiBreakpoint)
    (c : σ) : σ :=
  self.each_method_version_do md mc.set_breakpoint c

/-- `JvmtiBreakpoint::clear`. -/
def JvmtiBreakpoint.clear {σ : Type} (md : Metadata) (mc : MethodCode σ)
    (self : JvmtiBreakpoint) (c : σ) : σ :=
  self.each_method_version_do md mc.clear_breakpoint c

/-- The methods on which `each_method_version_do` calls its action, in call
order: the function run with the action that notes down the method it is given. -/
def JvmtiBreakpoint.acted_on (md : Metadata) (self : JvmtiBreakpoint) : List Method :=
  self.each_method_version_do md (fun m _ log => log ++ [m]) []

/-! ## class JvmtiBreakpoints -/

/-- The registry: the growable array `_elements`. -/
structure JvmtiBreakpoints where
  _elements : List JvmtiBreakpoint
deriving DecidableEq, Repr

/-- The search loop behind `find`: the index (counted from `i`) of the first
element satisfying `p`, or `-1`. -/
def JvmtiBreakpoints.find_if (p : JvmtiBreakpoint → Bool) : Nat → List JvmtiBreakpoint → Int
  | _, [] => -1
  | i, e :: es => if p e then (i : Int) else JvmtiBreakpoints.find_if p (i + 1) es

/-- Modelled from the spec: `JvmtiBreakpoints::find` is declared in
`jvmtiImpl.hpp`, which is not among the sources.  Records are equal when
`equals` holds (method identity and offset); `find` gives the index of the
first record equal to `bp`, or `-1` when the registry holds none. -/
def JvmtiBreakpoints.find (self : JvmtiBreakpoints) (bp : JvmtiBreakpoint) : Int :=
  JvmtiBreakpoints.find_if (fun e => bp.equals e) 0 self._elements

/-- Modelled from the spec: `JvmtiBreakpoints::append` (in `jvmtiImpl.hpp`) adds a
copy of the record at the end of `_elements`. -/
def JvmtiBreakpoints.append (self : JvmtiBreakpoints) (bp : JvmtiBreakpoint) :
    JvmtiBreakpoints :=
  ⟨self._elements ++ [bp]⟩

/-- Modelled from the spec: `JvmtiBreakpoints::remove` (in `jvmtiImpl.hpp`)
destroys the record at index `i` and closes the gap, keeping the order of the
other records. -/
def JvmtiBreakpoints.remove (self : JvmtiBreakpoints) (i : Int) : JvmtiBreakpoints :=
  ⟨self._elements.eraseIdx i.toNat⟩

/-- Modelled from the spec: `JvmtiBreakpoints::length` (in `jvmtiImpl.hpp`). -/
def JvmtiBreakpoints.length (self : JvmtiBreakpoints) : Nat :=
  self._elements.length

/-- The state touched by the registry operations: the registry itself and the
code state patched by `Method::set_breakpoint` / `Method::clear_breakpoint`. -/
structure VM (σ : Type) where
  breakpoints : JvmtiBreakpoints
  code : σ

/-- `JvmtiBreakpoints::set_at_safepoint`. -/
def JvmtiBreakpoints.set_at_safepoint {σ : Type} (md : Metadata) (mc : MethodCode σ)
    (vm : VM σ) (bp : JvmtiBreakpoint) : VM σ :=
  let i := vm.breakpoints.find bp
  if i == -1 then
    { breakpoints := vm.breakpoints.append bp, code := bp.set md mc vm.code }
  else vm

/-- `JvmtiBreakpoints::clear_at_safepoint`. -/
def JvmtiBreakpoints.clear_at_safepoint {σ : Type} (md : Metadata) (mc : MethodCode σ)
    (vm : VM σ) (bp : JvmtiBreakpoint) : VM σ :=
  let i := vm.breakpoints.find bp
  if i != -1 then
    { breakpoints := vm.breakpoints.remove i, code := bp.clear md mc vm.code }
  else vm

/-- The member `_operation` of `VM_ChangeBreakpoints`. -/
inductive VM_ChangeBreakpoints.Operation where
  | SET_BREAKPOINT
  | CLEAR_BREAKPOINT
deriving DecidableEq, Repr

/-- `VM_ChangeBreakpoints::doit`: nothing happens when the method of the record
is old. -/
def VM_ChangeBreakpoints.doit {σ : Type} (md : Metadata) (mc : MethodCode σ)
    (_operation : VM_ChangeBreakpoints.Operation) (_bp : JvmtiBreakpoint) (vm : VM σ) : VM σ :=
  if md.is_old _bp._method then vm
  else
    match _operation with
    | .SET_BREAKPOINT => JvmtiBreakpoints.set_at_safepoint md mc vm _bp
    | .CLEAR_BREAKPOINT => JvmtiBreakpoints.clear_at_safepoint md mc vm _bp

/-- `JvmtiBreakpoints::set`; `VMThread::execute` runs `doit` of the operation. -/
def JvmtiBreakpoints.set {σ : Type} (md : Metadata) (mc : MethodCode σ)
    (vm : VM σ) (bp : JvmtiBreakpoint) : jvmtiError × VM σ :=
  if vm.breakpoints.find bp != -1 then (JVMTI_ERROR_DUPLICATE, vm)
  else (JVMTI_ERROR_NONE, VM_ChangeBreakpoints.doit md mc .SET_BREAKPOINT bp vm)

/-- `JvmtiBreakpoints::clear`; `VMThread::execute` runs `doit` of the operation. -/
def JvmtiBreakpoints.clear {σ : Type} (md : Metadata) (mc : MethodCode σ)
    (vm : VM σ) (bp : JvmtiBreakpoint) : jvmtiError × VM σ :=
  if vm.breakpoints.find bp == -1 then (JVMTI_ERROR_NOT_FOUND, vm)
  else (JVMTI_ERROR_NONE, VM_ChangeBreakpoints.doit md mc .CLEAR_BREAKPOINT bp vm)

/-- The loop of `clearall_in_class_at_safepoint`,
`for (int i = length() - 1; i >= 0; i--)`; the counter is `i + 1`. -/
def JvmtiBreakpoints.clearall_loop {σ : Type} (md : Metadata) (mc : MethodCode σ)
    (klass : Klass) : Nat → VM σ → VM σ
  | 0, vm => vm
  | i + 1, vm =>
    match vm.breakpoints._elements[i]? with
    | some bp =>
      if (md.method_holder bp._method).addr == klass then
        JvmtiBreakpoints.clearall_loop md mc klass i
          { breakpoints := vm.breakpoints.remove (i : Int), code := bp.clear md mc vm.code }
      else JvmtiBreakpoints.clearall_loop md mc klass i vm
    | none => JvmtiBreakpoints.clearall_loop md mc klass i vm

/-- `JvmtiBreakpoints::clearall_in_class_at_safepoint`. -/
def JvmtiBreakpoints.clearall_in_class_at_safepoint {σ : Type} (md : Metadata)
    (mc : MethodCode σ) (vm : VM σ) (klass : Klass) : VM σ :=
  JvmtiBreakpoints.clearall_loop md mc klass vm.breakpoints.length vm

/-- One operation on the registry. -/
inductive RegistryOp where
  | set (bp : JvmtiBreakpoint)
  | set_at_safepoint (bp : JvmtiBreakpoint)
  | clear (bp : JvmtiBreakpoint)
  | clear_at_safepoint (bp : JvmtiBreakpoint)
  | clearall_in_class_at_safepoint (klass : Klass)
deriving DecidableEq, Repr

/-- The state after one registry operation, run against the metadata `md` in
force when it executes. -/
def RegistryOp.apply {σ : Type} (mc : MethodCode σ) (md : Metadata) :
    RegistryOp → VM σ → VM σ
  | .set bp, vm => (JvmtiBreakpoints.set md mc vm bp).2
  | .set_at_safepoint bp, vm => JvmtiBreakpoints.set_at_safepoint md mc vm bp
  | .clear bp, vm => (JvmtiBreakpoints.clear md mc vm bp).2
  | .clear_at_safepoint bp, vm => JvmtiBreakpoints.clear_at_safepoint md mc vm bp
  | .clearall_in_class_at_safepoint klass, vm =>
    JvmtiBreakpoints.clearall_in_class_at_safepoint md mc vm klass

/-- The state after a sequence of registry operations; every step carries the
metadata in force when it executes, since redefinition changes it over time. -/
def run_ops {σ : Type} (mc : MethodCode σ) : List (Metadata × RegistryOp) → VM σ → VM σ
  | [], vm => vm
  | (md, op) :: rest, vm => run_ops mc rest (op.apply mc md vm)

/-- No two records of the registry are equal. -/
def JvmtiBreakpoints.distinct (self : JvmtiBreakpoints) : Prop :=
  self._elements.Pairwise (fun a b => a.equals b = false)

/-- The code state that records every call of `Method::set_breakpoint` (tag
`true`) and `Method::clear_breakpoint` (tag `false`) in call order. -/
def recorded : MethodCode (List (Bool × Method × Int)) where
  set_breakpoint := fun m bci log => log ++ [(true, m, bci)]
  clear_breakpoint := fun m bci log => log ++ [(false, m, bci)]

/-! ## Local-variable access: data -/

/-- The enumeration `BasicType`. -/
inductive BasicType where
  | T_BOOLEAN | T_CHAR | T_FLOAT | T_DOUBLE | T_BYTE | T_SHORT | T_INT | T_LONG
  | T_OBJECT | T_ARRAY | T_VOID | T_ADDRESS | T_NARROWOOP | T_METADATA | T_NARROWKLASS
  | T_CONFLICT | T_ILLEGAL
deriving DecidableEq, Repr

/-- The union `jvalue`: its members `i`, `j`, `f`, `d` and `l` are views of one
payload, carried here as an integer (floating-point members as their bit
pattern, the reference member `l` as the handle address, 0 for null). -/
abbrev jvalue := Int

/-- Addition of two `jint` values, wrapping around at 32 bits. -/
def jint_add (a b : Int) : Int :=
  (a + b + 2147483648) % 4294967296 - 2147483648

/-- One `StackValue` of a frame: its type tag and its payload. -/
structure StackValue where
  type : BasicType
  value : Int
deriving DecidableEq, Repr

/-- A `StackValueCollection`, the locals of a frame. -/
abbrev StackValueCollection := List StackValue

/-- Modelled from the spec: `StackValueCollection::at` (in
`stackValueCollection.hpp`, not among the sources); an index outside the
collection has no value. -/
def StackValueCollection.at (locals : StackValueCollection) (slot : Int) : Option StackValue :=
  if slot < 0 then none else locals[slot.toNat]?

/-- Writes a payload into the value at `slot`, when there is one. -/
def StackValueCollection.store (locals : StackValueCollection) (slot : Int) (v : Int) :
    Option StackValueCollection :=
  match StackValueCollection.at locals slot with
  | none => none
  | some sv => some (locals.set slot.toNat { sv with value := v })

/-- Modelled from the spec: `StackValueCollection::int_at`, `float_at` and
`obj_at` read the value at `slot`. -/
def StackValueCollection.int_at (locals : StackValueCollection) (slot : Int) : Option Int :=
  (StackValueCollection.at locals slot).map (fun sv => sv.value)

/-- Modelled from the spec: `StackValueCollection::long_at` and `double_at`: a
2-slot-wide value occupies `slot` and `slot + 1`; on a 64-bit VM the payload is
kept in the second of the two. -/
def StackValueCollection.long_at (locals : StackValueCollection) (slot : Int) : Option Int :=
  (StackValueCollection.at locals (slot + 1)).map (fun sv => sv.value)

/-- Modelled from the spec: `StackValueCollection::set_int_at`, `set_float_at`
and `set_obj_at` write the value at `slot`. -/
def StackValueCollection.set_int_at (locals : StackValueCollection) (slot : Int) (v : Int) :
    Option StackValueCollection :=
  StackValueCollection.store locals slot v

/-- Modelled from the spec: `StackValueCollection::set_long_at` and
`set_double_at` write the payload kept at `slot + 1`. -/
def StackValueCollection.set_long_at (locals : StackValueCollection) (slot : Int) (v : Int) :
    Option StackValueCollection :=
  StackValueCollection.store locals (slot + 1) v

/-- One `LocalVariableTableElement`; all four members are unsigned 16-bit. -/
structure LocalVariableTableElement where
  start_bci : Nat
  length : Nat
  slot : Nat
  descriptor_cp_index : Nat
deriving DecidableEq, Repr

/-- What `VM_BaseGetOrSetLocal` reads of a `Klass`: its `name()`, the names of
`primary_super_of_depth(idx)` for `idx < super_depth()`, and the names of its
`secondary_supers()`. -/
structure KlassInfo where
  name : Symbol
  primary_supers : List Symbol
  secondary_supers : List Symbol
deriving DecidableEq, Repr

/-- What `VM_BaseGetOrSetLocal` reads of the `Method` of a frame.  `symbol_at` is
`constants()->symbol_at`, and `is_dead bci index` is the answer of the
`InterpreterOopMap` filled by `mask_for(bci, ..)`. -/
structure MethodInfo where
  is_static : Bool
  is_native : Bool
  has_localvariable_table : Bool
  max_locals : Int
  localvariable_table : List LocalVariableTableElement
  symbol_at : Int → Symbol
  is_dead : Int → Int → Bool

/-- A `javaVFrame` as seen by the accessors: `in_continuation` is
`Continuation::is_frame_in_continuation(_jvf->thread(), fr)`, `is_heap_frame`,
`fr_can_be_deoptimized`, `id` and `native_receiver` are read through `fr()`. -/
structure FrameInfo where
  is_java_frame : Bool
  is_compiled_frame : Bool
  method : MethodInfo
  bci : Int
  locals : StackValueCollection
  in_continuation : Bool
  is_heap_frame : Bool
  fr_can_be_deoptimized : Bool
  id : Nat
  native_receiver : Int

/-- A `vframe*`: null, or a frame with its `java_sender()`. -/
inductive vframe where
  | nullptr : vframe
  | frame (info : FrameInfo) (java_sender : vframe) : vframe

/-- The frame reached from `vf` by `n` applications of `java_sender()`, if the
chain is that long. -/
def vframe.frame_at : vframe → Nat → Option FrameInfo
  | .nullptr, _ => none
  | .frame info _, 0 => some info
  | .frame _ sender, n + 1 => sender.frame_at n

/-- The number of frames on the chain starting at `vf`. -/
def vframe.height : vframe → Nat
  | .nullptr => 0
  | .frame _ sender => sender.height + 1

/-- The target `JavaThread` of `VM_GetOrSetLocal`; `last_java_vframe` is the
answer of `JvmtiEnvBase::get_cthread_last_java_vframe`. -/
structure JavaThread where
  has_last_Java_frame : Bool
  last_java_vframe : vframe
  is_suspended : Bool
  is_carrier_thread_suspended : Bool

/-- The target virtual thread of `VM_VirtualThreadGetOrSetLocal`: `is_mounted`
says that `JvmtiEnvBase::get_JavaThread_or_null` is not null, `vthread_jvf` is
the answer of `JvmtiEnvBase::get_vthread_jvf`. -/
structure VirtualThread where
  is_mounted : Bool
  is_vthread_suspended : Bool
  vthread_jvf : vframe

/-- The two subclasses of `VM_BaseGetOrSetLocal`, each with its target. -/
inductive Target where
  | thread (t : JavaThread)
  | vthread (v : VirtualThread)

/-- The members of `VM_BaseGetOrSetLocal` set by its constructors;
`getting_receiver` is true for `VM_GetReceiver` and `VM_VirtualThreadGetReceiver`. -/
structure Request where
  _depth : Int
  _index : Int
  _type : BasicType
  _value : jvalue
  _set : Bool
  _self : Bool
  getting_receiver : Bool

/-- Services of the VM used by the accessors: JNI handles, the class of an
object, the symbol table and `Signature::basic_type`. -/
structure Runtime where
  resolve_external_guard : Int → Int
  make_local : Int → Int
  klass : Int → Option KlassInfo
  new_symbol : List Char → Symbol
  as_utf8 : Symbol → List Char
  basic_type : Symbol → BasicType

/-- A change made by `doit` outside the operation object. -/
inductive Effect where
  | deoptimize_frame (id : Nat)
  | update_local (type : BasicType) (index : Int) (value : jvalue)
  | set_locals (locals : StackValueCollection)
deriving DecidableEq, Repr

/-- The operation object after `doit`, and the changes `doit` made. -/
structure Outcome where
  _result : jvmtiError
  _value : jvalue
  effects : List Effect
deriving DecidableEq, Repr

/-- The answer of a slot check: it returned `true`, it returned `false` after
setting `_result`, or it left defined behaviour (an index outside an array). -/
inductive Check where
  | pass
  | fail (e : jvmtiError)
  | fault
deriving DecidableEq, Repr

/-- `VM_BaseGetOrSetLocal::_DEFAULT_VALUE`. -/
def VM_BaseGetOrSetLocal._DEFAULT_VALUE : jvalue := 0

/-- The constructors for the getters of `VM_GetOrSetLocal` and of
`VM_VirtualThreadGetOrSetLocal`, for an object and for the other kinds: `_value`
is `_DEFAULT_VALUE` and `_set` is false. -/
def VM_BaseGetOrSetLocal.getter (depth index : Int) (type : BasicType) (self : Bool) :
    Request where
  _depth := depth
  _index := index
  _type := type
  _value := VM_BaseGetOrSetLocal._DEFAULT_VALUE
  _set := false
  _self := self
  getting_receiver := false

/-! ## Frame resolution -/

/-- The loop `while ((vf != nullptr) && (d < _depth)) { vf = vf->java_sender(); d++; }`
shared by both resolvers; it gives the final `vf` and `d`. -/
def walk_senders (_depth : Int) : vframe → Int → vframe × Int
  | .nullptr, d => (.nullptr, d)
  | .frame info sender, d =>
    if d < _depth then walk_senders _depth sender (d + 1) else (.frame info sender, d)

/-- `VM_GetOrSetLocal::get_vframe`. -/
def VM_GetOrSetLocal.get_vframe (_thread : JavaThread) (req : Request) : vframe :=
  if !_thread.has_last_Java_frame then .nullptr
  else (walk_senders req._depth _thread.last_java_vframe 0).1

/-- `VM_GetOrSetLocal::get_java_vframe`: the frame, or the error stored in
`_result` when the function returns null. -/
def VM_GetOrSetLocal.get_java_vframe (_thread : JavaThread) (req : Request) :
    Except jvmtiError FrameInfo :=
  let vf := VM_GetOrSetLocal.get_vframe _thread req
  if !req._self && !_thread.is_suspended && !_thread.is_carrier_thread_suspended then
    .error JVMTI_ERROR_THREAD_NOT_SUSPENDED
  else
    match vf with
    | .nullptr => .error JVMTI_ERROR_NO_MORE_FRAMES
    | .frame jvf _ =>
      if !jvf.is_java_frame then .error JVMTI_ERROR_OPAQUE_FRAME
      else .ok jvf

/-- `VM_VirtualThreadGetOrSetLocal::get_java_vframe`. -/
def VM_VirtualThreadGetOrSetLocal.get_java_vframe (_vthread : VirtualThread) (req : Request) :
    Except jvmtiError FrameInfo :=
  let is_cont_mounted := _vthread.is_mounted
  if !(req._self || _vthread.is_vthread_suspended) then
    .error JVMTI_ERROR_THREAD_NOT_SUSPENDED
  else
    match walk_senders req._depth _vthread.vthread_jvf 0 with
    | (.nullptr, _) => .error JVMTI_ERROR_NO_MORE_FRAMES
    | (.frame jvf _, d) =>
      if d < req._depth then .error JVMTI_ERROR_NO_MORE_FRAMES
      else if (req._set && !is_cont_mounted) || !jvf.is_java_frame then
        .error JVMTI_ERROR_OPAQUE_FRAME
      else .ok jvf

/-- The virtual function `get_java_vframe` of `VM_BaseGetOrSetLocal`. -/
def VM_BaseGetOrSetLocal.get_java_vframe (target : Target) (req : Request) :
    Except jvmtiError FrameInfo :=
  match target with
  | .thread t => VM_GetOrSetLocal.get_java_vframe t req
  | .vthread v => VM_VirtualThreadGetOrSetLocal.get_java_vframe v req

/-- The request is a self request or its target is suspended: for a thread, the
thread or its carrier; for a virtual thread, the virtual thread. -/
def Target.self_or_suspended (target : Target) (req : Request) : Bool :=
  match target with
  | .thread t => req._self || t.is_suspended || t.is_carrier_thread_suspended
  | .vthread v => req._self || v.is_vthread_suspended

/-- The top frame of the call stack of the target, null for an empty stack. -/
def Target.top (target : Target) : vframe :=
  match target with
  | .thread t => if t.has_last_Java_frame then t.last_java_vframe else .nullptr
  | .vthread v => v.vthread_jvf

/-- A thread is always mounted; a virtual thread says so itself. -/
def Target.is_mounted (target : Target) : Bool :=
  match target with
  | .thread _ => true
  | .vthread v => v.is_mounted

/-! ## class VM_BaseGetOrSetLocal -/

/-- `VM_BaseGetOrSetLocal::is_assignable`.  The signature is a C string; when it
starts with `L` and ends with `;` both characters are dropped before the symbol
is looked up. -/
def VM_BaseGetOrSetLocal.is_assignable (rt : Runtime) (ty_sign : List Char)
    (klass : KlassInfo) : Bool :=
  let len := ty_sign.length
  let name_chars :=
    if ty_sign.head? == some 'L' && ty_sign.getLast? == some ';' then
      (ty_sign.drop 1).take (len - 2)
    else ty_sign
  let ty_sym := rt.new_symbol name_chars
  if klass.name == ty_sym then true
  else if klass.primary_supers.any (fun super_name => super_name == ty_sym) then true
  else if klass.secondary_supers.any (fun super_name => super_name == ty_sym) then true
  else false

/-- The search loop of `check_slot_type_lvt`: the `descriptor_cp_index` of the
first entry for slot `_index` whose range covers `vf_bci`, or `-1`. -/
def VM_BaseGetOrSetLocal.lvt_lookup (_index vf_bci : Int) :
    List LocalVariableTableElement → Int
  | [] => -1
  | entry :: rest =>
    let start_bci : Int := entry.start_bci
    let end_bci : Int := start_bci + entry.length
    if _index == (entry.slot : Int) && decide (start_bci ≤ vf_bci) && decide (vf_bci ≤ end_bci) then
      (entry.descriptor_cp_index : Int)
    else VM_BaseGetOrSetLocal.lvt_lookup _index vf_bci rest

/-- The `switch (slot_type)` of `check_slot_type_lvt`. -/
def VM_BaseGetOrSetLocal.normalize_slot_type : BasicType → BasicType
  | .T_BYTE => .T_INT
  | .T_SHORT => .T_INT
  | .T_CHAR => .T_INT
  | .T_BOOLEAN => .T_INT
  | .T_ARRAY => .T_OBJECT
  | t => t

/-- The local `extra_slot` of both slot checks. -/
def VM_BaseGetOrSetLocal.extra_slot (req : Request) : Int :=
  if req._type == .T_LONG || req._type == .T_DOUBLE then 1 else 0

/-- `VM_BaseGetOrSetLocal::check_slot_type_lvt`. -/
def VM_BaseGetOrSetLocal.check_slot_type_lvt (rt : Runtime) (req : Request)
    (jvf : FrameInfo) : Check :=
  let method := jvf.method
  if !method.has_localvariable_table then
    let extra_slot := VM_BaseGetOrSetLocal.extra_slot req
    if req._index < 0 || jint_add req._index extra_slot ≥ method.max_locals then
      .fail JVMTI_ERROR_INVALID_SLOT
    else .pass
  else
    let num_entries := method.localvariable_table.length
    if num_entries == 0 then .fail JVMTI_ERROR_INVALID_SLOT
    else
      let vf_bci := jvf.bci
      let signature_idx :=
        VM_BaseGetOrSetLocal.lvt_lookup req._index vf_bci method.localvariable_table
      if signature_idx == -1 then .fail JVMTI_ERROR_INVALID_SLOT
      else
        let sign_sym := method.symbol_at signature_idx
        let slot_type := VM_BaseGetOrSetLocal.normalize_slot_type (rt.basic_type sign_sym)
        if req._type != slot_type then .fail JVMTI_ERROR_TYPE_MISMATCH
        else
          let jobj := req._value
          if req._set && slot_type == .T_OBJECT && jobj != 0 then
            let obj := rt.resolve_external_guard jobj
            if obj == 0 then .fail JVMTI_ERROR_INVALID_OBJECT
            else
              match rt.klass obj with
              | none => .fail JVMTI_ERROR_INVALID_OBJECT
              | some ob_k =>
                let signature := rt.as_utf8 sign_sym
                if !VM_BaseGetOrSetLocal.is_assignable rt signature ob_k then
                  .fail JVMTI_ERROR_TYPE_MISMATCH
                else .pass
          else .pass

/-- `VM_BaseGetOrSetLocal::check_slot_type_no_lvt`. -/
def VM_BaseGetOrSetLocal.check_slot_type_no_lvt (req : Request) (jvf : FrameInfo) : Check :=
  let method := jvf.method
  let extra_slot := VM_BaseGetOrSetLocal.extra_slot req
  if req._index < 0 || jint_add req._index extra_slot ≥ method.max_locals then
    .fail JVMTI_ERROR_INVALID_SLOT
  else
    let locals := jvf.locals
    match StackValueCollection.at locals req._index with
    | none => .fault
    | some sv =>
      let slot_type := sv.type
      if slot_type == .T_CONFLICT then .fail JVMTI_ERROR_INVALID_SLOT
      else
        let type_check : Check :=
          if req._type != slot_type && (req._type == .T_OBJECT || slot_type != .T_INT) then
            .fail JVMTI_ERROR_TYPE_MISMATCH
          else .pass
        if extra_slot != 0 then
          match StackValueCollection.at locals (jint_add req._index 1) with
          | none => .fault
          | some sv2 =>
            let extra_slot_type := sv2.type
            if extra_slot_type != .T_INT then .fail JVMTI_ERROR_INVALID_SLOT
            else type_check
        else type_check

/-- The static function `can_be_deoptimized`. -/
def can_be_deoptimized (vf : FrameInfo) : Bool :=
  vf.is_compiled_frame && vf.fr_can_be_deoptimized

/-- The checks of `doit` between the continuation test and the liveness test:
the receiver branch, or the native test followed by the two slot checks. -/
def VM_BaseGetOrSetLocal.doit_checks (rt : Runtime) (req : Request) (jvf : FrameInfo) :
    Check :=
  let method := jvf.method
  if req.getting_receiver then
    if method.is_static then .fail JVMTI_ERROR_INVALID_SLOT else .pass
  else
    if method.is_native then .fail JVMTI_ERROR_OPAQUE_FRAME
    else
      match VM_BaseGetOrSetLocal.check_slot_type_no_lvt req jvf with
      | .fail e => .fail e
      | .fault => .fault
      | .pass =>
        if method.has_localvariable_table then
          VM_BaseGetOrSetLocal.check_slot_type_lvt rt req jvf
        else .pass

/-- The `if (_set)` branch of `doit`, reached after all checks. -/
def VM_BaseGetOrSetLocal.doit_set (rt : Runtime) (target : Target) (req : Request)
    (jvf : FrameInfo) : Option Outcome :=
  if jvf.is_heap_frame then
    some ⟨JVMTI_ERROR_OPAQUE_FRAME, req._value, []⟩
  else if can_be_deoptimized jvf then
    if jvf.in_continuation then
      some ⟨JVMTI_ERROR_OPAQUE_FRAME, req._value, []⟩
    else
      let value := if req._type == .T_OBJECT then rt.resolve_external_guard req._value
        else req._value
      match VM_BaseGetOrSetLocal.get_java_vframe target req with
      | .error e => some ⟨e, value, [.deoptimize_frame jvf.id]⟩
      | .ok _ =>
        some ⟨JVMTI_ERROR_NONE, value,
          [.deoptimize_frame jvf.id, .update_local req._type req._index value]⟩
  else
    let locals := jvf.locals
    let stored : Option StackValueCollection :=
      match req._type with
      | .T_INT => StackValueCollection.set_int_at locals req._index req._value
      | .T_LONG => StackValueCollection.set_long_at locals req._index req._value
      | .T_FLOAT => StackValueCollection.set_int_at locals req._index req._value
      | .T_DOUBLE => StackValueCollection.set_long_at locals req._index req._value
      | .T_OBJECT =>
        StackValueCollection.set_int_at locals req._index
          (rt.resolve_external_guard req._value)
      | _ => none
    match stored with
    | none => none
    | some locals2 => some ⟨JVMTI_ERROR_NONE, req._value, [.set_locals locals2]⟩

/-- The `else` branch of `if (_set)` in `doit`. -/
def VM_BaseGetOrSetLocal.doit_get (rt : Runtime) (req : Request) (jvf : FrameInfo) :
    Option Outcome :=
  if jvf.method.is_native && jvf.is_compiled_frame then
    let receiver := jvf.native_receiver
    some ⟨JVMTI_ERROR_NONE, rt.make_local receiver, []⟩
  else
    let locals := jvf.locals
    let read : Option jvalue :=
      match req._type with
      | .T_INT => StackValueCollection.int_at locals req._index
      | .T_LONG => StackValueCollection.long_at locals req._index
      | .T_FLOAT => StackValueCollection.int_at locals req._index
      | .T_DOUBLE => StackValueCollection.long_at locals req._index
      | .T_OBJECT => (StackValueCollection.int_at locals req._index).map rt.make_local
      | _ => none
    match read with
    | none => none
    | some v => some ⟨JVMTI_ERROR_NONE, v, []⟩

/-- `VM_BaseGetOrSetLocal::doit`.  The answer is `none` when the operation leaves
defined behaviour (an index outside the locals, or `ShouldNotReachHere`). -/
def VM_BaseGetOrSetLocal.doit (rt : Runtime) (target : Target) (req : Request) :
    Option Outcome :=
  match VM_BaseGetOrSetLocal.get_java_vframe target req with
  | .error e => some ⟨e, req._value, []⟩
  | .ok jvf =>
    if req._set && req._depth != 0 && jvf.in_continuation then
      some ⟨JVMTI_ERROR_OPAQUE_FRAME, req._value, []⟩
    else
      match VM_BaseGetOrSetLocal.doit_checks rt req jvf with
      | .fail e => some ⟨e, req._value, []⟩
      | .fault => none
      | .pass =>
        if jvf.method.is_dead jvf.bci req._index then
          some ⟨JVMTI_ERROR_INVALID_SLOT, req._value, []⟩
        else if req._set then VM_BaseGetOrSetLocal.doit_set rt target req jvf
        else VM_BaseGetOrSetLocal.doit_get rt req jvf

/-! ## class JvmtiDeferredEvent

A deferred event is a tag `_type` together with the member of the union
`_event_data` that its factory function filled in; the two are modelled by one
inductive type whose constructor is the tag.  A `char*` name is an
`Option String`: `none` is the null pointer, `some s` a block that holds the
characters `s`. -/

/-- An `nmethod*`. -/
abbrev nmethod := Nat

/-- A `jmethodID`. -/
abbrev jmethodID := Nat

/-- A code address, `const void*`. -/
abbrev address := Nat

/-- A `JvmtiEnv*`. -/
abbrev JvmtiEnv := Nat

/-- Modelled from the spec: `JvmtiDeferredEvent` (declared in `jvmtiImpl.hpp`,
not among the sources), a tagged variant of the four kinds of event;
`TYPE_NONE` is the tag that the default constructor `JvmtiDeferredEvent()`
gives. -/
inductive JvmtiDeferredEvent where
  | TYPE_NONE
  | TYPE_COMPILED_METHOD_LOAD (compiled_method_load : nmethod)
  | TYPE_COMPILED_METHOD_UNLOAD (method_id : jmethodID) (code_begin : address)
  | TYPE_DYNAMIC_CODE_GENERATED (name : Option String) (code_begin code_end : address)
  | TYPE_CLASS_UNLOAD (name : Option String)
  deriving DecidableEq, Repr

/-- Modelled from the spec: `os::strdup` (in `os.cpp`, not among the sources)
returns a private copy of the characters, or the null pointer when the copy
cannot be allocated; `can_allocate` tells which of the two happens. -/
def os.strdup (can_allocate : Bool) (name : String) : Option String :=
  if can_allocate then some name else none

/-- `JvmtiDeferredEvent::compiled_method_load_event`. -/
def JvmtiDeferredEvent.compiled_method_load_event (nm : nmethod) : JvmtiDeferredEvent :=
  .TYPE_COMPILED_METHOD_LOAD nm

/-- `JvmtiDeferredEvent::compiled_method_unload_event`. -/
def JvmtiDeferredEvent.compiled_method_unload_event (id : jmethodID) (code : address) :
    JvmtiDeferredEvent :=
  .TYPE_COMPILED_METHOD_UNLOAD id code

/-- `JvmtiDeferredEvent::dynamic_code_generated_event`: the event keeps a copy
of the name made by `os::strdup`. -/
def JvmtiDeferredEvent.dynamic_code_generated_event (can_allocate : Bool) (name : String)
    (code_begin code_end : address) : JvmtiDeferredEvent :=
  .TYPE_DYNAMIC_CODE_GENERATED (os.strdup can_allocate name) code_begin code_end

/-- `JvmtiDeferredEvent::class_unload_event`: the event keeps a copy of the name
made by `os::strdup`. -/
def JvmtiDeferredEvent.class_unload_event (can_allocate : Bool) (name : String) :
    JvmtiDeferredEvent :=
  .TYPE_CLASS_UNLOAD (os.strdup can_allocate name)

/-- A call made while events are posted: into `JvmtiExport`, or `os::free` on
the block that holds a name.  `post_compiled_method_load` has an overload
without an environment (`env` is `none`) and one with.  Its argument `nm` is
`none` for a pointer that is the address of no nmethod of the event: the bytes
of another member of the union, read as an `nmethod*`. -/
inductive Call where
  | post_compiled_method_load (env : Option JvmtiEnv) (nm : Option nmethod)
  | post_compiled_method_unload (method_id : jmethodID) (code_begin : address)
  | post_dynamic_code_generated_internal (name : String) (code_begin code_end : address)
  | post_class_unload_internal (name : String)
  | free (name : String)
  deriving DecidableEq, Repr

/-- The assertions of the event code, named after their messages.  A function
of the model does what a product build does and reports which of its assertions
did not hold. -/
inductive Assertion where
  | service_thread_must_post
  | only_user_of_this_method
  | must_be_the_last_element
  | inconsistent_queue_markers
  | nothing_to_dequeue
  deriving DecidableEq, Repr

/-- `JvmtiDeferredEvent::post`: the calls made, in order, and the assertions
that failed; `none` is `ShouldNotReachHere()`. -/
def JvmtiDeferredEvent.post (is_service_thread : Bool) :
    JvmtiDeferredEvent → Option (List Call × List Assertion)
  | .TYPE_COMPILED_METHOD_LOAD nm =>
    some ([.post_compiled_method_load none (some nm)],
      if is_service_thread then [] else [.service_thread_must_post])
  | .TYPE_COMPILED_METHOD_UNLOAD method_id code_begin =>
    some ([.post_compiled_method_unload method_id code_begin],
      if is_service_thread then [] else [.service_thread_must_post])
  | .TYPE_DYNAMIC_CODE_GENERATED name code_begin code_end =>
    some (
      [.post_dynamic_code_generated_internal
        (match name with
         | none => "unknown_code"
         | some s => s)
        code_begin code_end]
      ++ (match name with
          | none => []
          | some s => [.free s]),
      if is_service_thread then [] else [.service_thread_must_post])
  | .TYPE_CLASS_UNLOAD name =>
    some (
      [.post_class_unload_internal
        (match name with
         | none => "unknown_class"
         | some s => s)]
      ++ (match name with
          | none => []
          | some s => [.free s]),
      if is_service_thread then [] else [.service_thread_must_post])
  | .TYPE_NONE => none

/-- The member `compiled_method_load` of the union `_event_data`, read without a
look at the tag: the nmethod of a compiled-method-load event; for an event of
another kind the bytes of the member in use, which are the address of no
nmethod of the event (`none`). -/
def JvmtiDeferredEvent.compiled_method_load : JvmtiDeferredEvent → Option nmethod
  | .TYPE_COMPILED_METHOD_LOAD nm => some nm
  | _ => none

/-- `JvmtiDeferredEvent::post_compiled_method_load_event`: the call made and the
assertions that failed.  The call is made for an event of any kind, with the
member `compiled_method_load` of the union as it is; for an event of another
kind than compiled-method-load the assertion fails. -/
def JvmtiDeferredEvent.post_compiled_method_load_event (env : JvmtiEnv)
    (event : JvmtiDeferredEvent) : Call × List Assertion :=
  (.post_compiled_method_load (some env) event.compiled_method_load,
    match event with
    | .TYPE_COMPILED_METHOD_LOAD _ => []
    | _ => [.only_user_of_this_method])

/-- `JvmtiDeferredEvent::run_nmethod_entry_barriers`: the nmethods whose entry
barrier is run. -/
def JvmtiDeferredEvent.run_nmethod_entry_barriers : JvmtiDeferredEvent → List nmethod
  | .TYPE_COMPILED_METHOD_LOAD nm => [nm]
  | _ => []

/-- `JvmtiDeferredEvent::oops_do`: the nmethods passed to `cf->do_nmethod`; the
closure pointers are addresses, 0 for null. -/
def JvmtiDeferredEvent.oops_do (_f : Nat) (cf : Nat) : JvmtiDeferredEvent → List nmethod
  | .TYPE_COMPILED_METHOD_LOAD nm => if cf != 0 then [nm] else []
  | _ => []

/-- `JvmtiDeferredEvent::nmethods_do`: the nmethods passed to `cf->do_nmethod`. -/
def JvmtiDeferredEvent.nmethods_do (cf : Nat) : JvmtiDeferredEvent → List nmethod
  | .TYPE_COMPILED_METHOD_LOAD nm => if cf != 0 then [nm] else []
  | _ => []

/-! ## class JvmtiDeferredEventQueue

The queue is a chain of individually allocated nodes.  The nodes in use are
kept in a table from addresses to nodes, the queue holds the addresses
`_queue_head` and `_queue_tail` (0 for null), and following a pointer is a
lookup in the table, which fails for a pointer to no node.  A loop over the
chain takes a bound on its iterations, since a chain in an arbitrary table may
be cyclic. -/

/-- Modelled from the spec: `JvmtiDeferredEventQueue::QueueNode` (declared in
`jvmtiImpl.hpp`): an event and the address of the next node, which the
constructor sets to null. -/
structure QueueNode where
  _event : JvmtiDeferredEvent
  _next : Nat
  deriving DecidableEq, Repr

/-- The nodes in use, by address. -/
abbrev NodeHeap := List (Nat × QueueNode)

/-- The node at an address, `none` when the address is that of no node. -/
def NodeHeap.at : NodeHeap → Nat → Option QueueNode
  | [], _ => none
  | (a, n) :: rest, p => if a == p then some n else NodeHeap.at rest p

/-- Modelled from the spec: the address that `new QueueNode` returns is not
null and not that of a node in use; the model takes the address after the
largest one in use. -/
def NodeHeap.fresh (heap : NodeHeap) : Nat :=
  (heap.map Prod.fst).foldr max 0 + 1

/-- `QueueNode::set_next` on the node at an address. -/
def NodeHeap.set_next (heap : NodeHeap) (p : Nat) (next : Nat) : NodeHeap :=
  heap.map (fun x => if x.1 == p then (x.1, { x.2 with _next := next }) else x)

/-- The nodes in use after `delete` on the node at an address. -/
def NodeHeap.delete (heap : NodeHeap) (p : Nat) : NodeHeap :=
  heap.filter (fun x => x.1 != p)

/-- Modelled from the spec: `JvmtiDeferredEventQueue` (declared in
`jvmtiImpl.hpp`): the two markers, and the nodes that the queue allocated and
has not deleted. -/
structure JvmtiDeferredEventQueue where
  nodes : NodeHeap
  _queue_head : Nat
  _queue_tail : Nat
  deriving DecidableEq, Repr

/-- Modelled from the spec: the constructor of `JvmtiDeferredEventQueue` sets both
markers to null. -/
def JvmtiDeferredEventQueue.empty : JvmtiDeferredEventQueue :=
  { nodes := [], _queue_head := 0, _queue_tail := 0 }

/-- The VM phases of the JVMTI interface (`jvmtiPhase`). -/
inductive jvmtiPhase where
  | JVMTI_PHASE_ONLOAD
  | JVMTI_PHASE_PRIMORDIAL
  | JVMTI_PHASE_START
  | JVMTI_PHASE_LIVE
  | JVMTI_PHASE_DEAD
  deriving DecidableEq, Repr

/-- `JvmtiDeferredEventQueue::has_events`; `phase` is what
`JvmtiEnvBase::get_phase()` returns. -/
def JvmtiDeferredEventQueue.has_events (phase : jvmtiPhase) (q : JvmtiDeferredEventQueue) :
    Bool :=
  phase == .JVMTI_PHASE_LIVE && q._queue_head != 0

/-- The assertion on the queue markers that closes `enqueue` and `dequeue`. -/
def JvmtiDeferredEventQueue.check_markers (q : JvmtiDeferredEventQueue) : List Assertion :=
  if (q._queue_head == 0) == (q._queue_tail == 0) then [] else [.inconsistent_queue_markers]

/-- `JvmtiDeferredEventQueue::enqueue`: the queue afterwards and the assertions
that failed; `none` when a pointer to no node is followed. -/
def JvmtiDeferredEventQueue.enqueue (q : JvmtiDeferredEventQueue) (event : JvmtiDeferredEvent) :
    Option (JvmtiDeferredEventQueue × List Assertion) :=
  let node := NodeHeap.fresh q.nodes
  let nodes : NodeHeap := q.nodes ++ [(node, { _event := event, _next := 0 })]
  if q._queue_tail == 0 then
    let q1 : JvmtiDeferredEventQueue :=
      { nodes := nodes, _queue_head := node, _queue_tail := node }
    some (q1, q1.check_markers)
  else
    match NodeHeap.at nodes q._queue_tail with
    | none => none
    | some tail =>
      let last : List Assertion :=
        if tail._next == 0 then [] else [.must_be_the_last_element]
      let q1 : JvmtiDeferredEventQueue :=
        { nodes := NodeHeap.set_next nodes q._queue_tail node,
          _queue_head := q._queue_head, _queue_tail := node }
      some (q1, last ++ q1.check_markers)

/-- `JvmtiDeferredEventQueue::dequeue`: the event returned, the queue afterwards
and the assertions that failed; `none` when a pointer to no node is followed. -/
def JvmtiDeferredEventQueue.dequeue (q : JvmtiDeferredEventQueue) :
    Option (JvmtiDeferredEvent × JvmtiDeferredEventQueue × List Assertion) :=
  let nothing : List Assertion :=
    if q._queue_head != 0 then [] else [.nothing_to_dequeue]
  if q._queue_head == 0 then
    some (.TYPE_NONE, q, nothing)
  else
    match NodeHeap.at q.nodes q._queue_head with
    | none => none
    | some node =>
      let head := node._next
      let q1 : JvmtiDeferredEventQueue :=
        { nodes := q.nodes, _queue_head := head,
          _queue_tail := if head == 0 then 0 else q._queue_tail }
      let event := node._event
      some (event, { q1 with nodes := NodeHeap.delete q.nodes q._queue_head },
        nothing ++ q1.check_markers)

/-- `JvmtiDeferredEventQueue::post`: the queue afterwards, the calls made, in
order, and the assertions that failed, each call taken to return; `fuel` bounds
the iterations of the loop, and `none` is a loop that is not over within the
bound or that follows a pointer to no node. -/
def JvmtiDeferredEventQueue.post (env : JvmtiEnv) :
    Nat → JvmtiDeferredEventQueue → Option (JvmtiDeferredEventQueue × List Call × List Assertion)
  | 0, q => if q._queue_head == 0 then some (q, [], []) else none
  | fuel + 1, q =>
    if q._queue_head == 0 then some (q, [], [])
    else
      match NodeHeap.at q.nodes q._queue_head with
      | none => none
      | some node =>
        let posted := node._event.post_compiled_method_load_event env
        match q.dequeue with
        | none => none
        | some (_, q1, failed) =>
          match JvmtiDeferredEventQueue.post env fuel q1 with
          | none => none
          | some (q2, calls, failed2) =>
            some (q2, posted.1 :: calls, posted.2 ++ failed ++ failed2)

/-- The loop `for (node = start; node != nullptr; node = node->next())` that
the three hooks of the queue share: the nmethods that `visit` reaches on the
events, in order; `fuel` bounds the iterations. -/
def NodeHeap.for_each_node (heap : NodeHeap) (visit : JvmtiDeferredEvent → List nmethod) :
    Nat → Nat → Option (List nmethod)
  | 0, node => if node == 0 then some [] else none
  | fuel + 1, node =>
    if node == 0 then some []
    else
      match NodeHeap.at heap node with
      | none => none
      | some n =>
        (NodeHeap.for_each_node heap visit fuel n._next).map (fun l => visit n._event ++ l)

/-- `JvmtiDeferredEventQueue::run_nmethod_entry_barriers`: the nmethods whose
entry barrier is run, in order. -/
def JvmtiDeferredEventQueue.run_nmethod_entry_barriers (fuel : Nat)
    (q : JvmtiDeferredEventQueue) : Option (List nmethod) :=
  NodeHeap.for_each_node q.nodes JvmtiDeferredEvent.run_nmethod_entry_barriers fuel
    q._queue_head

/-- `JvmtiDeferredEventQueue::oops_do`: the nmethods passed to `cf->do_nmethod`,
in order. -/
def JvmtiDeferredEventQueue.oops_do (f : Nat) (cf : Nat) (fuel : Nat)
    (q : JvmtiDeferredEventQueue) : Option (List nmethod) :=
  NodeHeap.for_each_node q.nodes (JvmtiDeferredEvent.oops_do f cf) fuel q._queue_head

/-- `JvmtiDeferredEventQueue::nmethods_do`: the nmethods passed to
`cf->do_nmethod`, in order. -/
def JvmtiDeferredEventQueue.nmethods_do (cf : Nat) (fuel : Nat)
    (q : JvmtiDeferredEventQueue) : Option (List nmethod) :=
  NodeHeap.for_each_node q.nodes (JvmtiDeferredEvent.nmethods_do cf) fuel q._queue_head

/-! ## Vocabulary for the properties of the slot checks -/

/-- The test made on each entry by the search loop of `check_slot_type_lvt`: the
entry is for slot `_index` and its range, both ends included, covers `vf_bci`. -/
def LocalVariableTableElement.covers (entry : LocalVariableTableElement)
    (_index vf_bci : Int) : Bool :=
  _index == (entry.slot : Int) && decide ((entry.start_bci : Int) ≤ vf_bci)
    && decide (vf_bci ≤ (entry.start_bci : Int) + entry.length)

/-- The declared type name in the words of the specification: the signature with
a leading `L` and a trailing `;` stripped when both are present, otherwise the
signature unchanged. -/
def declared_type_name (signature : List Char) : List Char :=
  if signature.head? = some 'L' ∧ signature.getLast? = some ';' then
    signature.tail.dropLast
  else signature

/-! ## The target after an operation -/

/-- The five kinds of a local variable that the constructors of
`VM_BaseGetOrSetLocal` are called with. -/
def BasicType.is_local_kind : BasicType → Bool
  | .T_INT => true
  | .T_LONG => true
  | .T_FLOAT => true
  | .T_DOUBLE => true
  | .T_OBJECT => true
  | _ => false

/-- The frame reached from `vf` by `n` applications of `java_sender()`, null when
the chain is shorter. -/
def vframe.drop : vframe → Nat → vframe
  | .nullptr, _ => .nullptr
  | .frame info sender, 0 => .frame info sender
  | .frame _ sender, n + 1 => sender.drop n

/-- The chain with the frame `n` senders down replaced by its image under `g`. -/
def vframe.modify_at : vframe → Nat → (FrameInfo → FrameInfo) → vframe
  | .nullptr, _, _ => .nullptr
  | .frame info sender, 0, g => .frame (g info) sender
  | .frame info sender, n + 1, g => .frame info (sender.modify_at n g)

/-- The target with the frame `n` senders below its top frame replaced by its
image under `g`. -/
def Target.modify_at (target : Target) (n : Nat) (g : FrameInfo → FrameInfo) : Target :=
  match target with
  | .thread t => .thread { t with last_java_vframe := t.last_java_vframe.modify_at n g }
  | .vthread v => .vthread { v with vthread_jvf := v.vthread_jvf.modify_at n g }

/-- Modelled from the spec: a deferred update recorded by
`compiledVFrame::update_local` (in `vframe_hp.cpp`, not among the sources) is
applied to the locals of every frame resolved afterwards, with the accessor of
its kind: the same store that `doit` makes directly into a frame that is not
optimized. -/
def StackValueCollection.update_deferred_value (locals : StackValueCollection)
    (type : BasicType) (index : Int) (value : jvalue) : StackValueCollection :=
  match type with
  | .T_INT => (StackValueCollection.set_int_at locals index value).getD locals
  | .T_LONG => (StackValueCollection.set_long_at locals index value).getD locals
  | .T_FLOAT => (StackValueCollection.set_int_at locals index value).getD locals
  | .T_DOUBLE => (StackValueCollection.set_long_at locals index value).getD locals
  | .T_OBJECT => (StackValueCollection.set_int_at locals index value).getD locals
  | _ => locals

/-- Modelled from the spec: what a change made by `doit` does to the frame it
addresses, as a later resolution sees it (`javaVFrame::set_locals`,
`compiledVFrame::update_local` and `Deoptimization::deoptimize_frame` are not
among the sources).  `set_locals` stores the collection into the frame; a
deferred update shows in the locals of the frame; a scheduled deoptimization,
once it has run (`discarded`), leaves the same logical frame (method, offset,
locals) rebuilt as a frame that is not compiled. -/
def Effect.apply (discarded : Bool) : Effect → FrameInfo → FrameInfo
  | .set_locals locals, f => { f with locals := locals }
  | .update_local type index value, f =>
    { f with locals := StackValueCollection.update_deferred_value f.locals type index value }
  | .deoptimize_frame id, f =>
    if discarded && f.id == id then
      { f with is_compiled_frame := false, fr_can_be_deoptimized := false }
    else f

/-- The target after an operation with request `req` made the changes `effects`
to the frame it addressed. -/
def Target.after (discarded : Bool) (target : Target) (req : Request)
    (effects : List Effect) : Target :=
  effects.foldl (fun t e => t.modify_at req._depth.toNat (e.apply discarded)) target

/-! ## Vocabulary for the properties of the event queue -/

/-- The events of the chain of nodes that starts at an address, first to last;
the chain is followed for at most the given number of nodes and ends at null or
at a pointer to no node. -/
def NodeHeap.events (heap : NodeHeap) : Nat → Nat → List JvmtiDeferredEvent
  | 0, _ => []
  | fuel + 1, node =>
    if node == 0 then []
    else
      match NodeHeap.at heap node with
      | none => []
      | some n => n._event :: NodeHeap.events heap fuel n._next

/-- The events in the queue, head first: those of the chain that starts at
`_queue_head`. -/
def JvmtiDeferredEventQueue.events (q : JvmtiDeferredEventQueue) : List JvmtiDeferredEvent :=
  NodeHeap.events q.nodes q.nodes.length q._queue_head

/-- Whether the chain that starts at `node` comes to the node at the address
`target` within the given number of nodes. -/
def NodeHeap.reaches (heap : NodeHeap) (target : Nat) : Nat → Nat → Bool
  | 0, _ => false
  | fuel + 1, node =>
    node != 0 &&
      (node == target ||
        match NodeHeap.at heap node with
        | none => false
        | some n => NodeHeap.reaches heap target fuel n._next)

/-- An operation on the queue. -/
inductive QueueOp where
  | enqueue (event : JvmtiDeferredEvent)
  | dequeue
  deriving DecidableEq, Repr

/-- A sequence of operations on the queue, first to last: the queue afterwards,
the events that the dequeue operations returned, in order, and the assertions
that failed. -/
def JvmtiDeferredEventQueue.run :
    List QueueOp → JvmtiDeferredEventQueue →
      Option (JvmtiDeferredEventQueue × List JvmtiDeferredEvent × List Assertion)
  | [], q => some (q, [], [])
  | .enqueue event :: ops, q =>
    match q.enqueue event with
    | none => none
    | some (q1, failed) =>
      match JvmtiDeferredEventQueue.run ops q1 with
      | none => none
      | some (q2, out, failed2) => some (q2, out, failed ++ failed2)
  | .dequeue :: ops, q =>
    match q.dequeue with
    | none => none
    | some (event, q1, failed) =>
      match JvmtiDeferredEventQueue.run ops q1 with
      | none => none
      | some (q2, out, failed2) => some (q2, event :: out, failed ++ failed2)

/-- The list that the specification compares the queue with: enqueue appends at
the tail. -/
def FifoList.enqueue (l : List JvmtiDeferredEvent) (event : JvmtiDeferredEvent) :
    List JvmtiDeferredEvent :=
  l ++ [event]

/-- The list that the specification compares the queue with: dequeue removes
the head and returns it; from the empty list it returns a default event. -/
def FifoList.dequeue : List JvmtiDeferredEvent → JvmtiDeferredEvent × List JvmtiDeferredEvent
  | [] => (.TYPE_NONE, [])
  | event :: rest => (event, rest)

/-- A sequence of operations on the list of the specification: the list
afterwards and the events that the dequeue operations returned, in order. -/
def FifoList.run :
    List QueueOp → List JvmtiDeferredEvent → List JvmtiDeferredEvent × List JvmtiDeferredEvent
  | [], l => (l, [])
  | .enqueue event :: ops, l => FifoList.run ops (FifoList.enqueue l event)
  | .dequeue :: ops, l =>
    ((FifoList.run ops (FifoList.dequeue l).2).1,
      (FifoList.dequeue l).1 :: (FifoList.run ops (FifoList.dequeue l).2).2)

/-- The code object of a compiled-code-loaded event, `none` for an event of
another kind. -/
def JvmtiDeferredEvent.code_object : JvmtiDeferredEvent → Option nmethod
  | .TYPE_COMPILED_METHOD_LOAD nm => some nm
  | _ => none

/-- The phases before the live phase. -/
def jvmtiPhase.before_live : jvmtiPhase → Bool
  | .JVMTI_PHASE_ONLOAD => true
  | .JVMTI_PHASE_PRIMORDIAL => true
  | .JVMTI_PHASE_START => true
  | _ => false

/-- The nodes of a table form, in the order of the table, one chain that starts
at `head` and ends at null. -/
def NodeHeap.linked : NodeHeap → Nat → Prop
  | [], head => head = 0
  | (a, n) :: rest, head => head = a ∧ a ≠ 0 ∧ NodeHeap.linked rest n._next

/-- The representation invariant of the queue: its nodes form one chain from
`_queue_head`, no two at the same address, and `_queue_tail` is the address of
the last one, null when there is none. -/
def JvmtiDeferredEventQueue.well_formed (q : JvmtiDeferredEventQueue) : Prop :=
  NodeHeap.linked q.nodes q._queue_head ∧ (q.nodes.map Prod.fst).Nodup ∧
    q._queue_tail = ((q.nodes.map Prod.fst).getLast?).getD 0

/-! ## A small concrete class hierarchy used to evaluate the definitions

Class 100 declares the methods 1 and 4.  It was redefined twice: its previous
version 101 holds method 2, an old but not obsolete version of method 1 (same
name and signature), and the version before that, 102, holds method 3, an
obsolete version.  Class 200 declares method 5. -/

/-- The oldest version of class 100. -/
def klass102 : InstanceKlass := .klass 102 [3] .nullptr

/-- The previous version of class 100. -/
def klass101 : InstanceKlass := .klass 101 [4, 2] klass102

/-- The current version of class 100. -/
def klass100 : InstanceKlass := .klass 100 [1, 4] klass101

/-- Class 200, never redefined. -/
def klass200 : InstanceKlass := .klass 200 [5] .nullptr

/-- The metadata of the example: methods 2 and 3 are old, method 3 is obsolete. -/
def world : Metadata where
  method_holder := fun m =>
    if m = 1 ∨ m = 4 then klass100
    else if m = 2 then klass101
    else if m = 3 then klass102
    else klass200
  name := fun m => if m = 1 ∨ m = 2 ∨ m = 3 then 7 else 8
  signature := fun _ => 9
  is_old := fun m => decide (m = 2 ∨ m = 3)
  is_obsolete := fun m => decide (m = 3)

/-- The empty registry with no breakpoint call recorded yet. -/
def vm_empty : VM (List (Bool × Method × Int)) := ⟨⟨[]⟩, []⟩

/-! ## A small concrete call stack used to evaluate the definitions -/

/-- An instance method with two locals and no local-variable table. -/
def method_example : MethodInfo where
  is_static := false
  is_native := false
  has_localvariable_table := false
  max_locals := 2
  localvariable_table := []
  symbol_at := fun _ => 0
  is_dead := fun _ _ => false

/-- An interpreted Java frame of `method_example` with the given identity. -/
def frame_example (id : Nat) : FrameInfo where
  is_java_frame := true
  is_compiled_frame := false
  method := method_example
  bci := 0
  locals := [⟨.T_INT, 11⟩, ⟨.T_INT, 22⟩]
  in_continuation := false
  is_heap_frame := false
  fr_can_be_deoptimized := false
  id := id
  native_receiver := 0

/-- A call stack of height 2: frame 1 on top, called by frame 2. -/
def stack_example : vframe :=
  .frame (frame_example 1) (.frame (frame_example 2) .nullptr)

/-- A suspended platform thread running `stack_example`. -/
def thread_example : JavaThread where
  has_last_Java_frame := true
  last_java_vframe := stack_example
  is_suspended := true
  is_carrier_thread_suspended := false

/-- A suspended virtual thread that is not mounted, with `stack_example` as its
frames. -/
def vthread_example : VirtualThread where
  is_mounted := false
  is_vthread_suspended := true
  vthread_jvf := stack_example

/-- A runtime whose handles are the objects themselves and that knows no class. -/
def runtime_example : Runtime where
  resolve_external_guard := fun h => h
  make_local := fun o => o
  klass := fun _ => none
  new_symbol := fun _ => 0
  as_utf8 := fun _ => []
  basic_type := fun _ => .T_INT

/-- A non-self request on the `int` local 0 of the frame at depth 1. -/
def request_example (set : Bool) : Request where
  _depth := 1
  _index := 0
  _type := .T_INT
  _value := 5
  _set := set
  _self := false
  getting_receiver := false

/-- A frame of `method_example` that is kept on the heap, inside a continuation. -/
def frame_heap : FrameInfo :=
  { frame_example 3 with is_heap_frame := true, in_continuation := true }

/-- A suspended platform thread whose only frame is `frame_heap`. -/
def thread_heap : JavaThread :=
  { thread_example with last_java_vframe := .frame frame_heap .nullptr }

/-- A suspended platform thread whose caller frame lies inside a continuation. -/
def thread_continuation : JavaThread :=
  { thread_example with
    last_java_vframe :=
      .frame (frame_example 1)
        (.frame { frame_example 2 with in_continuation := true } .nullptr) }

/-- A native instance method. -/
def method_native : MethodInfo :=
  { method_example with is_native := true }

/-- A compiled frame of `method_native` whose receiver is the object 77. -/
def frame_native : FrameInfo :=
  { frame_example 4 with method := method_native, is_compiled_frame := true,
                         native_receiver := 77 }

/-- A suspended platform thread whose only frame is `frame_native`. -/
def thread_native : JavaThread :=
  { thread_example with last_java_vframe := .frame frame_native .nullptr }

/-- A self request on the top frame, for the given slot and kind, carrying 5. -/
def request_top (set : Bool) (index : Int) (type : BasicType) : Request where
  _depth := 0
  _index := index
  _type := type
  _value := 5
  _set := set
  _self := true
  getting_receiver := false

/-- A method with three locals and a local-variable table: slot 0 is declared with
the descriptor at constant-pool index 1, slot 1 with the one at index 2 and, in a
later overlapping entry, with the one at index 4; the entry with index 3 covers
slot 1 from offset 20 on only. -/
def method_lvt : MethodInfo where
  is_static := false
  is_native := false
  has_localvariable_table := true
  max_locals := 3
  localvariable_table := [⟨0, 10, 0, 1⟩, ⟨20, 5, 1, 3⟩, ⟨0, 10, 1, 2⟩, ⟨0, 10, 1, 4⟩]
  symbol_at := fun i => i.toNat
  is_dead := fun _ _ => false

/-- An interpreted frame of `method_lvt` at offset 0; local 0 holds the object 100. -/
def frame_lvt : FrameInfo :=
  { frame_example 5 with method := method_lvt,
                         locals := [⟨.T_OBJECT, 100⟩, ⟨.T_INT, 7⟩, ⟨.T_INT, 0⟩] }

/-- A suspended platform thread whose only frame is `frame_lvt`. -/
def thread_lvt : JavaThread :=
  { thread_example with last_java_vframe := .frame frame_lvt .nullptr }

/-- A runtime for `method_lvt`.  The symbols 1, 2, 3 and 4 are the descriptors
`LA;`, `I`, `[I` and `J`; the symbols 10, 11, 12, 13 and 14 are the names `A`,
`B`, `C`, `O` and `K`.  Object 100 is an instance of `B`, whose superclasses are
`O` and `A` and which implements `K`; object 200 is an instance of `C`, a direct
subclass of `O`.  A handle is the address of its object, except handle 300, which
resolves to null. -/
def runtime_lvt : Runtime where
  resolve_external_guard := fun h => if h = 300 then 0 else h
  make_local := fun o => o
  klass := fun o =>
    if o = 100 then some ⟨11, [13, 10], [14]⟩
    else if o = 200 then some ⟨12, [13], []⟩
    else none
  new_symbol := fun cs =>
    if cs = ['A'] then 10 else if cs = ['B'] then 11 else if cs = ['C'] then 12
    else if cs = ['O'] then 13 else if cs = ['K'] then 14 else 0
  as_utf8 := fun sym =>
    if sym = 1 then ['L', 'A', ';'] else if sym = 2 then ['I']
    else if sym = 3 then ['[', 'I'] else if sym = 4 then ['J'] else []
  basic_type := fun sym =>
    if sym = 1 then .T_OBJECT else if sym = 2 then .T_INT
    else if sym = 3 then .T_ARRAY else if sym = 4 then .T_LONG else .T_ILLEGAL

/-- A suspended platform thread whose only frame runs a method in which local 1
is dead at offset 0. -/
def thread_dead_slot : JavaThread :=
  { thread_example with
    last_java_vframe :=
      .frame { frame_example 6 with
               method := { method_example with is_dead := fun _ index => index == 1 } }
        .nullptr }

/-- A compiled frame of `method_example` that can be deoptimized. -/
def frame_compiled : FrameInfo :=
  { frame_example 7 with is_compiled_frame := true, fr_can_be_deoptimized := true }

/-- A suspended platform thread whose only frame is `frame_compiled`. -/
def thread_compiled : JavaThread :=
  { thread_example with last_java_vframe := .frame frame_compiled .nullptr }

/-- A frame of `method_lvt` at offset 0 in which the dataflow-derived kinds
differ from the table: slot 0, declared `LA;`, has the kind `T_INT`, and slot 1,
declared `I`, has the kind `T_CONFLICT`. -/
def frame_lvt_dataflow : FrameInfo :=
  { frame_lvt with locals := [⟨.T_INT, 0⟩, ⟨.T_CONFLICT, 0⟩, ⟨.T_INT, 0⟩] }

/-- A suspended platform thread whose only frame is `frame_lvt_dataflow`. -/
def thread_lvt_dataflow : JavaThread :=
  { thread_example with last_java_vframe := .frame frame_lvt_dataflow .nullptr }

/-- The queue that holds one class-unload event, with the name `A`, in the node
at address 1. -/
def queue_class_unload : JvmtiDeferredEventQueue :=
  { nodes := [(1, { _event := .TYPE_CLASS_UNLOAD (some "A"), _next := 0 })],
    _queue_head := 1, _queue_tail := 1 }

/-- The queue that holds the compiled-method-load events of the nmethods 7 and
8, in the nodes at the addresses 1 and 2. -/
def queue_two_loads : JvmtiDeferredEventQueue :=
  { nodes := [(1, { _event := .TYPE_COMPILED_METHOD_LOAD 7, _next := 2 }),
              (2, { _event := .TYPE_COMPILED_METHOD_LOAD 8, _next := 0 })],
    _queue_head := 1, _queue_tail := 2 }

/-! ## Properties of the breakpoint registry -/

theorem JvmtiBreakpoint.equals_iff (a b : JvmtiBreakpoint) : a.equals b = true ↔ a = b := by
  cases a; cases b
  simp [JvmtiBreakpoint.equals]

theorem JvmtiBreakpoint.equals_false_iff (a b : JvmtiBreakpoint) :
    a.equals b = false ↔ a ≠ b := by
  constructor
  · intro h hab
    rw [← JvmtiBreakpoint.equals_iff, h] at hab
    exact Bool.noConfusion hab
  · intro h
    cases hab : a.equals b
    · rfl
    · exact absurd ((JvmtiBreakpoint.equals_iff a b).1 hab) h

theorem JvmtiBreakpoints.distinct_iff_nodup (r : JvmtiBreakpoints) :
    r.distinct ↔ r._elements.Nodup := by
  unfold JvmtiBreakpoints.distinct List.Nodup
  constructor <;> intro h <;> refine h.imp ?_ <;> intro a b hab
  · exact (JvmtiBreakpoint.equals_false_iff a b).1 hab
  · exact (JvmtiBreakpoint.equals_false_iff a b).2 hab

/-- What the search loop returns: `-1` when no element satisfies `p`, otherwise
`i + k` where `k` is the position of the first element satisfying `p`. -/
theorem JvmtiBreakpoints.find_if_spec (p : JvmtiBreakpoint → Bool) (l : List JvmtiBreakpoint) :
    ∀ i : Nat,
      (JvmtiBreakpoints.find_if p i l = -1 ∧ ∀ e ∈ l, p e = false) ∨
      (∃ k : Nat, JvmtiBreakpoints.find_if p i l = ((i + k : Nat) : Int) ∧
        l.eraseIdx k = l.eraseP p ∧ ∃ e ∈ l, p e = true) := by
  induction l with
  | nil => intro i; left; simp [JvmtiBreakpoints.find_if]
  | cons x xs ih =>
    intro i
    by_cases hx : p x = true
    · right
      refine ⟨0, ?_, ?_, x, List.mem_cons_self _ _, hx⟩
      · simp [JvmtiBreakpoints.find_if, hx]
      · simp [List.eraseP_cons, hx]
    · have hx2 : p x = false := by simpa using hx
      rcases ih (i + 1) with ⟨h1, h2⟩ | ⟨k, h1, h2, e, he, hpe⟩
      · left
        refine ⟨by simp [JvmtiBreakpoints.find_if, hx2, h1], ?_⟩
        intro e he
        rcases List.mem_cons.1 he with rfl | h
        · exact hx2
        · exact h2 e h
      · right
        refine ⟨k + 1, ?_, ?_, e, List.mem_cons_of_mem _ he, hpe⟩
        · simp only [JvmtiBreakpoints.find_if, hx2, Bool.false_eq_true, if_false, h1]
          congr 1; omega
        · simp [List.eraseP_cons, hx2, h2]

theorem JvmtiBreakpoints.find_eq_neg_one_iff (r : JvmtiBreakpoints) (bp : JvmtiBreakpoint) :
    r.find bp = -1 ↔ ∀ e ∈ r._elements, bp.equals e = false := by
  unfold JvmtiBreakpoints.find
  rcases JvmtiBreakpoints.find_if_spec (fun e => bp.equals e) r._elements 0 with
    ⟨h1, h2⟩ | ⟨k, h1, -, e, he, hpe⟩
  · exact ⟨fun _ => h2, fun _ => h1⟩
  · constructor
    · intro h
      rw [h1] at h
      omega
    · intro h
      have := h e he
      simp_all

theorem JvmtiBreakpoints.find_eq_neg_one_iff_not_mem (r : JvmtiBreakpoints)
    (bp : JvmtiBreakpoint) : r.find bp = -1 ↔ bp ∉ r._elements := by
  rw [JvmtiBreakpoints.find_eq_neg_one_iff]
  constructor
  · intro h hmem
    have := h bp hmem
    rw [JvmtiBreakpoint.equals_false_iff] at this
    exact this rfl
  · intro h e he
    rw [JvmtiBreakpoint.equals_false_iff]
    rintro rfl
    exact h he

/-- Removing the record found by `find` erases the first record equal to `bp`. -/
theorem JvmtiBreakpoints.remove_find (r : JvmtiBreakpoints) (bp : JvmtiBreakpoint)
    (h : r.find bp ≠ -1) : (r.remove (r.find bp))._elements = r._elements.erase bp := by
  unfold JvmtiBreakpoints.find at h ⊢
  unfold JvmtiBreakpoints.remove
  rcases JvmtiBreakpoints.find_if_spec (fun e => bp.equals e) r._elements 0 with
    ⟨h1, -⟩ | ⟨k, h1, h2, -⟩
  · exact absurd h1 h
  · rw [h1]
    simp only [zero_add, Int.toNat_ofNat]
    rw [h2, List.erase_eq_eraseP]
    congr 1
    funext e
    by_cases hb : bp = e
    · subst hb; simp [JvmtiBreakpoint.equals]
    · have : bp.equals e = false := (JvmtiBreakpoint.equals_false_iff _ _).2 hb
      simp [this, hb]

/-- The loop of `clearall_in_class_at_safepoint` after it has visited the indices
below `n`: the records below `n` that belong to `klass` are gone, the others and
everything from `n` on are kept, and `clear` ran on the removed ones, last first. -/
theorem JvmtiBreakpoints.clearall_loop_spec {σ : Type} (md : Metadata) (mc : MethodCode σ)
    (klass : Klass) :
    ∀ (n : Nat) (vm : VM σ), n ≤ vm.breakpoints._elements.length →
      (JvmtiBreakpoints.clearall_loop md mc klass n vm).breakpoints._elements =
          (vm.breakpoints._elements.take n).filter
            (fun bp => !((md.method_holder bp._method).addr == klass))
          ++ vm.breakpoints._elements.drop n
      ∧ (JvmtiBreakpoints.clearall_loop md mc klass n vm).code =
          (((vm.breakpoints._elements.take n).filter
            (fun bp => (md.method_holder bp._method).addr == klass)).reverse).foldl
            (fun c bp => bp.clear md mc c) vm.code := by
  intro n
  induction n with
  | zero => intro vm _; simp [JvmtiBreakpoints.clearall_loop]
  | succ n ih =>
    intro vm hn
    have hlt : n < vm.breakpoints._elements.length := by omega
    have hget : vm.breakpoints._elements[n]? = some (vm.breakpoints._elements[n]) :=
      List.getElem?_eq_getElem hlt
    have htake : vm.breakpoints._elements.take (n + 1)
        = vm.breakpoints._elements.take n ++ [vm.breakpoints._elements[n]] := by
      rw [List.take_succ, hget]; rfl
    have hdrop : vm.breakpoints._elements.drop n
        = vm.breakpoints._elements[n] :: vm.breakpoints._elements.drop (n + 1) :=
      List.drop_eq_getElem_cons hlt
    have hlen : (vm.breakpoints._elements.take n).length = n := by
      rw [List.length_take]; omega
    unfold JvmtiBreakpoints.clearall_loop
    rw [hget]
    simp only
    by_cases hk : (md.method_holder (vm.breakpoints._elements[n])._method).addr == klass
    · rw [if_pos hk]
      have herase : (vm.breakpoints.remove (n : Int))._elements
          = vm.breakpoints._elements.take n ++ vm.breakpoints._elements.drop (n + 1) := by
        simp [JvmtiBreakpoints.remove, List.eraseIdx_eq_take_drop_succ]
      have hle : n ≤ (vm.breakpoints.remove (n : Int))._elements.length := by
        rw [herase, List.length_append, hlen]; omega
      obtain ⟨h1, h2⟩ := ih ⟨vm.breakpoints.remove (n : Int),
        (vm.breakpoints._elements[n]).clear md mc vm.code⟩ hle
      have ht : (vm.breakpoints._elements.take n ++ vm.breakpoints._elements.drop (n + 1)).take n
          = vm.breakpoints._elements.take n := by
        rw [List.take_append_of_le_length (by omega), List.take_of_length_le (by omega)]
      have hd : (vm.breakpoints._elements.take n ++ vm.breakpoints._elements.drop (n + 1)).drop n
          = vm.breakpoints._elements.drop (n + 1) := by
        rw [List.drop_append_of_le_length (by omega), List.drop_of_length_le (by omega)]
        rfl
      refine ⟨?_, ?_⟩
      · rw [h1]
        simp only [herase, ht, hd]
        rw [htake, List.filter_append]
        simp [hk]
      · rw [h2]
        simp only [herase, ht]
        rw [htake, List.filter_append]
        simp [hk]
    · rw [if_neg hk]
      obtain ⟨h1, h2⟩ := ih vm (by omega)
      have hk2 : ((md.method_holder (vm.breakpoints._elements[n])._method).addr == klass)
          = false := by simpa using hk
      refine ⟨?_, ?_⟩
      · rw [h1, htake, List.filter_append, hdrop]
        simp [hk2]
      · rw [h2, htake, List.filter_append]
        simp [hk2]

theorem JvmtiBreakpoints.clearall_elements {σ : Type} (md : Metadata) (mc : MethodCode σ)
    (vm : VM σ) (klass : Klass) :
    (JvmtiBreakpoints.clearall_in_class_at_safepoint md mc vm klass).breakpoints._elements =
      vm.breakpoints._elements.filter
        (fun bp => !((md.method_holder bp._method).addr == klass)) := by
  have h := (JvmtiBreakpoints.clearall_loop_spec md mc klass
    vm.breakpoints._elements.length vm (le_refl _)).1
  simpa [JvmtiBreakpoints.clearall_in_class_at_safepoint, JvmtiBreakpoints.length] using h

theorem JvmtiBreakpoints.clearall_code {σ : Type} (md : Metadata) (mc : MethodCode σ)
    (vm : VM σ) (klass : Klass) :
    (JvmtiBreakpoints.clearall_in_class_at_safepoint md mc vm klass).code =
      ((vm.breakpoints._elements.filter
        (fun bp => (md.method_holder bp._method).addr == klass)).reverse).foldl
        (fun c bp => bp.clear md mc c) vm.code := by
  have h := (JvmtiBreakpoints.clearall_loop_spec md mc klass
    vm.breakpoints._elements.length vm (le_refl _)).2
  simpa [JvmtiBreakpoints.clearall_in_class_at_safepoint, JvmtiBreakpoints.length] using h

theorem JvmtiBreakpoints.set_at_safepoint_absent {σ : Type} (md : Metadata) (mc : MethodCode σ)
    (vm : VM σ) (bp : JvmtiBreakpoint) (h : vm.breakpoints.find bp = -1) :
    JvmtiBreakpoints.set_at_safepoint md mc vm bp =
      ⟨⟨vm.breakpoints._elements ++ [bp]⟩, bp.set md mc vm.code⟩ := by
  simp [JvmtiBreakpoints.set_at_safepoint, h, JvmtiBreakpoints.append]

theorem JvmtiBreakpoints.set_at_safepoint_present {σ : Type} (md : Metadata)
    (mc : MethodCode σ) (vm : VM σ) (bp : JvmtiBreakpoint) (h : vm.breakpoints.find bp ≠ -1) :
    JvmtiBreakpoints.set_at_safepoint md mc vm bp = vm := by
  simp [JvmtiBreakpoints.set_at_safepoint, h]

theorem JvmtiBreakpoints.clear_at_safepoint_present {σ : Type} (md : Metadata)
    (mc : MethodCode σ) (vm : VM σ) (bp : JvmtiBreakpoint) (h : vm.breakpoints.find bp ≠ -1) :
    JvmtiBreakpoints.clear_at_safepoint md mc vm bp =
      ⟨⟨vm.breakpoints._elements.erase bp⟩, bp.clear md mc vm.code⟩ := by
  have he := JvmtiBreakpoints.remove_find vm.breakpoints bp h
  simp only [JvmtiBreakpoints.clear_at_safepoint, bne_iff_ne, ne_eq, h, not_false_eq_true,
    if_true]
  rw [← he]

theorem JvmtiBreakpoints.clear_at_safepoint_absent {σ : Type} (md : Metadata)
    (mc : MethodCode σ) (vm : VM σ) (bp : JvmtiBreakpoint) (h : vm.breakpoints.find bp = -1) :
    JvmtiBreakpoints.clear_at_safepoint md mc vm bp = vm := by
  simp [JvmtiBreakpoints.clear_at_safepoint, h]

theorem JvmtiBreakpoints.set_at_safepoint_distinct {σ : Type} (md : Metadata)
    (mc : MethodCode σ) (vm : VM σ) (bp : JvmtiBreakpoint) (hd : vm.breakpoints.distinct) :
    (JvmtiBreakpoints.set_at_safepoint md mc vm bp).breakpoints.distinct := by
  by_cases h : vm.breakpoints.find bp = -1
  · rw [JvmtiBreakpoints.set_at_safepoint_absent md mc vm bp h]
    rw [JvmtiBreakpoints.distinct_iff_nodup] at hd ⊢
    have hn := (JvmtiBreakpoints.find_eq_neg_one_iff_not_mem _ _).1 h
    exact List.Nodup.append hd (List.nodup_singleton bp) (by simpa using hn)
  · rw [JvmtiBreakpoints.set_at_safepoint_present md mc vm bp h]
    exact hd

theorem JvmtiBreakpoints.clear_at_safepoint_distinct {σ : Type} (md : Metadata)
    (mc : MethodCode σ) (vm : VM σ) (bp : JvmtiBreakpoint) (hd : vm.breakpoints.distinct) :
    (JvmtiBreakpoints.clear_at_safepoint md mc vm bp).breakpoints.distinct := by
  by_cases h : vm.breakpoints.find bp = -1
  · rw [JvmtiBreakpoints.clear_at_safepoint_absent md mc vm bp h]
    exact hd
  · rw [JvmtiBreakpoints.clear_at_safepoint_present md mc vm bp h]
    rw [JvmtiBreakpoints.distinct_iff_nodup] at hd ⊢
    exact hd.erase bp

theorem VM_ChangeBreakpoints.doit_distinct {σ : Type} (md : Metadata) (mc : MethodCode σ)
    (op : VM_ChangeBreakpoints.Operation) (bp : JvmtiBreakpoint) (vm : VM σ)
    (hd : vm.breakpoints.distinct) :
    (VM_ChangeBreakpoints.doit md mc op bp vm).breakpoints.distinct := by
  unfold VM_ChangeBreakpoints.doit
  by_cases hold : md.is_old bp._method = true
  · simpa [hold] using hd
  · cases op
    · simpa [hold] using JvmtiBreakpoints.set_at_safepoint_distinct md mc vm bp hd
    · simpa [hold] using JvmtiBreakpoints.clear_at_safepoint_distinct md mc vm bp hd

theorem JvmtiBreakpoints.set_distinct {σ : Type} (md : Metadata) (mc : MethodCode σ)
    (vm : VM σ) (bp : JvmtiBreakpoint) (hd : vm.breakpoints.distinct) :
    (JvmtiBreakpoints.set md mc vm bp).2.breakpoints.distinct := by
  unfold JvmtiBreakpoints.set
  split
  · exact hd
  · exact VM_ChangeBreakpoints.doit_distinct md mc _ bp vm hd

theorem JvmtiBreakpoints.clear_distinct {σ : Type} (md : Metadata) (mc : MethodCode σ)
    (vm : VM σ) (bp : JvmtiBreakpoint) (hd : vm.breakpoints.distinct) :
    (JvmtiBreakpoints.clear md mc vm bp).2.breakpoints.distinct := by
  unfold JvmtiBreakpoints.clear
  split
  · exact hd
  · exact VM_ChangeBreakpoints.doit_distinct md mc _ bp vm hd

theorem RegistryOp.apply_distinct {σ : Type} (mc : MethodCode σ) (md : Metadata)
    (op : RegistryOp) (vm : VM σ) (hd : vm.breakpoints.distinct) :
    (op.apply mc md vm).breakpoints.distinct := by
  cases op with
  | set bp => exact JvmtiBreakpoints.set_distinct md mc vm bp hd
  | set_at_safepoint bp => exact JvmtiBreakpoints.set_at_safepoint_distinct md mc vm bp hd
  | clear bp => exact JvmtiBreakpoints.clear_distinct md mc vm bp hd
  | clear_at_safepoint bp => exact JvmtiBreakpoints.clear_at_safepoint_distinct md mc vm bp hd
  | clearall_in_class_at_safepoint klass =>
    show (JvmtiBreakpoints.clearall_in_class_at_safepoint md mc vm klass).breakpoints.distinct
    unfold JvmtiBreakpoints.distinct
    rw [JvmtiBreakpoints.clearall_elements]
    exact List.Pairwise.filter _ hd

theorem run_ops_distinct {σ : Type} (mc : MethodCode σ) (steps : List (Metadata × RegistryOp)) :
    ∀ vm : VM σ, vm.breakpoints.distinct → (run_ops mc steps vm).breakpoints.distinct := by
  induction steps with
  | nil => intro vm hd; exact hd
  | cons step rest ih =>
    intro vm hd
    obtain ⟨md, op⟩ := step
    exact ih _ (RegistryOp.apply_distinct mc md op vm hd)

/-- C1. Starting from the empty registry, after every sequence of `set`,
`set_at_safepoint`, `clear`, `clear_at_safepoint` and
`clearall_in_class_at_safepoint` operations (each run against whatever metadata
is in force at that time, whatever the breakpoint patching does), no two records
of the registry are equal: for any two positions `i < j` the records at `i` and
`j` differ in method identity or in bytecode offset. -/
theorem registry_never_holds_equal_records {σ : Type} (mc : MethodCode σ)
    (steps : List (Metadata × RegistryOp)) (c : σ) :
    (run_ops mc steps ⟨⟨[]⟩, c⟩).breakpoints.distinct ∧
    ∀ (i j : Nat) (a b : JvmtiBreakpoint), i < j →
      (run_ops mc steps ⟨⟨[]⟩, c⟩).breakpoints._elements[i]? = some a →
      (run_ops mc steps ⟨⟨[]⟩, c⟩).breakpoints._elements[j]? = some b →
      ¬ (a._method = b._method ∧ a._bci = b._bci) := by
  have hd : (run_ops mc steps ⟨⟨[]⟩, c⟩).breakpoints.distinct :=
    run_ops_distinct mc steps ⟨⟨[]⟩, c⟩ List.Pairwise.nil
  refine ⟨hd, ?_⟩
  intro i j a b hij ha hb hab
  have hlj := (List.getElem?_eq_some_iff.1 hb).1
  have hli : i < (run_ops mc steps ⟨⟨[]⟩, c⟩).breakpoints._elements.length := by omega
  have hai := (List.getElem?_eq_some_iff.1 ha).2
  have hbj := (List.getElem?_eq_some_iff.1 hb).2
  have hne := List.pairwise_iff_getElem.1 hd i j hli hlj hij
  rw [hai, hbj] at hne
  have heq : a.equals b = true := by
    simp [JvmtiBreakpoint.equals, hab.1, hab.2]
  rw [hne] at heq
  cases heq

theorem JvmtiBreakpoints.find_ne_neg_one_iff (r : JvmtiBreakpoints) (bp : JvmtiBreakpoint) :
    r.find bp ≠ -1 ↔ ∃ e ∈ r._elements, e.equals bp = true := by
  rw [Ne, JvmtiBreakpoints.find_eq_neg_one_iff_not_mem, not_not]
  constructor
  · intro h
    exact ⟨bp, h, (JvmtiBreakpoint.equals_iff bp bp).2 rfl⟩
  · rintro ⟨e, he, heq⟩
    rw [JvmtiBreakpoint.equals_iff] at heq
    exact heq ▸ he

theorem JvmtiBreakpoints.find_eq_neg_one_iff_forall (r : JvmtiBreakpoints)
    (bp : JvmtiBreakpoint) :
    r.find bp = -1 ↔ ∀ e ∈ r._elements, e.equals bp = false := by
  rw [JvmtiBreakpoints.find_eq_neg_one_iff_not_mem]
  constructor
  · intro h e he
    rw [JvmtiBreakpoint.equals_false_iff]
    rintro rfl
    exact h he
  · intro h hmem
    have := h bp hmem
    rw [JvmtiBreakpoint.equals_false_iff] at this
    exact this rfl

/-- C2, as the code has it. `set` returns `JVMTI_ERROR_DUPLICATE` exactly when the
registry holds a record equal to `bp`, and then changes nothing.  Otherwise it
returns `JVMTI_ERROR_NONE`; if the method of `bp` is not old when the safepoint
operation runs, the registry afterwards is the former one with `bp` appended and
`bp` has been armed (`JvmtiBreakpoint::set` ran on the code state); if the method
is old, the registry and the code state are unchanged. -/
theorem set_duplicate_or_installs_unless_stale {σ : Type} (md : Metadata) (mc : MethodCode σ)
    (vm : VM σ) (bp : JvmtiBreakpoint) :
    ((JvmtiBreakpoints.set md mc vm bp).1 = JVMTI_ERROR_DUPLICATE ↔
        ∃ e ∈ vm.breakpoints._elements, e.equals bp = true) ∧
    ((∃ e ∈ vm.breakpoints._elements, e.equals bp = true) →
        (JvmtiBreakpoints.set md mc vm bp).2 = vm) ∧
    ((∀ e ∈ vm.breakpoints._elements, e.equals bp = false) →
        (JvmtiBreakpoints.set md mc vm bp).1 = JVMTI_ERROR_NONE ∧
        (md.is_old bp._method = false →
          (JvmtiBreakpoints.set md mc vm bp).2.breakpoints._elements
              = vm.breakpoints._elements ++ [bp] ∧
          bp ∈ (JvmtiBreakpoints.set md mc vm bp).2.breakpoints._elements ∧
          (JvmtiBreakpoints.set md mc vm bp).2.code = bp.set md mc vm.code) ∧
        (md.is_old bp._method = true → (JvmtiBreakpoints.set md mc vm bp).2 = vm)) := by
  by_cases h : vm.breakpoints.find bp = -1
  · have hall := (JvmtiBreakpoints.find_eq_neg_one_iff_forall _ _).1 h
    have hnex : ¬ ∃ e ∈ vm.breakpoints._elements, e.equals bp = true := by
      rw [← JvmtiBreakpoints.find_ne_neg_one_iff]; simp [h]
    have hset : JvmtiBreakpoints.set md mc vm bp
        = (JVMTI_ERROR_NONE, VM_ChangeBreakpoints.doit md mc .SET_BREAKPOINT bp vm) := by
      simp [JvmtiBreakpoints.set, h]
    refine ⟨?_, fun hex => absurd hex hnex, fun _ => ⟨by rw [hset], ?_, ?_⟩⟩
    · rw [hset]
      constructor
      · intro hc; cases hc
      · intro hex; exact absurd hex hnex
    · intro hold
      rw [hset]
      simp only [VM_ChangeBreakpoints.doit, hold, Bool.false_eq_true, if_false]
      rw [JvmtiBreakpoints.set_at_safepoint_absent md mc vm bp h]
      simp
    · intro hold
      rw [hset]
      simp [VM_ChangeBreakpoints.doit, hold]
  · have hex := (JvmtiBreakpoints.find_ne_neg_one_iff _ _).1 h
    have hset : JvmtiBreakpoints.set md mc vm bp = (JVMTI_ERROR_DUPLICATE, vm) := by
      simp [JvmtiBreakpoints.set, h]
    refine ⟨by rw [hset]; simp [hex], fun _ => by rw [hset], fun hall => ?_⟩
    exact absurd ((JvmtiBreakpoints.find_eq_neg_one_iff_forall _ _).2 hall) h

/-- C2, counterexample. Method 2 is old and the registry is empty, so it holds no
record equal to the breakpoint at offset 0 of method 2; `set` returns
`JVMTI_ERROR_NONE`, yet afterwards the registry is still empty and no
`Method::set_breakpoint` call has been made. -/
theorem set_of_stale_method_installs_nothing :
    world.is_old 2 = true ∧
    (∀ e ∈ vm_empty.breakpoints._elements, e.equals ⟨2, 0⟩ = false) ∧
    (JvmtiBreakpoints.set world recorded vm_empty ⟨2, 0⟩).1 = JVMTI_ERROR_NONE ∧
    (JvmtiBreakpoints.set world recorded vm_empty ⟨2, 0⟩).2.breakpoints._elements = [] ∧
    (JvmtiBreakpoints.set world recorded vm_empty ⟨2, 0⟩).2.code = [] := by
  refine ⟨rfl, ?_, rfl, rfl, rfl⟩
  intro e he
  cases he

/-- C5. `clearall_in_class_at_safepoint` is a filter: the resulting registry is
exactly the former records whose method is not held by `klass`, in their former
order, and the code state is the former one after `JvmtiBreakpoint::clear` ran
once on each removed record (from the last one to the first) and on nothing else. -/
theorem clearall_in_class_is_filter {σ : Type} (md : Metadata) (mc : MethodCode σ)
    (vm : VM σ) (klass : Klass) :
    (JvmtiBreakpoints.clearall_in_class_at_safepoint md mc vm klass).breakpoints._elements =
      vm.breakpoints._elements.filter
        (fun bp => !((md.method_holder bp._method).addr == klass)) ∧
    (JvmtiBreakpoints.clearall_in_class_at_safepoint md mc vm klass).code =
      ((vm.breakpoints._elements.filter
        (fun bp => (md.method_holder bp._method).addr == klass)).reverse).foldl
        (fun c bp => bp.clear md mc c) vm.code :=
  ⟨JvmtiBreakpoints.clearall_elements md mc vm klass,
    JvmtiBreakpoints.clearall_code md mc vm klass⟩

/-- C6. When the method of the record is old at the time `VM_ChangeBreakpoints::doit`
executes, the operation changes neither the registry nor the code state, for
`SET_BREAKPOINT` and for `CLEAR_BREAKPOINT`; and the submitter that reached the
operation (`set` after it found no equal record, `clear` after it found one)
returns `JVMTI_ERROR_NONE` with the state unchanged. -/
theorem stale_operation_is_noop {σ : Type} (md : Metadata) (mc : MethodCode σ)
    (vm : VM σ) (bp : JvmtiBreakpoint) (hold : md.is_old bp._method = true) :
    (∀ op : VM_ChangeBreakpoints.Operation, VM_ChangeBreakpoints.doit md mc op bp vm = vm) ∧
    (vm.breakpoints.find bp = -1 →
      JvmtiBreakpoints.set md mc vm bp = (JVMTI_ERROR_NONE, vm)) ∧
    (vm.breakpoints.find bp ≠ -1 →
      JvmtiBreakpoints.clear md mc vm bp = (JVMTI_ERROR_NONE, vm)) := by
  have hdoit : ∀ op : VM_ChangeBreakpoints.Operation,
      VM_ChangeBreakpoints.doit md mc op bp vm = vm := by
    intro op
    simp [VM_ChangeBreakpoints.doit, hold]
  refine ⟨hdoit, ?_, ?_⟩
  · intro h
    simp [JvmtiBreakpoints.set, h, hdoit]
  · intro h
    simp [JvmtiBreakpoints.clear, h, hdoit]

/-- C6, witness. Method 2 is old: setting its breakpoint in the empty registry
and clearing it from a registry that holds it both return `JVMTI_ERROR_NONE` and
change nothing. -/
theorem stale_operation_is_noop_witness :
    JvmtiBreakpoints.set world recorded vm_empty ⟨2, 0⟩ = (JVMTI_ERROR_NONE, vm_empty) ∧
    JvmtiBreakpoints.clear world recorded ⟨⟨[⟨2, 0⟩]⟩, [(true, 2, 0)]⟩ ⟨2, 0⟩
      = (JVMTI_ERROR_NONE, ⟨⟨[⟨2, 0⟩]⟩, [(true, 2, 0)]⟩) :=
  ⟨(stale_operation_is_noop world recorded vm_empty ⟨2, 0⟩ rfl).2.1 rfl,
    (stale_operation_is_noop world recorded ⟨⟨[⟨2, 0⟩]⟩, [(true, 2, 0)]⟩ ⟨2, 0⟩ rfl).2.2
      (by decide)⟩

/-! ## Propagation of a breakpoint to the previous versions of its method -/

/-- The inner loop either finds no suitable method among the first `k` entries
and does nothing, or calls the action once, on a suitable entry. -/
theorem JvmtiBreakpoint.scan_methods_cases (md : Metadata) (m_name m_signature : Symbol)
    (bci : Int) (methods : List Method) :
    ∀ k : Nat,
      ((∀ m ∈ methods.take k, (!md.is_obsolete m && md.name m == m_name
            && md.signature m == m_signature) = false) ∧
        ∀ (σ : Type) (act : Method → Int → σ → σ) (c : σ),
          JvmtiBreakpoint.scan_methods md m_name m_signature bci act methods k c = c) ∨
      (∃ m ∈ methods.take k, (!md.is_obsolete m && md.name m == m_name
            && md.signature m == m_signature) = true ∧
        ∀ (σ : Type) (act : Method → Int → σ → σ) (c : σ),
          JvmtiBreakpoint.scan_methods md m_name m_signature bci act methods k c
            = act m bci c) := by
  intro k
  induction k with
  | zero =>
    left
    refine ⟨by simp, ?_⟩
    intro σ act c
    rfl
  | succ k ih =>
    cases hget : methods[k]? with
    | none =>
      have hlen : methods.length ≤ k := by
        by_contra hlt
        rw [List.getElem?_eq_getElem (by omega)] at hget
        cases hget
      have htake : methods.take (k + 1) = methods.take k := by
        rw [List.take_of_length_le (by omega), List.take_of_length_le hlen]
      rw [htake]
      rcases ih with ⟨h1, h2⟩ | ⟨m, hm, hp, h2⟩
      · left
        refine ⟨h1, ?_⟩
        intro σ act c
        rw [JvmtiBreakpoint.scan_methods, hget]
        exact h2 σ act c
      · right
        refine ⟨m, hm, hp, ?_⟩
        intro σ act c
        rw [JvmtiBreakpoint.scan_methods, hget]
        exact h2 σ act c
    | some method =>
      have htake : methods.take (k + 1) = methods.take k ++ [method] := by
        rw [List.take_succ, hget]; rfl
      by_cases hp : (!md.is_obsolete method && md.name method == m_name
            && md.signature method == m_signature) = true
      · right
        refine ⟨method, by rw [htake]; simp, hp, ?_⟩
        intro σ act c
        rw [JvmtiBreakpoint.scan_methods, hget]
        simp only [hp, if_true]
      · have hp2 : (!md.is_obsolete method && md.name method == m_name
            && md.signature method == m_signature) = false := by simpa using hp
        rcases ih with ⟨h1, h2⟩ | ⟨m, hm, hpm, h2⟩
        · left
          refine ⟨?_, ?_⟩
          · intro m hm
            rw [htake, List.mem_append] at hm
            rcases hm with hm | hm
            · exact h1 m hm
            · rw [List.mem_singleton] at hm
              rw [hm]; exact hp2
          · intro σ act c
            rw [JvmtiBreakpoint.scan_methods, hget]
            simp only [hp2, Bool.false_eq_true, if_false]
            exact h2 σ act c
        · right
          refine ⟨m, by rw [htake]; exact List.mem_append_left _ hm, hpm, ?_⟩
          intro σ act c
          rw [JvmtiBreakpoint.scan_methods, hget]
          simp only [hp2, Bool.false_eq_true, if_false]
          exact h2 σ act c

/-- The outer loop calls the action on a list `tl` of methods, each of them a
suitable method of one of the versions; when no version declares two methods with
the same name and signature, every suitable method of every version is in `tl`. -/
theorem JvmtiBreakpoint.scan_versions_spec (md : Metadata) (m_name m_signature : Symbol)
    (bci : Int) :
    ∀ ik : InstanceKlass, ∃ tl : List Method,
      (∀ (σ : Type) (act : Method → Int → σ → σ) (c : σ),
        JvmtiBreakpoint.scan_versions md m_name m_signature bci act ik c
          = tl.foldl (fun c m => act m bci c) c) ∧
      (∀ m ∈ tl, ∃ ms ∈ ik.version_methods, m ∈ ms ∧
        (!md.is_obsolete m && md.name m == m_name && md.signature m == m_signature) = true) ∧
      tl.length ≤ ik.version_methods.length ∧
      ((∀ ms ∈ ik.version_methods, ∀ a ∈ ms, ∀ b ∈ ms,
          md.name a = md.name b → md.signature a = md.signature b → a = b) →
        ∀ ms ∈ ik.version_methods, ∀ m ∈ ms,
          (!md.is_obsolete m && md.name m == m_name && md.signature m == m_signature) = true →
          m ∈ tl) := by
  intro ik
  induction ik with
  | nullptr =>
    refine ⟨[], ?_, by simp, by simp, by simp [InstanceKlass.version_methods]⟩
    intro σ act c
    rfl
  | klass addr methods pv ih =>
    obtain ⟨tl, ht1, ht2, ht3, ht4⟩ := ih
    have htk : methods.take methods.length = methods := List.take_length methods
    rcases JvmtiBreakpoint.scan_methods_cases md m_name m_signature bci methods methods.length
      with ⟨h1, h2⟩ | ⟨m, hm, hp, h2⟩
    · rw [htk] at h1
      refine ⟨tl, ?_, ?_, ?_, ?_⟩
      · intro σ act c
        rw [JvmtiBreakpoint.scan_versions, h2 σ act c]
        exact ht1 σ act c
      · intro m hm
        obtain ⟨ms, hms, hmem, hp⟩ := ht2 m hm
        exact ⟨ms, by simp [InstanceKlass.version_methods, hms], hmem, hp⟩
      · simp only [InstanceKlass.version_methods, List.length_cons]
        omega
      · intro hu ms hms m hmem hp
        simp only [InstanceKlass.version_methods, List.mem_cons] at hms
        rcases hms with rfl | hms
        · rw [h1 m hmem] at hp
          cases hp
        · exact ht4 (fun ms2 hms2 => hu ms2 (by simp [InstanceKlass.version_methods, hms2]))
            ms hms m hmem hp
    · rw [htk] at hm
      refine ⟨m :: tl, ?_, ?_, ?_, ?_⟩
      · intro σ act c
        rw [JvmtiBreakpoint.scan_versions, h2 σ act c, List.foldl_cons]
        exact ht1 σ act _
      · intro m2 hm2
        rcases List.mem_cons.1 hm2 with rfl | hm2
        · exact ⟨methods, by simp [InstanceKlass.version_methods], hm, hp⟩
        · obtain ⟨ms, hms, hmem, hp2⟩ := ht2 m2 hm2
          exact ⟨ms, by simp [InstanceKlass.version_methods, hms], hmem, hp2⟩
      · simp only [InstanceKlass.version_methods, List.length_cons]
        omega
      · intro hu ms hms m2 hmem hp2
        simp only [InstanceKlass.version_methods, List.mem_cons] at hms
        rcases hms with rfl | hms
        · have hsame : m2 = m := by
            simp only [Bool.and_eq_true, Bool.not_eq_true', beq_iff_eq] at hp hp2
            exact hu ms (by simp [InstanceKlass.version_methods]) m2 hmem m hm
              (hp2.1.2.trans hp.1.2.symm) (hp2.2.trans hp.2.symm)
          rw [hsame]
          exact List.mem_cons_self _ _
        · exact List.mem_cons_of_mem _
            (ht4 (fun ms2 hms2 => hu ms2 (by simp [InstanceKlass.version_methods, hms2]))
              ms hms m2 hmem hp2)

theorem foldl_note_methods (tl : List Method) :
    ∀ log : List Method, tl.foldl (fun c m => c ++ [m]) log = log ++ tl := by
  induction tl with
  | nil => intro log; simp
  | cons x xs ih => intro log; simp [ih]

/-- C7. Let `bp` be a record whose method `m` is not old (the assertion of the
function), in a VM where obsolete methods are old and no class version declares
two methods with the same name and signature.  Whatever the action is,
`each_method_version_do` calls it, always at the offset of the record, on the
methods `acted_on`: first on `m` itself, then on exactly those methods of the
previous versions of the class of `m` that are not obsolete and have the name and
the signature of `m`, at most one per version.  No obsolete method and no method
with another name or signature receives the action; versions without a suitable
method are passed over, the function being total with no error result. -/
theorem each_method_version_do_targets {σ : Type} (md : Metadata) (bp : JvmtiBreakpoint)
    (meth_act : Method → Int → σ → σ) (c : σ)
    (h_assert : md.is_old bp._method = false)
    (h_flags : ∀ m, md.is_obsolete m = true → md.is_old m = true)
    (h_unique : ∀ ms ∈ (md.method_holder bp._method).previous_versions.version_methods,
      ∀ a ∈ ms, ∀ b ∈ ms, md.name a = md.name b → md.signature a = md.signature b → a = b) :
    bp.each_method_version_do md meth_act c
        = (bp.acted_on md).foldl (fun c m => meth_act m bp._bci c) c ∧
    (∃ rest : List Method, bp.acted_on md = bp._method :: rest ∧
      rest.length ≤ (md.method_holder bp._method).previous_versions.version_methods.length ∧
      ∀ m, m ∈ rest ↔
        ∃ ms ∈ (md.method_holder bp._method).previous_versions.version_methods,
          m ∈ ms ∧ md.is_obsolete m = false ∧ md.name m = md.name bp._method ∧
          md.signature m = md.signature bp._method) ∧
    (∀ m ∈ bp.acted_on md, md.is_obsolete m = false ∧ md.name m = md.name bp._method ∧
      md.signature m = md.signature bp._method) := by
  obtain ⟨tl, ht1, ht2, ht3, ht4⟩ := JvmtiBreakpoint.scan_versions_spec md
    (md.name bp._method) (md.signature bp._method) bp._bci
    (md.method_holder bp._method).previous_versions
  have hacted : bp.acted_on md = bp._method :: tl := by
    unfold JvmtiBreakpoint.acted_on JvmtiBreakpoint.each_method_version_do
    simp only
    rw [ht1 (List Method) (fun m _ log => log ++ [m]) ([] ++ [bp._method])]
    rw [foldl_note_methods]
    rfl
  have hchar : ∀ m, m ∈ tl ↔
      ∃ ms ∈ (md.method_holder bp._method).previous_versions.version_methods,
        m ∈ ms ∧ md.is_obsolete m = false ∧ md.name m = md.name bp._method ∧
        md.signature m = md.signature bp._method := by
    intro m
    constructor
    · intro hm
      obtain ⟨ms, hms, hmem, hp⟩ := ht2 m hm
      simp only [Bool.and_eq_true, Bool.not_eq_true', beq_iff_eq] at hp
      exact ⟨ms, hms, hmem, hp.1.1, hp.1.2, hp.2⟩
    · rintro ⟨ms, hms, hmem, h1, h2, h3⟩
      exact ht4 h_unique ms hms m hmem (by simp [h1, h2, h3])
  refine ⟨?_, ⟨tl, hacted, ht3, hchar⟩, ?_⟩
  · rw [hacted, List.foldl_cons]
    unfold JvmtiBreakpoint.each_method_version_do
    exact ht1 σ meth_act _
  · intro m hm
    rw [hacted] at hm
    rcases List.mem_cons.1 hm with hself | hm
    · rw [hself]
      refine ⟨?_, rfl, rfl⟩
      cases hobs : md.is_obsolete bp._method
      · rfl
      · rw [h_flags bp._method hobs] at h_assert
        cases h_assert
    · obtain ⟨ms, -, -, h1, h2, h3⟩ := (hchar m).1 hm
      exact ⟨h1, h2, h3⟩

/-- C7, witness. Setting the breakpoint at offset 0 of method 1 patches method 1
and its old, not obsolete version 2; the obsolete version 3 and method 4 are left
alone. -/
theorem each_method_version_do_targets_witness :
    JvmtiBreakpoint.each_method_version_do world ⟨1, 0⟩ recorded.set_breakpoint []
      = [(true, 1, 0), (true, 2, 0)] :=
  (each_method_version_do_targets world ⟨1, 0⟩ recorded.set_breakpoint [] rfl
    (by intro m h; simp only [world, decide_eq_true_eq] at h ⊢; exact Or.inr h)
    (by decide)).1.trans rfl

/-! ## Properties of the frame resolution -/

/-- When the chain has a frame `depth - d` senders down, the loop stops on it
with the counter equal to `depth`. -/
theorem walk_senders_frame_at (depth : Int) :
    ∀ (vf : vframe) (d : Int) (f : FrameInfo), d ≤ depth →
      vf.frame_at (depth - d).toNat = some f →
      ∃ sender, walk_senders depth vf d = (.frame f sender, depth) := by
  intro vf
  induction vf with
  | nullptr =>
    intro d f _ hf
    simp [vframe.frame_at] at hf
  | frame info sender ih =>
    intro d f hd hf
    unfold walk_senders
    by_cases hlt : d < depth
    · rw [if_pos hlt]
      have hn : (depth - d).toNat = (depth - (d + 1)).toNat + 1 := by omega
      rw [hn, vframe.frame_at] at hf
      exact ih (d + 1) f (by omega) hf
    · rw [if_neg hlt]
      have hdd : d = depth := by omega
      have hn : (depth - d).toNat = 0 := by omega
      rw [hn, vframe.frame_at] at hf
      cases hf
      exact ⟨sender, by rw [hdd]⟩

/-- When the chain is not longer than `depth - d`, the loop runs off its end. -/
theorem walk_senders_exhausted (depth : Int) :
    ∀ (vf : vframe) (d : Int), (vf.height : Int) ≤ depth - d →
      (walk_senders depth vf d).1 = .nullptr := by
  intro vf
  induction vf with
  | nullptr => intro d _; rfl
  | frame info sender ih =>
    intro d hh
    simp only [vframe.height, Nat.cast_add, Nat.cast_one] at hh
    unfold walk_senders
    rw [if_pos (by omega)]
    exact ih (d + 1) (by omega)

theorem vframe.frame_at_of_lt_height :
    ∀ (vf : vframe) (n : Nat), n < vf.height → ∃ f, vf.frame_at n = some f := by
  intro vf
  induction vf with
  | nullptr => intro n hn; simp [vframe.height] at hn
  | frame info sender ih =>
    intro n hn
    cases n with
    | zero => exact ⟨info, rfl⟩
    | succ n =>
      simp only [vframe.height] at hn
      exact ih n (by omega)

theorem VM_GetOrSetLocal.get_vframe_frame_at (t : JavaThread) (req : Request) (f : FrameInfo)
    (hd : 0 ≤ req._depth)
    (hf : (Target.thread t).top.frame_at req._depth.toNat = some f) :
    ∃ sender, VM_GetOrSetLocal.get_vframe t req = .frame f sender := by
  unfold Target.top at hf
  unfold VM_GetOrSetLocal.get_vframe
  cases hl : t.has_last_Java_frame
  · simp [hl, vframe.frame_at] at hf
  · simp only [hl, if_true] at hf
    have hf2 : t.last_java_vframe.frame_at (req._depth - 0).toNat = some f := by simpa using hf
    obtain ⟨sender, hw⟩ := walk_senders_frame_at req._depth t.last_java_vframe 0 f hd hf2
    exact ⟨sender, by simp [hw]⟩

theorem VM_GetOrSetLocal.get_vframe_exhausted (t : JavaThread) (req : Request)
    (hh : ((Target.thread t).top.height : Int) ≤ req._depth) :
    VM_GetOrSetLocal.get_vframe t req = .nullptr := by
  unfold Target.top at hh
  unfold VM_GetOrSetLocal.get_vframe
  cases hl : t.has_last_Java_frame
  · simp
  · simp only [hl, if_true] at hh
    simpa using walk_senders_exhausted req._depth t.last_java_vframe 0 (by simpa using hh)

theorem get_java_vframe_exhausted (target : Target) (req : Request)
    (hs : target.self_or_suspended req = true)
    (hh : (target.top.height : Int) ≤ req._depth) :
    VM_BaseGetOrSetLocal.get_java_vframe target req = .error JVMTI_ERROR_NO_MORE_FRAMES := by
  cases target with
  | thread t =>
    have hv := VM_GetOrSetLocal.get_vframe_exhausted t req hh
    have hs2 : (!req._self && !t.is_suspended && !t.is_carrier_thread_suspended) = false := by
      simp only [Target.self_or_suspended] at hs
      cases h1 : req._self <;> cases h2 : t.is_suspended <;>
        cases h3 : t.is_carrier_thread_suspended <;> simp_all
    simp only [VM_BaseGetOrSetLocal.get_java_vframe, VM_GetOrSetLocal.get_java_vframe, hv, hs2]
    rfl
  | vthread v =>
    have hw := walk_senders_exhausted req._depth v.vthread_jvf 0
      (by simpa [Target.top] using hh)
    have hs2 : (!(req._self || v.is_vthread_suspended)) = false := by
      simp only [Target.self_or_suspended] at hs
      simp [hs]
    simp only [VM_BaseGetOrSetLocal.get_java_vframe, VM_VirtualThreadGetOrSetLocal.get_java_vframe,
      hs2]
    cases hwalk : walk_senders req._depth v.vthread_jvf 0 with
    | mk vf d =>
      rw [hwalk] at hw
      simp only at hw
      subst hw
      rfl

theorem get_java_vframe_resolved (target : Target) (req : Request) (f : FrameInfo)
    (hs : target.self_or_suspended req = true) (hd : 0 ≤ req._depth)
    (hf : target.top.frame_at req._depth.toNat = some f)
    (hj : f.is_java_frame = true)
    (hm : target.is_mounted = true ∨ req._set = false) :
    VM_BaseGetOrSetLocal.get_java_vframe target req = .ok f := by
  cases target with
  | thread t =>
    obtain ⟨sender, hv⟩ := VM_GetOrSetLocal.get_vframe_frame_at t req f hd hf
    have hs2 : (!req._self && !t.is_suspended && !t.is_carrier_thread_suspended) = false := by
      simp only [Target.self_or_suspended] at hs
      cases h1 : req._self <;> cases h2 : t.is_suspended <;>
        cases h3 : t.is_carrier_thread_suspended <;> simp_all
    simp only [VM_BaseGetOrSetLocal.get_java_vframe, VM_GetOrSetLocal.get_java_vframe, hv, hs2]
    simp [hj]
  | vthread v =>
    obtain ⟨sender, hw⟩ := walk_senders_frame_at req._depth v.vthread_jvf 0 f hd
      (by simpa [Target.top] using hf)
    have hs2 : (!(req._self || v.is_vthread_suspended)) = false := by
      simp only [Target.self_or_suspended] at hs
      simp [hs]
    have hm2 : (req._set && !v.is_mounted) = false := by
      simp only [Target.is_mounted] at hm
      rcases hm with hm | hm <;> simp [hm]
    simp only [VM_BaseGetOrSetLocal.get_java_vframe, VM_VirtualThreadGetOrSetLocal.get_java_vframe,
      hs2, hw]
    simp [hj, hm2]

/-- C8. For a thread target and for a virtual-thread target alike, when the request
is a self request or the target is suspended and the call stack of the target has
height `h`: `get_java_vframe` fails with `JVMTI_ERROR_NO_MORE_FRAMES` for every
depth `>= h` (an empty stack has `h = 0`); and every depth `0 <= depth < h`
addresses a frame, the one `depth` senders below the top frame, to which
`get_java_vframe` resolves whenever that frame is a Java frame and the target is
mounted. -/
theorem frame_resolution_by_depth (target : Target) (req : Request)
    (hs : target.self_or_suspended req = true) :
    ((target.top.height : Int) ≤ req._depth →
      VM_BaseGetOrSetLocal.get_java_vframe target req = .error JVMTI_ERROR_NO_MORE_FRAMES) ∧
    (0 ≤ req._depth → req._depth < (target.top.height : Int) →
      ∃ f, target.top.frame_at req._depth.toNat = some f ∧
        (f.is_java_frame = true → target.is_mounted = true →
          VM_BaseGetOrSetLocal.get_java_vframe target req = .ok f)) := by
  refine ⟨get_java_vframe_exhausted target req hs, ?_⟩
  intro hd hlt
  obtain ⟨f, hf⟩ := vframe.frame_at_of_lt_height target.top req._depth.toNat (by omega)
  exact ⟨f, hf, fun hj hm => get_java_vframe_resolved target req f hs hd hf hj (Or.inl hm)⟩

/-- C8, witness. On the suspended thread with a stack of height 2, depth 1
resolves to the caller frame and depth 2 is out of frames; the same holds for a
mounted, suspended virtual thread. -/
theorem frame_resolution_by_depth_witness :
    VM_BaseGetOrSetLocal.get_java_vframe (.thread thread_example) (request_example false)
      = .ok (frame_example 2) ∧
    VM_BaseGetOrSetLocal.get_java_vframe (.thread thread_example)
      { request_example false with _depth := 2 } = .error JVMTI_ERROR_NO_MORE_FRAMES ∧
    VM_BaseGetOrSetLocal.get_java_vframe
      (.vthread { vthread_example with is_mounted := true }) (request_example true)
      = .ok (frame_example 2) :=
  ⟨by
      obtain ⟨f, hf, h⟩ := (frame_resolution_by_depth (.thread thread_example)
        (request_example false) rfl).2 (by decide) (by decide)
      cases hf
      exact h rfl rfl,
    (frame_resolution_by_depth (.thread thread_example)
      { request_example false with _depth := 2 } rfl).1 (by decide),
    by
      obtain ⟨f, hf, h⟩ := (frame_resolution_by_depth
        (.vthread { vthread_example with is_mounted := true }) (request_example true) rfl).2
        (by decide) (by decide)
      cases hf
      exact h rfl rfl⟩

/-! ## Properties of the local-variable operation -/

theorem VM_BaseGetOrSetLocal.check_slot_type_no_lvt_fail (req : Request) (jvf : FrameInfo)
    (e : jvmtiError) (h : VM_BaseGetOrSetLocal.check_slot_type_no_lvt req jvf = .fail e) :
    e = JVMTI_ERROR_INVALID_SLOT ∨ e = JVMTI_ERROR_TYPE_MISMATCH := by
  unfold VM_BaseGetOrSetLocal.check_slot_type_no_lvt at h
  simp only at h
  repeat' split at h
  all_goals first
    | (cases h; simp)
    | simp_all

theorem VM_BaseGetOrSetLocal.check_slot_type_lvt_fail (rt : Runtime) (req : Request)
    (jvf : FrameInfo) (e : jvmtiError)
    (h : VM_BaseGetOrSetLocal.check_slot_type_lvt rt req jvf = .fail e) :
    e = JVMTI_ERROR_INVALID_SLOT ∨ e = JVMTI_ERROR_TYPE_MISMATCH ∨
      e = JVMTI_ERROR_INVALID_OBJECT := by
  unfold VM_BaseGetOrSetLocal.check_slot_type_lvt at h
  simp only at h
  repeat' split at h
  all_goals first
    | (cases h; simp)
    | simp_all

/-- The checks of `doit` fail with `JVMTI_ERROR_OPAQUE_FRAME` only at the test for
a native method, and otherwise with a slot, type or object error. -/
theorem VM_BaseGetOrSetLocal.doit_checks_fail (rt : Runtime) (req : Request)
    (jvf : FrameInfo) (e : jvmtiError)
    (h : VM_BaseGetOrSetLocal.doit_checks rt req jvf = .fail e) :
    (e = JVMTI_ERROR_OPAQUE_FRAME ∧ req.getting_receiver = false ∧
        jvf.method.is_native = true) ∨
    e = JVMTI_ERROR_INVALID_SLOT ∨ e = JVMTI_ERROR_TYPE_MISMATCH ∨
      e = JVMTI_ERROR_INVALID_OBJECT := by
  unfold VM_BaseGetOrSetLocal.doit_checks at h
  simp only at h
  cases hr : req.getting_receiver
  · cases hn : jvf.method.is_native
    · simp only [hr, hn, Bool.false_eq_true, if_false] at h
      cases hc : VM_BaseGetOrSetLocal.check_slot_type_no_lvt req jvf with
      | fail e2 =>
        rw [hc] at h
        cases h
        rcases VM_BaseGetOrSetLocal.check_slot_type_no_lvt_fail req jvf e hc with he | he
        · exact Or.inr (Or.inl he)
        · exact Or.inr (Or.inr (Or.inl he))
      | fault => rw [hc] at h; cases h
      | pass =>
        rw [hc] at h
        simp only at h
        split at h
        · exact Or.inr (VM_BaseGetOrSetLocal.check_slot_type_lvt_fail rt req jvf e h)
        · cases h
    · simp only [hr, hn, Bool.false_eq_true, if_false, if_true] at h
      cases h
      exact Or.inl ⟨rfl, rfl, rfl⟩
  · simp only [hr, if_true] at h
    split at h
    · cases h; exact Or.inr (Or.inl rfl)
    · cases h

theorem VM_BaseGetOrSetLocal.doit_checks_native (rt : Runtime) (req : Request)
    (jvf : FrameInfo) (hr : req.getting_receiver = false) (hn : jvf.method.is_native = true) :
    VM_BaseGetOrSetLocal.doit_checks rt req jvf = .fail JVMTI_ERROR_OPAQUE_FRAME := by
  simp [VM_BaseGetOrSetLocal.doit_checks, hr, hn]

/-- The resolvers fail with `JVMTI_ERROR_THREAD_NOT_SUSPENDED` exactly when the
request is not a self request and the target is not suspended. -/
theorem get_java_vframe_not_suspended_iff (target : Target) (req : Request) :
    VM_BaseGetOrSetLocal.get_java_vframe target req
        = .error JVMTI_ERROR_THREAD_NOT_SUSPENDED ↔
      target.self_or_suspended req = false := by
  cases target with
  | thread t =>
    simp only [VM_BaseGetOrSetLocal.get_java_vframe, VM_GetOrSetLocal.get_java_vframe,
      Target.self_or_suspended]
    cases h1 : req._self <;> cases h2 : t.is_suspended <;>
      cases h3 : t.is_carrier_thread_suspended <;> simp <;>
      (split <;> (try split) <;> simp)
  | vthread v =>
    simp only [VM_BaseGetOrSetLocal.get_java_vframe,
      VM_VirtualThreadGetOrSetLocal.get_java_vframe, Target.self_or_suspended]
    cases h1 : req._self <;> cases h2 : v.is_vthread_suspended <;> simp <;>
      (split <;> (try split) <;> (try split) <;> simp)

theorem VM_BaseGetOrSetLocal.doit_get_result (rt : Runtime) (req : Request) (jvf : FrameInfo)
    (o : Outcome) (h : VM_BaseGetOrSetLocal.doit_get rt req jvf = some o) :
    o._result = JVMTI_ERROR_NONE ∧ o.effects = [] := by
  unfold VM_BaseGetOrSetLocal.doit_get at h
  simp only at h
  repeat' split at h
  all_goals first
    | (cases h; exact ⟨rfl, rfl⟩)
    | cases h

theorem VM_BaseGetOrSetLocal.doit_set_result (rt : Runtime) (target : Target) (req : Request)
    (jvf : FrameInfo) (o : Outcome)
    (h : VM_BaseGetOrSetLocal.doit_set rt target req jvf = some o) :
    o._result = JVMTI_ERROR_OPAQUE_FRAME ∨ o._result = JVMTI_ERROR_NONE ∨
      VM_BaseGetOrSetLocal.get_java_vframe target req = .error o._result := by
  unfold VM_BaseGetOrSetLocal.doit_set at h
  simp only at h
  split at h
  · cases h; exact Or.inl rfl
  · split at h
    · split at h
      · cases h; exact Or.inl rfl
      · split at h
        · rename_i e he
          cases h
          exact Or.inr (Or.inr he)
        · cases h; exact Or.inr (Or.inl rfl)
    · split at h
      · cases h
      · cases h; exact Or.inr (Or.inl rfl)

/-- The result of `doit` is the error of the resolver, or one of the codes set
in the body of `doit`. -/
theorem VM_BaseGetOrSetLocal.doit_result (rt : Runtime) (target : Target) (req : Request)
    (o : Outcome) (h : VM_BaseGetOrSetLocal.doit rt target req = some o) :
    VM_BaseGetOrSetLocal.get_java_vframe target req = .error o._result ∨
    o._result = JVMTI_ERROR_OPAQUE_FRAME ∨ o._result = JVMTI_ERROR_INVALID_SLOT ∨
    o._result = JVMTI_ERROR_TYPE_MISMATCH ∨ o._result = JVMTI_ERROR_INVALID_OBJECT ∨
    o._result = JVMTI_ERROR_NONE := by
  unfold VM_BaseGetOrSetLocal.doit at h
  cases hres : VM_BaseGetOrSetLocal.get_java_vframe target req with
  | error e =>
    rw [hres] at h
    cases h
    exact Or.inl rfl
  | ok jvf =>
    rw [hres] at h
    simp only at h
    split at h
    · cases h; exact Or.inr (Or.inl rfl)
    · cases hc : VM_BaseGetOrSetLocal.doit_checks rt req jvf with
      | fail e =>
        rw [hc] at h
        cases h
        rcases VM_BaseGetOrSetLocal.doit_checks_fail rt req jvf e hc with
          ⟨he, -, -⟩ | he | he | he
        · exact Or.inr (Or.inl he)
        · exact Or.inr (Or.inr (Or.inl he))
        · exact Or.inr (Or.inr (Or.inr (Or.inl he)))
        · exact Or.inr (Or.inr (Or.inr (Or.inr (Or.inl he))))
      | fault => rw [hc] at h; cases h
      | pass =>
        rw [hc] at h
        simp only at h
        split at h
        · cases h; exact Or.inr (Or.inr (Or.inl rfl))
        · split at h
          · rcases VM_BaseGetOrSetLocal.doit_set_result rt target req jvf o h with he | he | he
            · exact Or.inr (Or.inl he)
            · exact Or.inr (Or.inr (Or.inr (Or.inr (Or.inr he))))
            · rw [hres] at he; cases he
          · exact Or.inr (Or.inr (Or.inr (Or.inr (Or.inr
              (VM_BaseGetOrSetLocal.doit_get_result rt req jvf o h).1))))

/-- C9. For every request (any depth, slot, kind and value) on a thread or on a
virtual thread: when the request is not a self request and the target is not
suspended (thread: neither the thread nor its carrier; virtual thread: not the
virtual thread), the resolver and the whole operation `doit` fail with
`JVMTI_ERROR_THREAD_NOT_SUSPENDED`, whatever the stack holds, so before any
`JVMTI_ERROR_NO_MORE_FRAMES` or `JVMTI_ERROR_OPAQUE_FRAME`, and nothing is
written; in every other case, a self request in particular, neither the resolver
nor `doit` gives `JVMTI_ERROR_THREAD_NOT_SUSPENDED`. -/
theorem suspension_precondition (rt : Runtime) (target : Target) (req : Request) :
    (target.self_or_suspended req = false →
      VM_BaseGetOrSetLocal.get_java_vframe target req
        = .error JVMTI_ERROR_THREAD_NOT_SUSPENDED ∧
      VM_BaseGetOrSetLocal.doit rt target req
        = some ⟨JVMTI_ERROR_THREAD_NOT_SUSPENDED, req._value, []⟩) ∧
    (target.self_or_suspended req = true →
      VM_BaseGetOrSetLocal.get_java_vframe target req
        ≠ .error JVMTI_ERROR_THREAD_NOT_SUSPENDED ∧
      ∀ o, VM_BaseGetOrSetLocal.doit rt target req = some o →
        o._result ≠ JVMTI_ERROR_THREAD_NOT_SUSPENDED) ∧
    (req._self = true → target.self_or_suspended req = true) ∧
    ((∃ o, VM_BaseGetOrSetLocal.doit rt target req = some o ∧
        o._result = JVMTI_ERROR_THREAD_NOT_SUSPENDED) ↔
      target.self_or_suspended req = false) := by
  have hno : target.self_or_suspended req = false →
      VM_BaseGetOrSetLocal.doit rt target req
        = some ⟨JVMTI_ERROR_THREAD_NOT_SUSPENDED, req._value, []⟩ := by
    intro hs
    have hres := (get_java_vframe_not_suspended_iff target req).2 hs
    simp [VM_BaseGetOrSetLocal.doit, hres]
  have hyes : target.self_or_suspended req = true →
      ∀ o, VM_BaseGetOrSetLocal.doit rt target req = some o →
        o._result ≠ JVMTI_ERROR_THREAD_NOT_SUSPENDED := by
    intro hs o ho hr
    rcases VM_BaseGetOrSetLocal.doit_result rt target req o ho with h | h | h | h | h | h
    · rw [hr] at h
      have := (get_java_vframe_not_suspended_iff target req).1 h
      rw [hs] at this
      cases this
    all_goals (rw [hr] at h; cases h)
  refine ⟨fun hs => ⟨(get_java_vframe_not_suspended_iff target req).2 hs, hno hs⟩,
    fun hs => ⟨?_, hyes hs⟩, ?_, ?_⟩
  · intro h
    have := (get_java_vframe_not_suspended_iff target req).1 h
    rw [hs] at this
    cases this
  · intro hself
    cases target <;> simp [Target.self_or_suspended, hself]
  · constructor
    · rintro ⟨o, ho, hr⟩
      cases hs : target.self_or_suspended req
      · rfl
      · exact absurd hr (hyes hs o ho)
    · intro hs
      exact ⟨_, hno hs, rfl⟩

/-- A get request whose frame was resolved writes nothing, and it is rejected with
`JVMTI_ERROR_OPAQUE_FRAME` only as a generic access to a native method. -/
theorem VM_BaseGetOrSetLocal.doit_get_path (rt : Runtime) (target : Target) (req : Request)
    (f : FrameInfo) (o : Outcome) (hset : req._set = false)
    (hres : VM_BaseGetOrSetLocal.get_java_vframe target req = .ok f)
    (ho : VM_BaseGetOrSetLocal.doit rt target req = some o) :
    o.effects = [] ∧
    (o._result = JVMTI_ERROR_OPAQUE_FRAME ↔
      (req.getting_receiver = false ∧ f.method.is_native = true)) := by
  unfold VM_BaseGetOrSetLocal.doit at ho
  rw [hres] at ho
  simp only [hset, Bool.false_and, Bool.false_eq_true, if_false] at ho
  cases hc : VM_BaseGetOrSetLocal.doit_checks rt req f with
  | fail e =>
    rw [hc] at ho
    cases ho
    refine ⟨rfl, ?_⟩
    constructor
    · intro he
      rcases VM_BaseGetOrSetLocal.doit_checks_fail rt req f e hc with
        ⟨-, h1, h2⟩ | h | h | h
      · exact ⟨h1, h2⟩
      all_goals (simp only at he; rw [he] at h; cases h)
    · rintro ⟨h1, h2⟩
      rw [VM_BaseGetOrSetLocal.doit_checks_native rt req f h1 h2] at hc
      cases hc
      rfl
  | fault => rw [hc] at ho; cases ho
  | pass =>
    rw [hc] at ho
    simp only at ho
    have hnn : ¬ (req.getting_receiver = false ∧ f.method.is_native = true) := by
      rintro ⟨h1, h2⟩
      rw [VM_BaseGetOrSetLocal.doit_checks_native rt req f h1 h2] at hc
      cases hc
    split at ho
    · cases ho
      exact ⟨rfl, Iff.intro (fun h => by cases h) (fun h => absurd h hnn)⟩
    · obtain ⟨h1, h2⟩ := VM_BaseGetOrSetLocal.doit_get_result rt req f o ho
      refine ⟨h2, Iff.intro (fun h => ?_) (fun h => absurd h hnn)⟩
      rw [h1] at h
      cases h

/-- C10. Take a virtual thread that is not mounted, a request on it that is a self
request or finds it suspended, and a depth `0 <= depth` below the height of its
stack, addressing the frame `f`.  A set request fails in the resolver with
`JVMTI_ERROR_OPAQUE_FRAME`, and so does `doit`, without writing anything.  A get
request on a Java frame is resolved to `f`; `doit` then writes nothing and gives
`JVMTI_ERROR_OPAQUE_FRAME` only for a generic access to a native method, never on
account of the thread not being mounted. -/
theorem unmounted_vthread_rejects_set (rt : Runtime) (v : VirtualThread) (req : Request)
    (f : FrameInfo) (hs : (Target.vthread v).self_or_suspended req = true)
    (hu : v.is_mounted = false) (hd : 0 ≤ req._depth)
    (hf : v.vthread_jvf.frame_at req._depth.toNat = some f) :
    (req._set = true →
      VM_BaseGetOrSetLocal.get_java_vframe (.vthread v) req
        = .error JVMTI_ERROR_OPAQUE_FRAME ∧
      VM_BaseGetOrSetLocal.doit rt (.vthread v) req
        = some ⟨JVMTI_ERROR_OPAQUE_FRAME, req._value, []⟩) ∧
    (req._set = false → f.is_java_frame = true →
      VM_BaseGetOrSetLocal.get_java_vframe (.vthread v) req = .ok f ∧
      ∀ o, VM_BaseGetOrSetLocal.doit rt (.vthread v) req = some o →
        o.effects = [] ∧
        (o._result = JVMTI_ERROR_OPAQUE_FRAME ↔
          (req.getting_receiver = false ∧ f.method.is_native = true))) := by
  constructor
  · intro hset
    obtain ⟨sender, hw⟩ := walk_senders_frame_at req._depth v.vthread_jvf 0 f hd
      (by simpa using hf)
    have hs2 : (!(req._self || v.is_vthread_suspended)) = false := by
      simp only [Target.self_or_suspended] at hs
      simp [hs]
    have hres : VM_BaseGetOrSetLocal.get_java_vframe (.vthread v) req
        = .error JVMTI_ERROR_OPAQUE_FRAME := by
      simp only [VM_BaseGetOrSetLocal.get_java_vframe,
        VM_VirtualThreadGetOrSetLocal.get_java_vframe, hs2, hw]
      simp [hset, hu]
    exact ⟨hres, by simp [VM_BaseGetOrSetLocal.doit, hres]⟩
  · intro hset hj
    have hres := get_java_vframe_resolved (.vthread v) req f hs hd
      (by simpa [Target.top] using hf) hj (Or.inr hset)
    exact ⟨hres, fun o ho => VM_BaseGetOrSetLocal.doit_get_path rt (.vthread v) req f o hset
      hres ho⟩

/-- C10, witness. On the suspended virtual thread that is not mounted, setting
local 0 of the frame at depth 1 is refused with `JVMTI_ERROR_OPAQUE_FRAME` and
writes nothing, while reading it resolves to that frame and returns its value 11. -/
theorem unmounted_vthread_rejects_set_witness :
    VM_BaseGetOrSetLocal.doit runtime_example (.vthread vthread_example) (request_example true)
      = some ⟨JVMTI_ERROR_OPAQUE_FRAME, 5, []⟩ ∧
    VM_BaseGetOrSetLocal.get_java_vframe (.vthread vthread_example) (request_example false)
      = .ok (frame_example 2) ∧
    VM_BaseGetOrSetLocal.doit runtime_example (.vthread vthread_example) (request_example false)
      = some ⟨JVMTI_ERROR_NONE, 11, []⟩ :=
  ⟨((unmounted_vthread_rejects_set runtime_example vthread_example (request_example true)
      (frame_example 2) rfl rfl (by decide) rfl).1 rfl).2,
    ((unmounted_vthread_rejects_set runtime_example vthread_example (request_example false)
      (frame_example 2) rfl rfl (by decide) rfl).2 rfl rfl).1,
    rfl⟩

/-! ## Set requests across a suspend boundary and native frames -/

theorem VM_BaseGetOrSetLocal.doit_of_resolved (rt : Runtime) (target : Target) (req : Request)
    (jvf : FrameInfo) (hres : VM_BaseGetOrSetLocal.get_java_vframe target req = .ok jvf) :
    VM_BaseGetOrSetLocal.doit rt target req =
      if req._set && req._depth != 0 && jvf.in_continuation then
        some ⟨JVMTI_ERROR_OPAQUE_FRAME, req._value, []⟩
      else
        match VM_BaseGetOrSetLocal.doit_checks rt req jvf with
        | .fail e => some ⟨e, req._value, []⟩
        | .fault => none
        | .pass =>
          if jvf.method.is_dead jvf.bci req._index then
            some ⟨JVMTI_ERROR_INVALID_SLOT, req._value, []⟩
          else if req._set then VM_BaseGetOrSetLocal.doit_set rt target req jvf
          else VM_BaseGetOrSetLocal.doit_get rt req jvf := by
  unfold VM_BaseGetOrSetLocal.doit
  rw [hres]

theorem VM_BaseGetOrSetLocal.doit_checks_fail_ne_none (rt : Runtime) (req : Request)
    (jvf : FrameInfo) (e : jvmtiError)
    (h : VM_BaseGetOrSetLocal.doit_checks rt req jvf = .fail e) : e ≠ JVMTI_ERROR_NONE := by
  rcases VM_BaseGetOrSetLocal.doit_checks_fail rt req jvf e h with ⟨he, -, -⟩ | he | he | he <;>
    (rw [he]; intro hc; cases hc)

theorem VM_BaseGetOrSetLocal.doit_checks_generic_pass (rt : Runtime) (req : Request)
    (f : FrameInfo) (hr : req.getting_receiver = false)
    (hpass : VM_BaseGetOrSetLocal.doit_checks rt req f = .pass) :
    f.method.is_native = false ∧
    VM_BaseGetOrSetLocal.check_slot_type_no_lvt req f = .pass ∧
    (f.method.has_localvariable_table = true →
      VM_BaseGetOrSetLocal.check_slot_type_lvt rt req f = .pass) := by
  unfold VM_BaseGetOrSetLocal.doit_checks at hpass
  simp only [hr, Bool.false_eq_true, if_false] at hpass
  cases hn : f.method.is_native
  · simp only [hn, Bool.false_eq_true, if_false] at hpass
    cases hc : VM_BaseGetOrSetLocal.check_slot_type_no_lvt req f with
    | fail e => rw [hc] at hpass; cases hpass
    | fault => rw [hc] at hpass; cases hpass
    | pass =>
      rw [hc] at hpass
      simp only at hpass
      refine ⟨rfl, rfl, fun hl => ?_⟩
      rw [if_pos hl] at hpass
      exact hpass
  · simp [hn] at hpass

/-- C11, as the code has it. Take a set request whose frame `jvf` was resolved.
When the depth is not 0 and `jvf` lies inside a continuation, `doit` returns
`JVMTI_ERROR_OPAQUE_FRAME` for every slot index, kind and value, and makes no
change (no store, no deferred update, no deoptimization).  When `jvf` is a heap
frame, or a deoptimizable compiled frame inside a continuation, `doit` returns
`JVMTI_ERROR_OPAQUE_FRAME` as soon as the slot checks and the liveness test
pass, and in every case it returns an error and makes no change. -/
theorem set_across_suspend_boundary (rt : Runtime) (target : Target) (req : Request)
    (jvf : FrameInfo) (hset : req._set = true)
    (hres : VM_BaseGetOrSetLocal.get_java_vframe target req = .ok jvf) :
    (req._depth ≠ 0 → jvf.in_continuation = true →
      VM_BaseGetOrSetLocal.doit rt target req
        = some ⟨JVMTI_ERROR_OPAQUE_FRAME, req._value, []⟩) ∧
    ((jvf.is_heap_frame = true ∨
        (can_be_deoptimized jvf = true ∧ jvf.in_continuation = true)) →
      (VM_BaseGetOrSetLocal.doit_checks rt req jvf = .pass →
        jvf.method.is_dead jvf.bci req._index = false →
        VM_BaseGetOrSetLocal.doit rt target req
          = some ⟨JVMTI_ERROR_OPAQUE_FRAME, req._value, []⟩) ∧
      (∀ o, VM_BaseGetOrSetLocal.doit rt target req = some o →
        o._result ≠ JVMTI_ERROR_NONE ∧ o.effects = [])) := by
  have hdoit := VM_BaseGetOrSetLocal.doit_of_resolved rt target req jvf hres
  have hsetpath : (jvf.is_heap_frame = true ∨
      (can_be_deoptimized jvf = true ∧ jvf.in_continuation = true)) →
      VM_BaseGetOrSetLocal.doit_set rt target req jvf
        = some ⟨JVMTI_ERROR_OPAQUE_FRAME, req._value, []⟩ := by
    intro hk
    unfold VM_BaseGetOrSetLocal.doit_set
    rcases hk with hh | ⟨hc, hi⟩
    · simp [hh]
    · cases hh : jvf.is_heap_frame <;> simp [hc, hi]
  refine ⟨?_, fun hk => ⟨?_, ?_⟩⟩
  · intro hd hi
    rw [hdoit]
    simp [hset, hd, hi]
  · intro hc hdead
    rw [hdoit, hc]
    simp only [hdead, hset, Bool.false_eq_true, if_false, if_true]
    split
    · rfl
    · exact hsetpath hk
  · intro o ho
    rw [hdoit] at ho
    split at ho
    · cases ho
      exact ⟨(by intro hc; cases hc), rfl⟩
    · cases hc : VM_BaseGetOrSetLocal.doit_checks rt req jvf with
      | fail e =>
        rw [hc] at ho
        cases ho
        exact ⟨VM_BaseGetOrSetLocal.doit_checks_fail_ne_none rt req jvf e hc, rfl⟩
      | fault => rw [hc] at ho; cases ho
      | pass =>
        rw [hc] at ho
        simp only [hset, if_true] at ho
        split at ho
        · cases ho
          exact ⟨(by intro hc; cases hc), rfl⟩
        · rw [hsetpath hk] at ho
          cases ho
          exact ⟨(by intro hc; cases hc), rfl⟩

/-- C11, witness. Setting local 0 of the caller frame (depth 1), which lies inside
a continuation, is refused with `JVMTI_ERROR_OPAQUE_FRAME`; so is setting local 0
of a heap frame at depth 0. -/
theorem set_across_suspend_boundary_witness :
    VM_BaseGetOrSetLocal.doit runtime_example (.thread thread_continuation)
      (request_example true) = some ⟨JVMTI_ERROR_OPAQUE_FRAME, 5, []⟩ ∧
    VM_BaseGetOrSetLocal.doit runtime_example (.thread thread_heap)
      (request_top true 0 .T_INT) = some ⟨JVMTI_ERROR_OPAQUE_FRAME, 5, []⟩ :=
  ⟨(set_across_suspend_boundary runtime_example (.thread thread_continuation)
      (request_example true) { frame_example 2 with in_continuation := true } rfl rfl).1
      (by decide) rfl,
    ((set_across_suspend_boundary runtime_example (.thread thread_heap)
      (request_top true 0 .T_INT) frame_heap rfl rfl).2 (Or.inl rfl)).1 rfl rfl⟩

/-- C11, counterexample. A set at depth 0 into a heap frame, for slot 5 of a method
with 2 locals, returns `JVMTI_ERROR_INVALID_SLOT`, not `JVMTI_ERROR_OPAQUE_FRAME`:
the heap-frame test comes after the slot checks. -/
theorem set_into_heap_frame_checks_slot_first :
    frame_heap.is_heap_frame = true ∧
    VM_BaseGetOrSetLocal.get_java_vframe (.thread thread_heap) (request_top true 5 .T_INT)
      = .ok frame_heap ∧
    VM_BaseGetOrSetLocal.doit runtime_example (.thread thread_heap)
      (request_top true 5 .T_INT) = some ⟨JVMTI_ERROR_INVALID_SLOT, 5, []⟩ :=
  ⟨rfl, rfl, rfl⟩

/-- C12. Take a request whose frame `jvf` was resolved and whose method is native.
Every generic request (not the receiver accessor), get or set, of any slot, kind
and value, returns `JVMTI_ERROR_OPAQUE_FRAME` and changes nothing.  The receiver
accessor on a compiled frame fails with `JVMTI_ERROR_INVALID_SLOT` for a static
method or a dead slot, and otherwise succeeds with a handle to the value of
`get_native_receiver`, whatever the locals of the frame hold. -/
theorem native_frame_only_receiver (rt : Runtime) (target : Target) (req : Request)
    (jvf : FrameInfo)
    (hres : VM_BaseGetOrSetLocal.get_java_vframe target req = .ok jvf)
    (hn : jvf.method.is_native = true) :
    (req.getting_receiver = false →
      VM_BaseGetOrSetLocal.doit rt target req
        = some ⟨JVMTI_ERROR_OPAQUE_FRAME, req._value, []⟩) ∧
    (req.getting_receiver = true → req._set = false → jvf.is_compiled_frame = true →
      VM_BaseGetOrSetLocal.doit rt target req =
        if jvf.method.is_static || jvf.method.is_dead jvf.bci req._index then
          some ⟨JVMTI_ERROR_INVALID_SLOT, req._value, []⟩
        else some ⟨JVMTI_ERROR_NONE, rt.make_local jvf.native_receiver, []⟩) := by
  have hdoit := VM_BaseGetOrSetLocal.doit_of_resolved rt target req jvf hres
  constructor
  · intro hr
    rw [hdoit, VM_BaseGetOrSetLocal.doit_checks_native rt req jvf hr hn]
    split <;> rfl
  · intro hr hset hc
    rw [hdoit]
    simp only [hset, Bool.false_and, Bool.false_eq_true, if_false]
    unfold VM_BaseGetOrSetLocal.doit_checks VM_BaseGetOrSetLocal.doit_get
    cases hs : jvf.method.is_static <;> cases hd : jvf.method.is_dead jvf.bci req._index <;>
      simp [hr, hn, hc, hs, hd]

/-- C12, witness. On the compiled frame of a native method, reading local 0 as a
generic request is refused, while the receiver accessor returns the receiver 77
although local 0 holds 11. -/
theorem native_frame_only_receiver_witness :
    VM_BaseGetOrSetLocal.doit runtime_example (.thread thread_native)
      (request_top false 0 .T_OBJECT) = some ⟨JVMTI_ERROR_OPAQUE_FRAME, 5, []⟩ ∧
    VM_BaseGetOrSetLocal.doit runtime_example (.thread thread_native)
      { request_top false 0 .T_OBJECT with getting_receiver := true }
      = some ⟨JVMTI_ERROR_NONE, 77, []⟩ :=
  ⟨(native_frame_only_receiver runtime_example (.thread thread_native)
      (request_top false 0 .T_OBJECT) frame_native rfl rfl).1 rfl,
    (native_frame_only_receiver runtime_example (.thread thread_native)
      { request_top false 0 .T_OBJECT with getting_receiver := true } frame_native rfl rfl).2
      rfl rfl rfl⟩

/-! ## The slot checks -/

theorem jint_add_of_in_range (a b : Int) (hlo : -2147483648 ≤ a + b)
    (hhi : a + b ≤ 2147483647) : jint_add a b = a + b := by
  unfold jint_add
  omega

theorem VM_BaseGetOrSetLocal.extra_slot_cases (req : Request) :
    VM_BaseGetOrSetLocal.extra_slot req = 0 ∨ VM_BaseGetOrSetLocal.extra_slot req = 1 := by
  unfold VM_BaseGetOrSetLocal.extra_slot
  split
  · right; rfl
  · left; rfl

/-- Where `_index + extra_slot` stays within 32 bits, the bounds test of
`check_slot_type_no_lvt` rejects every index that is negative or reaches
`max_locals`, counting the second slot of a 2-slot kind. -/
theorem VM_BaseGetOrSetLocal.check_slot_type_no_lvt_bounds (req : Request) (jvf : FrameInfo)
    (hlo : -2147483648 ≤ req._index)
    (hhi : req._index + VM_BaseGetOrSetLocal.extra_slot req ≤ 2147483647)
    (hout : req._index < 0 ∨
      req._index + VM_BaseGetOrSetLocal.extra_slot req ≥ jvf.method.max_locals) :
    VM_BaseGetOrSetLocal.check_slot_type_no_lvt req jvf = .fail JVMTI_ERROR_INVALID_SLOT := by
  have hx := VM_BaseGetOrSetLocal.extra_slot_cases req
  have hadd : jint_add req._index (VM_BaseGetOrSetLocal.extra_slot req)
      = req._index + VM_BaseGetOrSetLocal.extra_slot req :=
    jint_add_of_in_range _ _ (by omega) hhi
  unfold VM_BaseGetOrSetLocal.check_slot_type_no_lvt
  simp only [hadd]
  rw [if_pos]
  simpa using hout

/-- C13, failing input. A `long` access to slot 2147483647 of a method with 2
locals: `_index + extra_slot` wraps around to -2147483648, which is below
`max_locals`, so the bounds test of both slot checks lets the index through;
`check_slot_type_no_lvt` then reads `locals->at(2147483647)`, outside the locals,
and neither the get nor the set returns `JVMTI_ERROR_INVALID_SLOT`. -/
theorem bounds_check_wraps_at_max_index :
    jint_add 2147483647 1 = -2147483648 ∧
    VM_BaseGetOrSetLocal.check_slot_type_lvt runtime_example
      (request_top false 2147483647 .T_LONG) (frame_example 1) = .pass ∧
    VM_BaseGetOrSetLocal.check_slot_type_no_lvt
      (request_top false 2147483647 .T_LONG) (frame_example 1) = .fault ∧
    VM_BaseGetOrSetLocal.doit runtime_example (.thread thread_example)
      (request_top false 2147483647 .T_LONG) = none ∧
    VM_BaseGetOrSetLocal.doit runtime_example (.thread thread_example)
      (request_top true 2147483647 .T_DOUBLE) = none := by
  refine ⟨by decide, by decide, by decide, by decide, by decide⟩

theorem VM_BaseGetOrSetLocal.lvt_lookup_eq (_index vf_bci : Int) :
    ∀ table : List LocalVariableTableElement,
      VM_BaseGetOrSetLocal.lvt_lookup _index vf_bci table =
        match table.find? (fun e => e.covers _index vf_bci) with
        | some e => (e.descriptor_cp_index : Int)
        | none => -1 := by
  intro table
  induction table with
  | nil => rfl
  | cons entry rest ih =>
    unfold VM_BaseGetOrSetLocal.lvt_lookup
    simp only [List.find?_cons]
    by_cases hc : entry.covers _index vf_bci = true
    · have hc2 := hc
      unfold LocalVariableTableElement.covers at hc2
      rw [if_pos hc2]
      simp [hc]
    · have hc2 := hc
      unfold LocalVariableTableElement.covers at hc2
      rw [if_neg hc2, ih]
      have hc3 : entry.covers _index vf_bci = false := by simpa using hc
      simp [hc3]

theorem LocalVariableTableElement.covers_iff (entry : LocalVariableTableElement)
    (_index vf_bci : Int) :
    entry.covers _index vf_bci = true ↔
      (_index = (entry.slot : Int) ∧ (entry.start_bci : Int) ≤ vf_bci ∧
        vf_bci ≤ (entry.start_bci : Int) + entry.length) := by
  unfold LocalVariableTableElement.covers
  simp [and_assoc]

/-- With no covering entry `check_slot_type_lvt` fails with
`JVMTI_ERROR_INVALID_SLOT`. -/
theorem VM_BaseGetOrSetLocal.check_slot_type_lvt_not_found (rt : Runtime) (req : Request)
    (jvf : FrameInfo) (hlvt : jvf.method.has_localvariable_table = true)
    (hnone : jvf.method.localvariable_table.find?
      (fun e => e.covers req._index jvf.bci) = none) :
    VM_BaseGetOrSetLocal.check_slot_type_lvt rt req jvf = .fail JVMTI_ERROR_INVALID_SLOT := by
  unfold VM_BaseGetOrSetLocal.check_slot_type_lvt
  simp only [hlvt, Bool.not_true, Bool.false_eq_true, if_false]
  split
  · rfl
  · rw [VM_BaseGetOrSetLocal.lvt_lookup_eq, hnone]
    simp

/-- With a covering entry, the first one in table order supplies the descriptor
and `check_slot_type_lvt` is the rest of its body run on that descriptor. -/
theorem VM_BaseGetOrSetLocal.check_slot_type_lvt_found (rt : Runtime) (req : Request)
    (jvf : FrameInfo) (entry : LocalVariableTableElement)
    (hlvt : jvf.method.has_localvariable_table = true)
    (hfind : jvf.method.localvariable_table.find?
      (fun e => e.covers req._index jvf.bci) = some entry) :
    VM_BaseGetOrSetLocal.check_slot_type_lvt rt req jvf =
      if req._type != VM_BaseGetOrSetLocal.normalize_slot_type
          (rt.basic_type (jvf.method.symbol_at entry.descriptor_cp_index)) then
        .fail JVMTI_ERROR_TYPE_MISMATCH
      else if req._set && VM_BaseGetOrSetLocal.normalize_slot_type
          (rt.basic_type (jvf.method.symbol_at entry.descriptor_cp_index)) == .T_OBJECT
          && req._value != 0 then
        if rt.resolve_external_guard req._value == 0 then .fail JVMTI_ERROR_INVALID_OBJECT
        else
          match rt.klass (rt.resolve_external_guard req._value) with
          | none => .fail JVMTI_ERROR_INVALID_OBJECT
          | some ob_k =>
            if !VM_BaseGetOrSetLocal.is_assignable rt
                (rt.as_utf8 (jvf.method.symbol_at entry.descriptor_cp_index)) ob_k then
              .fail JVMTI_ERROR_TYPE_MISMATCH
            else .pass
      else .pass := by
  have hne : jvf.method.localvariable_table ≠ [] := by
    intro h
    rw [h] at hfind
    simp at hfind
  have hlen : (jvf.method.localvariable_table.length == 0) = false := by
    cases hl : jvf.method.localvariable_table with
    | nil => exact absurd hl hne
    | cons a b => simp
  unfold VM_BaseGetOrSetLocal.check_slot_type_lvt
  simp only [hlvt, Bool.not_true, Bool.false_eq_true, if_false, hlen]
  rw [VM_BaseGetOrSetLocal.lvt_lookup_eq, hfind]
  have hidx : ((entry.descriptor_cp_index : Int) == -1) = false := by
    simp only [beq_eq_false_iff_ne, ne_eq]
    omega
  simp only [hidx, Bool.false_eq_true, if_false]

theorem VM_BaseGetOrSetLocal.check_slot_type_lvt_found_not_invalid_slot (rt : Runtime)
    (req : Request) (jvf : FrameInfo) (entry : LocalVariableTableElement)
    (hlvt : jvf.method.has_localvariable_table = true)
    (hfind : jvf.method.localvariable_table.find?
      (fun e => e.covers req._index jvf.bci) = some entry) :
    VM_BaseGetOrSetLocal.check_slot_type_lvt rt req jvf ≠ .fail JVMTI_ERROR_INVALID_SLOT := by
  rw [VM_BaseGetOrSetLocal.check_slot_type_lvt_found rt req jvf entry hlvt hfind]
  repeat' split
  all_goals (intro h; cases h)

/-- C14. For a method with a local-variable table, `check_slot_type_lvt` fails with
`JVMTI_ERROR_INVALID_SLOT` exactly when no entry of the table has its slot equal to
the requested index and a range `start_bci <= bci <= start_bci + length` covering
the offset of the frame; an empty table always fails so.  When there is such an
entry, the first one in table order supplies the declared kind: the check fails
with `JVMTI_ERROR_TYPE_MISMATCH` when the requested kind differs from the
normalized kind of its descriptor, and a get of that kind passes. -/
theorem lvt_coverage (rt : Runtime) (req : Request) (jvf : FrameInfo)
    (hlvt : jvf.method.has_localvariable_table = true) :
    (VM_BaseGetOrSetLocal.check_slot_type_lvt rt req jvf = .fail JVMTI_ERROR_INVALID_SLOT ↔
      ¬ ∃ entry ∈ jvf.method.localvariable_table,
        req._index = (entry.slot : Int) ∧ (entry.start_bci : Int) ≤ jvf.bci ∧
          jvf.bci ≤ (entry.start_bci : Int) + entry.length) ∧
    (jvf.method.localvariable_table = [] →
      VM_BaseGetOrSetLocal.check_slot_type_lvt rt req jvf = .fail JVMTI_ERROR_INVALID_SLOT) ∧
    (∀ entry, jvf.method.localvariable_table.find?
        (fun e => e.covers req._index jvf.bci) = some entry →
      (req._type ≠ VM_BaseGetOrSetLocal.normalize_slot_type
          (rt.basic_type (jvf.method.symbol_at entry.descriptor_cp_index)) →
        VM_BaseGetOrSetLocal.check_slot_type_lvt rt req jvf
          = .fail JVMTI_ERROR_TYPE_MISMATCH) ∧
      (req._type = VM_BaseGetOrSetLocal.normalize_slot_type
          (rt.basic_type (jvf.method.symbol_at entry.descriptor_cp_index)) →
        req._set = false →
        VM_BaseGetOrSetLocal.check_slot_type_lvt rt req jvf = .pass)) := by
  refine ⟨?_, ?_, ?_⟩
  · constructor
    · intro hfail hex
      obtain ⟨entry, hmem, hcov⟩ := hex
      have hc : entry.covers req._index jvf.bci = true :=
        (LocalVariableTableElement.covers_iff entry req._index jvf.bci).2 hcov
      cases hfind : jvf.method.localvariable_table.find?
          (fun e => e.covers req._index jvf.bci) with
      | none =>
        have := List.find?_eq_none.1 hfind entry hmem
        simp [hc] at this
      | some e2 =>
        exact VM_BaseGetOrSetLocal.check_slot_type_lvt_found_not_invalid_slot rt req jvf e2
          hlvt hfind hfail
    · intro hno
      apply VM_BaseGetOrSetLocal.check_slot_type_lvt_not_found rt req jvf hlvt
      rw [List.find?_eq_none]
      intro entry hmem hc
      exact hno ⟨entry, hmem,
        (LocalVariableTableElement.covers_iff entry req._index jvf.bci).1 hc⟩
  · intro hempty
    apply VM_BaseGetOrSetLocal.check_slot_type_lvt_not_found rt req jvf hlvt
    rw [hempty]
    rfl
  · intro entry hfind
    have h := VM_BaseGetOrSetLocal.check_slot_type_lvt_found rt req jvf entry hlvt hfind
    constructor
    · intro hne
      rw [h, if_pos (by simpa using hne)]
    · intro heq hget
      rw [h, if_neg (by simp [heq])]
      simp [hget]

/-- C14, witness. In `method_lvt` at offset 0, slot 2 has no entry and slot 1 is
covered by two entries, of which the first (descriptor `I`) decides: a get of an
`int` passes and a get of a `long` is a type mismatch. -/
theorem lvt_coverage_witness :
    VM_BaseGetOrSetLocal.check_slot_type_lvt runtime_lvt (request_top false 2 .T_INT) frame_lvt
      = .fail JVMTI_ERROR_INVALID_SLOT ∧
    VM_BaseGetOrSetLocal.check_slot_type_lvt runtime_lvt (request_top false 1 .T_INT) frame_lvt
      = .pass ∧
    VM_BaseGetOrSetLocal.check_slot_type_lvt runtime_lvt (request_top false 1 .T_LONG) frame_lvt
      = .fail JVMTI_ERROR_TYPE_MISMATCH :=
  ⟨(lvt_coverage runtime_lvt (request_top false 2 .T_INT) frame_lvt rfl).1.2 (by decide),
    ((lvt_coverage runtime_lvt (request_top false 1 .T_INT) frame_lvt rfl).2.2
      ⟨0, 10, 1, 2⟩ (by decide)).2 (by decide) rfl,
    ((lvt_coverage runtime_lvt (request_top false 1 .T_LONG) frame_lvt rfl).2.2
      ⟨0, 10, 1, 2⟩ (by decide)).1 (by decide)⟩

/-- When a covering entry exists, the declared kind of the first one is
normalized: `byte`, `short`, `char` and `boolean` become `int`, an array becomes
an object, and `int`, `long`, `float`, `double` and object stay as they are.  For
a get, and for a set of a primitive kind or of a null reference,
`check_slot_type_lvt` fails with `JVMTI_ERROR_TYPE_MISMATCH` exactly when the
requested kind differs from the normalized kind, and passes otherwise. -/
theorem VM_BaseGetOrSetLocal.check_slot_type_lvt_kind (rt : Runtime) (req : Request)
    (jvf : FrameInfo)
    (entry : LocalVariableTableElement)
    (hlvt : jvf.method.has_localvariable_table = true)
    (hfind : jvf.method.localvariable_table.find?
      (fun e => e.covers req._index jvf.bci) = some entry) :
    (VM_BaseGetOrSetLocal.normalize_slot_type .T_BYTE = .T_INT ∧
      VM_BaseGetOrSetLocal.normalize_slot_type .T_SHORT = .T_INT ∧
      VM_BaseGetOrSetLocal.normalize_slot_type .T_CHAR = .T_INT ∧
      VM_BaseGetOrSetLocal.normalize_slot_type .T_BOOLEAN = .T_INT ∧
      VM_BaseGetOrSetLocal.normalize_slot_type .T_ARRAY = .T_OBJECT ∧
      VM_BaseGetOrSetLocal.normalize_slot_type .T_INT = .T_INT ∧
      VM_BaseGetOrSetLocal.normalize_slot_type .T_LONG = .T_LONG ∧
      VM_BaseGetOrSetLocal.normalize_slot_type .T_FLOAT = .T_FLOAT ∧
      VM_BaseGetOrSetLocal.normalize_slot_type .T_DOUBLE = .T_DOUBLE ∧
      VM_BaseGetOrSetLocal.normalize_slot_type .T_OBJECT = .T_OBJECT) ∧
    ((req._set = false ∨ req._type ≠ .T_OBJECT ∨ req._value = 0) →
      (VM_BaseGetOrSetLocal.check_slot_type_lvt rt req jvf = .fail JVMTI_ERROR_TYPE_MISMATCH ↔
        req._type ≠ VM_BaseGetOrSetLocal.normalize_slot_type
          (rt.basic_type (jvf.method.symbol_at entry.descriptor_cp_index))) ∧
      (req._type = VM_BaseGetOrSetLocal.normalize_slot_type
          (rt.basic_type (jvf.method.symbol_at entry.descriptor_cp_index)) →
        VM_BaseGetOrSetLocal.check_slot_type_lvt rt req jvf = .pass)) := by
  refine ⟨⟨rfl, rfl, rfl, rfl, rfl, rfl, rfl, rfl, rfl, rfl⟩, ?_⟩
  intro hcase
  have h := VM_BaseGetOrSetLocal.check_slot_type_lvt_found rt req jvf entry hlvt hfind
  have hpass : req._type = VM_BaseGetOrSetLocal.normalize_slot_type
      (rt.basic_type (jvf.method.symbol_at entry.descriptor_cp_index)) →
      VM_BaseGetOrSetLocal.check_slot_type_lvt rt req jvf = .pass := by
    intro heq
    rw [h, if_neg (by simp [heq])]
    have hcond : (req._set && VM_BaseGetOrSetLocal.normalize_slot_type
        (rt.basic_type (jvf.method.symbol_at entry.descriptor_cp_index)) == .T_OBJECT
        && req._value != 0) = false := by
      rcases hcase with hc | hc | hc
      · simp [hc]
      · rw [← heq]
        have : (req._type == BasicType.T_OBJECT) = false := by simpa using hc
        simp [this]
      · simp [hc]
    rw [hcond]
    rfl
  refine ⟨⟨?_, ?_⟩, hpass⟩
  · intro hfail heq
    rw [hpass heq] at hfail
    cases hfail
  · intro hne
    rw [h, if_pos (by simpa using hne)]

/-- C15, as the code has it. Take a generic request, a get or a set of a
primitive kind or of a null reference, whose frame `jvf` was resolved, on a
method that is not native and has a local-variable table with an entry covering
the slot at the offset of the frame, no set across a suspend boundary.  The
declared kind of the first covering entry is normalized: `byte`, `short`,
`char` and `boolean` become `int`, an array becomes an object, and `int`,
`long`, `float`, `double` and object stay as they are.  `doit` first runs
`check_slot_type_no_lvt`, and when that check fails the request fails with its
error, whatever the table declares.  When that check passes, the request fails
with `JVMTI_ERROR_TYPE_MISMATCH` exactly when the requested kind differs from
the normalized kind. -/
theorem lvt_kind_normalization (rt : Runtime) (target : Target) (req : Request)
    (jvf : FrameInfo) (entry : LocalVariableTableElement)
    (hres : VM_BaseGetOrSetLocal.get_java_vframe target req = .ok jvf)
    (hr : req.getting_receiver = false) (hn : jvf.method.is_native = false)
    (hno : ¬ (req._set = true ∧ req._depth ≠ 0 ∧ jvf.in_continuation = true))
    (hlvt : jvf.method.has_localvariable_table = true)
    (hfind : jvf.method.localvariable_table.find?
      (fun e => e.covers req._index jvf.bci) = some entry)
    (hcase : req._set = false ∨ req._type ≠ .T_OBJECT ∨ req._value = 0) :
    (VM_BaseGetOrSetLocal.normalize_slot_type .T_BYTE = .T_INT ∧
      VM_BaseGetOrSetLocal.normalize_slot_type .T_SHORT = .T_INT ∧
      VM_BaseGetOrSetLocal.normalize_slot_type .T_CHAR = .T_INT ∧
      VM_BaseGetOrSetLocal.normalize_slot_type .T_BOOLEAN = .T_INT ∧
      VM_BaseGetOrSetLocal.normalize_slot_type .T_ARRAY = .T_OBJECT ∧
      VM_BaseGetOrSetLocal.normalize_slot_type .T_INT = .T_INT ∧
      VM_BaseGetOrSetLocal.normalize_slot_type .T_LONG = .T_LONG ∧
      VM_BaseGetOrSetLocal.normalize_slot_type .T_FLOAT = .T_FLOAT ∧
      VM_BaseGetOrSetLocal.normalize_slot_type .T_DOUBLE = .T_DOUBLE ∧
      VM_BaseGetOrSetLocal.normalize_slot_type .T_OBJECT = .T_OBJECT) ∧
    (∀ e, VM_BaseGetOrSetLocal.check_slot_type_no_lvt req jvf = .fail e →
      VM_BaseGetOrSetLocal.doit rt target req = some ⟨e, req._value, []⟩) ∧
    (VM_BaseGetOrSetLocal.check_slot_type_no_lvt req jvf = .pass →
      (req._type ≠ VM_BaseGetOrSetLocal.normalize_slot_type
          (rt.basic_type (jvf.method.symbol_at entry.descriptor_cp_index)) →
        VM_BaseGetOrSetLocal.doit rt target req
          = some ⟨JVMTI_ERROR_TYPE_MISMATCH, req._value, []⟩) ∧
      (∀ o, VM_BaseGetOrSetLocal.doit rt target req = some o →
        (o._result = JVMTI_ERROR_TYPE_MISMATCH ↔
          req._type ≠ VM_BaseGetOrSetLocal.normalize_slot_type
            (rt.basic_type (jvf.method.symbol_at entry.descriptor_cp_index))))) := by
  have hkind := (VM_BaseGetOrSetLocal.check_slot_type_lvt_kind rt req jvf entry hlvt hfind).2
    hcase
  have hchecks : VM_BaseGetOrSetLocal.doit_checks rt req jvf =
      match VM_BaseGetOrSetLocal.check_slot_type_no_lvt req jvf with
      | .fail e => .fail e
      | .fault => .fault
      | .pass => VM_BaseGetOrSetLocal.check_slot_type_lvt rt req jvf := by
    unfold VM_BaseGetOrSetLocal.doit_checks
    simp only [hr, hn, hlvt, Bool.false_eq_true, if_false, if_true]
  have hdoit := VM_BaseGetOrSetLocal.doit_of_resolved rt target req jvf hres
  rw [if_neg (by
    intro hcond
    simp only [Bool.and_eq_true, bne_iff_ne, ne_eq] at hcond
    exact hno ⟨hcond.1.1, hcond.1.2, hcond.2⟩), hchecks] at hdoit
  refine ⟨⟨rfl, rfl, rfl, rfl, rfl, rfl, rfl, rfl, rfl, rfl⟩, ?_, ?_⟩
  · intro e he
    rw [hdoit, he]
  · intro hp
    rw [hp] at hdoit
    simp only at hdoit
    have hmis : req._type ≠ VM_BaseGetOrSetLocal.normalize_slot_type
          (rt.basic_type (jvf.method.symbol_at entry.descriptor_cp_index)) →
        VM_BaseGetOrSetLocal.doit rt target req
          = some ⟨JVMTI_ERROR_TYPE_MISMATCH, req._value, []⟩ := by
      intro hne
      rw [hdoit, hkind.1.mpr hne]
    refine ⟨hmis, ?_⟩
    intro o ho
    constructor
    · intro hres2 heq
      rw [hdoit, hkind.2 heq] at ho
      simp only at ho
      split at ho
      · cases ho
        cases hres2
      · split at ho
        · rcases VM_BaseGetOrSetLocal.doit_set_result rt target req jvf o ho with h | h | h
          · rw [h] at hres2
            cases hres2
          · rw [h] at hres2
            cases hres2
          · rw [hres] at h
            cases h
        · have := (VM_BaseGetOrSetLocal.doit_get_result rt req jvf o ho).1
          rw [this] at hres2
          cases hres2
    · intro hne
      rw [hmis hne] at ho
      cases ho
      rfl

/-- C15, witness. Slot 1 of `method_lvt` is declared `I` and has the
dataflow-derived kind `T_INT` in `frame_lvt`: a set of a `long` is a type
mismatch, and a get of an `int`, the normalized kind, succeeds, which is no type
mismatch. -/
theorem lvt_kind_normalization_witness :
    VM_BaseGetOrSetLocal.doit runtime_lvt (.thread thread_lvt) (request_top true 1 .T_LONG)
      = some ⟨JVMTI_ERROR_TYPE_MISMATCH, 5, []⟩ ∧
    VM_BaseGetOrSetLocal.doit runtime_lvt (.thread thread_lvt) (request_top false 1 .T_INT)
      = some ⟨JVMTI_ERROR_NONE, 7, []⟩ ∧
    ((⟨JVMTI_ERROR_NONE, 7, []⟩ : Outcome)._result = JVMTI_ERROR_TYPE_MISMATCH ↔
      (request_top false 1 .T_INT)._type ≠ VM_BaseGetOrSetLocal.normalize_slot_type
        (runtime_lvt.basic_type (frame_lvt.method.symbol_at 2))) :=
  ⟨((lvt_kind_normalization runtime_lvt (.thread thread_lvt) (request_top true 1 .T_LONG)
      frame_lvt ⟨0, 10, 1, 2⟩ rfl rfl rfl (fun h => absurd h.2.1 (by decide)) rfl (by decide)
      (Or.inr (Or.inl (by decide)))).2.2 (by decide)).1 (by decide),
    by decide,
    ((lvt_kind_normalization runtime_lvt (.thread thread_lvt)
      (request_top false 1 .T_INT) frame_lvt ⟨0, 10, 1, 2⟩ rfl rfl rfl
      (fun h => absurd h.1 (by decide)) rfl (by decide) (Or.inl rfl)).2.2 (by decide)).2
      ⟨JVMTI_ERROR_NONE, 7, []⟩ (by decide)⟩

/-- C15, counterexample. In `frame_lvt_dataflow` the entries of the table that
cover offset 0 declare slot 0 as `LA;`, normalized `T_OBJECT`, and slot 1 as
`I`, normalized `T_INT`, while the dataflow-derived kinds are `T_INT` and
`T_CONFLICT`.  A get of an object from slot 0 asks for the normalized kind and
still fails with `JVMTI_ERROR_TYPE_MISMATCH`; a get of a `float` from slot 1
asks for another kind than the normalized one and fails with
`JVMTI_ERROR_INVALID_SLOT`, not with `JVMTI_ERROR_TYPE_MISMATCH`. -/
theorem table_kind_alone_does_not_decide_type_mismatch :
    frame_lvt_dataflow.method.localvariable_table.find?
      (fun e => e.covers 0 frame_lvt_dataflow.bci) = some ⟨0, 10, 0, 1⟩ ∧
    VM_BaseGetOrSetLocal.normalize_slot_type
      (runtime_lvt.basic_type (frame_lvt_dataflow.method.symbol_at 1)) = .T_OBJECT ∧
    VM_BaseGetOrSetLocal.doit runtime_lvt (.thread thread_lvt_dataflow)
      (request_top false 0 .T_OBJECT) = some ⟨JVMTI_ERROR_TYPE_MISMATCH, 5, []⟩ ∧
    frame_lvt_dataflow.method.localvariable_table.find?
      (fun e => e.covers 1 frame_lvt_dataflow.bci) = some ⟨0, 10, 1, 2⟩ ∧
    VM_BaseGetOrSetLocal.normalize_slot_type
      (runtime_lvt.basic_type (frame_lvt_dataflow.method.symbol_at 2)) = .T_INT ∧
    VM_BaseGetOrSetLocal.doit runtime_lvt (.thread thread_lvt_dataflow)
      (request_top false 1 .T_FLOAT) = some ⟨JVMTI_ERROR_INVALID_SLOT, 5, []⟩ := by
  refine ⟨by decide, by decide, by decide, by decide, by decide, by decide⟩

theorem declared_type_name_eq (signature : List Char) :
    (if signature.head? == some 'L' && signature.getLast? == some ';' then
      (signature.drop 1).take (signature.length - 2)
    else signature) = declared_type_name signature := by
  unfold declared_type_name
  by_cases h : signature.head? = some 'L' ∧ signature.getLast? = some ';'
  · rw [if_pos h, if_pos (by simp [h.1, h.2])]
    rw [List.dropLast_eq_take, List.drop_one, List.length_tail]
    congr 1
  · rw [if_neg h, if_neg]
    simpa using h

theorem declared_type_name_class (name : List Char) :
    declared_type_name ('L' :: (name ++ [';'])) = name := by
  unfold declared_type_name
  simp [List.getLast?_cons, List.dropLast_append_cons]

/-- What `is_assignable` computes: the symbol of the declared type name is the name
of the class, of one of its primary supers or of one of its secondary supers. -/
theorem VM_BaseGetOrSetLocal.is_assignable_iff (rt : Runtime) (ty_sign : List Char)
    (klass : KlassInfo) :
    VM_BaseGetOrSetLocal.is_assignable rt ty_sign klass = true ↔
      (klass.name = rt.new_symbol (declared_type_name ty_sign) ∨
        rt.new_symbol (declared_type_name ty_sign) ∈ klass.primary_supers ∨
        rt.new_symbol (declared_type_name ty_sign) ∈ klass.secondary_supers) := by
  unfold VM_BaseGetOrSetLocal.is_assignable
  simp only [declared_type_name_eq]
  by_cases h1 : klass.name = rt.new_symbol (declared_type_name ty_sign)
  · simp [h1]
  · by_cases h2 : rt.new_symbol (declared_type_name ty_sign) ∈ klass.primary_supers
    · simp [h1, h2]
    · by_cases h3 : rt.new_symbol (declared_type_name ty_sign) ∈ klass.secondary_supers
      · simp [h1, h2, h3]
      · simp [h1, h2, h3]

/-- C16. Take a reference request (`T_OBJECT`) on a slot whose covering entry
declares a reference type, and let the declared type name be the descriptor with a
leading `L` and a trailing `;` stripped when both are present (unchanged
otherwise).  For a set of a non-null reference that resolves to an object of class
`k`, `check_slot_type_lvt` passes exactly when the symbol of the declared type
name is the name of `k`, of one of the primary supers of `k`, or of one of its
secondary supers, and fails with `JVMTI_ERROR_TYPE_MISMATCH` otherwise.  A set of
null passes for every declared reference type, and a get passes without any look
at the class. -/
theorem lvt_reference_assignability (rt : Runtime) (req : Request) (jvf : FrameInfo)
    (entry : LocalVariableTableElement)
    (hlvt : jvf.method.has_localvariable_table = true)
    (hfind : jvf.method.localvariable_table.find?
      (fun e => e.covers req._index jvf.bci) = some entry)
    (htype : req._type = .T_OBJECT)
    (hdecl : VM_BaseGetOrSetLocal.normalize_slot_type
      (rt.basic_type (jvf.method.symbol_at entry.descriptor_cp_index)) = .T_OBJECT) :
    (req._set = true → req._value ≠ 0 → ∀ k : KlassInfo,
      rt.resolve_external_guard req._value ≠ 0 →
      rt.klass (rt.resolve_external_guard req._value) = some k →
      (VM_BaseGetOrSetLocal.check_slot_type_lvt rt req jvf = .pass ↔
        (k.name = rt.new_symbol (declared_type_name
            (rt.as_utf8 (jvf.method.symbol_at entry.descriptor_cp_index))) ∨
          rt.new_symbol (declared_type_name
            (rt.as_utf8 (jvf.method.symbol_at entry.descriptor_cp_index))) ∈ k.primary_supers ∨
          rt.new_symbol (declared_type_name
            (rt.as_utf8 (jvf.method.symbol_at entry.descriptor_cp_index)))
              ∈ k.secondary_supers)) ∧
      (VM_BaseGetOrSetLocal.check_slot_type_lvt rt req jvf ≠ .pass →
        VM_BaseGetOrSetLocal.check_slot_type_lvt rt req jvf
          = .fail JVMTI_ERROR_TYPE_MISMATCH)) ∧
    (req._set = true → req._value = 0 →
      VM_BaseGetOrSetLocal.check_slot_type_lvt rt req jvf = .pass) ∧
    (req._set = false → VM_BaseGetOrSetLocal.check_slot_type_lvt rt req jvf = .pass) ∧
    (∀ name : List Char, declared_type_name ('L' :: (name ++ [';'])) = name) ∧
    (∀ signature : List Char,
      ¬ (signature.head? = some 'L' ∧ signature.getLast? = some ';') →
      declared_type_name signature = signature) := by
  have h := VM_BaseGetOrSetLocal.check_slot_type_lvt_found rt req jvf entry hlvt hfind
  rw [hdecl, htype] at h
  simp only [bne_self_eq_false, Bool.false_eq_true, if_false, beq_self_eq_true,
    Bool.and_true] at h
  refine ⟨?_, ?_, ?_, declared_type_name_class, ?_⟩
  · intro hset hv k hobj hk
    have hobj2 : (rt.resolve_external_guard req._value == 0) = false := by simpa using hobj
    have hv2 : (req._value != 0) = true := by simpa using hv
    rw [hset, hv2, hk] at h
    simp only [Bool.and_self, if_true, hobj2, Bool.false_eq_true, if_false] at h
    cases ha : VM_BaseGetOrSetLocal.is_assignable rt
        (rt.as_utf8 (jvf.method.symbol_at entry.descriptor_cp_index)) k
    · rw [ha] at h
      simp only [Bool.not_false, if_true] at h
      have hno := (VM_BaseGetOrSetLocal.is_assignable_iff rt
        (rt.as_utf8 (jvf.method.symbol_at entry.descriptor_cp_index)) k).not.1 (by simp [ha])
      refine ⟨Iff.intro (fun hp => ?_) (fun hyes => absurd hyes hno), fun _ => h⟩
      rw [h] at hp
      cases hp
    · rw [ha] at h
      simp only [Bool.not_true, Bool.false_eq_true, if_false] at h
      have hyes := (VM_BaseGetOrSetLocal.is_assignable_iff rt _ k).1 ha
      exact ⟨Iff.intro (fun _ => hyes) (fun _ => h), fun hnp => absurd h hnp⟩
  · intro hset hv
    rw [h]
    simp [hv]
  · intro hget
    rw [h]
    simp [hget]
  · intro signature hno
    unfold declared_type_name
    rw [if_neg hno]

/-- C16, witness. Slot 0 of `method_lvt` is declared `LA;`.  Storing object 100,
an instance of `B` whose primary supers include `A`, passes the check. -/
theorem lvt_reference_assignability_witness :
    VM_BaseGetOrSetLocal.check_slot_type_lvt runtime_lvt
      { request_top true 0 .T_OBJECT with _value := 100 } frame_lvt = .pass :=
  ((lvt_reference_assignability runtime_lvt
      { request_top true 0 .T_OBJECT with _value := 100 } frame_lvt ⟨0, 10, 0, 1⟩
      rfl (by decide) rfl (by decide)).1 rfl (by decide) ⟨11, [13, 10], [14]⟩
      (by decide) (by decide)).1.2 (Or.inr (Or.inl (by decide)))

/-- C18. Take any request, get or set, generic or the receiver accessor, whose
frame `jvf` was resolved and whose slot is dead at the offset of the frame.  Then
`doit` never succeeds, makes no change and reads nothing into `_value`; and when
the tests before the liveness test pass (the suspend-boundary test and the slot
checks), the result is `JVMTI_ERROR_INVALID_SLOT`. -/
theorem dead_slot_is_rejected (rt : Runtime) (target : Target) (req : Request)
    (jvf : FrameInfo)
    (hres : VM_BaseGetOrSetLocal.get_java_vframe target req = .ok jvf)
    (hdead : jvf.method.is_dead jvf.bci req._index = true) :
    (∀ o, VM_BaseGetOrSetLocal.doit rt target req = some o →
      o._result ≠ JVMTI_ERROR_NONE ∧ o.effects = [] ∧ o._value = req._value) ∧
    (¬ (req._set = true ∧ req._depth ≠ 0 ∧ jvf.in_continuation = true) →
      VM_BaseGetOrSetLocal.doit_checks rt req jvf = .pass →
      VM_BaseGetOrSetLocal.doit rt target req
        = some ⟨JVMTI_ERROR_INVALID_SLOT, req._value, []⟩) := by
  have hdoit := VM_BaseGetOrSetLocal.doit_of_resolved rt target req jvf hres
  constructor
  · intro o ho
    rw [hdoit] at ho
    split at ho
    · cases ho
      exact ⟨(by intro hc; cases hc), rfl, rfl⟩
    · cases hc : VM_BaseGetOrSetLocal.doit_checks rt req jvf with
      | fail e =>
        rw [hc] at ho
        cases ho
        exact ⟨VM_BaseGetOrSetLocal.doit_checks_fail_ne_none rt req jvf e hc, rfl, rfl⟩
      | fault => rw [hc] at ho; cases ho
      | pass =>
        rw [hc] at ho
        simp only [hdead, if_true] at ho
        cases ho
        exact ⟨(by intro hc; cases hc), rfl, rfl⟩
  · intro hno hc
    rw [hdoit, hc, if_neg]
    · simp [hdead]
    · intro hcond
      simp only [Bool.and_eq_true, bne_iff_ne, ne_eq] at hcond
      exact hno ⟨hcond.1.1, hcond.1.2, hcond.2⟩

/-- C18, witness. Local 1 is dead: reading it and writing it both give
`JVMTI_ERROR_INVALID_SLOT` and change nothing. -/
theorem dead_slot_is_rejected_witness :
    VM_BaseGetOrSetLocal.doit runtime_example (.thread thread_dead_slot)
      (request_top false 1 .T_INT) = some ⟨JVMTI_ERROR_INVALID_SLOT, 5, []⟩ ∧
    VM_BaseGetOrSetLocal.doit runtime_example (.thread thread_dead_slot)
      (request_top true 1 .T_INT) = some ⟨JVMTI_ERROR_INVALID_SLOT, 5, []⟩ :=
  ⟨(dead_slot_is_rejected runtime_example (.thread thread_dead_slot)
      (request_top false 1 .T_INT) _ rfl rfl).2 (by decide) (by decide),
    (dead_slot_is_rejected runtime_example (.thread thread_dead_slot)
      (request_top true 1 .T_INT) _ rfl rfl).2 (by decide) (by decide)⟩

theorem walk_senders_eq_drop (depth : Int) :
    ∀ (vf : vframe) (d : Int),
      (walk_senders depth vf d).1 = vf.drop (depth - d).toNat ∧
      (vf.drop (depth - d).toNat ≠ .nullptr → depth ≤ (walk_senders depth vf d).2) := by
  intro vf
  induction vf with
  | nullptr => intro d; exact ⟨rfl, fun h => absurd rfl h⟩
  | frame info sender ih =>
    intro d
    unfold walk_senders
    by_cases hlt : d < depth
    · rw [if_pos hlt]
      have hn : (depth - d).toNat = (depth - (d + 1)).toNat + 1 := by omega
      rw [hn, vframe.drop]
      exact ih (d + 1)
    · rw [if_neg hlt]
      have hn : (depth - d).toNat = 0 := by omega
      rw [hn, vframe.drop]
      exact ⟨rfl, fun _ => by simp only; omega⟩

theorem vframe.frame_at_eq_drop :
    ∀ (vf : vframe) (n : Nat), vf.frame_at n =
      match vf.drop n with
      | .nullptr => none
      | .frame f _ => some f := by
  intro vf
  induction vf with
  | nullptr => intro n; rfl
  | frame info sender ih =>
    intro n
    cases n with
    | zero => rfl
    | succ n => exact ih n

theorem vframe.drop_modify_at (g : FrameInfo → FrameInfo) :
    ∀ (vf : vframe) (n : Nat), (vf.modify_at n g).drop n =
      match vf.drop n with
      | .nullptr => .nullptr
      | .frame f sender => .frame (g f) sender := by
  intro vf
  induction vf with
  | nullptr => intro n; rfl
  | frame info sender ih =>
    intro n
    cases n with
    | zero => rfl
    | succ n => exact ih n

/-- Both resolvers in one formula: the suspension test, then the frame
`_depth` senders below the top frame, then the tests on that frame. -/
theorem get_java_vframe_eq (target : Target) (req : Request) :
    VM_BaseGetOrSetLocal.get_java_vframe target req =
      if !target.self_or_suspended req then .error JVMTI_ERROR_THREAD_NOT_SUSPENDED
      else
        match target.top.drop req._depth.toNat with
        | .nullptr => .error JVMTI_ERROR_NO_MORE_FRAMES
        | .frame jvf _ =>
          if (req._set && !target.is_mounted) || !jvf.is_java_frame then
            .error JVMTI_ERROR_OPAQUE_FRAME
          else .ok jvf := by
  cases target with
  | thread t =>
    simp only [VM_BaseGetOrSetLocal.get_java_vframe, VM_GetOrSetLocal.get_java_vframe,
      VM_GetOrSetLocal.get_vframe, Target.self_or_suspended, Target.top, Target.is_mounted]
    have hw := (walk_senders_eq_drop req._depth t.last_java_vframe 0).1
    simp only [sub_zero] at hw
    cases h1 : req._self <;> cases h2 : t.is_suspended <;>
      cases h3 : t.is_carrier_thread_suspended <;> cases h4 : t.has_last_Java_frame <;>
      simp [hw, vframe.drop]
  | vthread v =>
    simp only [VM_BaseGetOrSetLocal.get_java_vframe,
      VM_VirtualThreadGetOrSetLocal.get_java_vframe, Target.self_or_suspended, Target.top,
      Target.is_mounted]
    obtain ⟨hw1, hw2⟩ := walk_senders_eq_drop req._depth v.vthread_jvf 0
    simp only [sub_zero] at hw1 hw2
    cases hwalk : walk_senders req._depth v.vthread_jvf 0 with
    | mk vf d =>
      rw [hwalk] at hw1 hw2
      simp only at hw1 hw2
      rw [← hw1] at hw2 ⊢
      cases vf with
      | nullptr => rfl
      | frame jvf sender =>
        have hd : ¬ d < req._depth := by
          have := hw2 (by intro h; cases h)
          omega
        simp only [hd, if_false]

theorem Target.top_modify_at (target : Target) (n : Nat) (g : FrameInfo → FrameInfo) :
    (target.modify_at n g).top = target.top.modify_at n g := by
  cases target with
  | thread t =>
    simp only [Target.modify_at, Target.top]
    split <;> rfl
  | vthread v => rfl

/-- A get request resolves to the same frame as a request that differs from it
in `_set` only. -/
theorem get_java_vframe_of_set (target : Target) (req : Request) (jvf : FrameInfo)
    (hres : VM_BaseGetOrSetLocal.get_java_vframe target req = .ok jvf) :
    VM_BaseGetOrSetLocal.get_java_vframe target { req with _set := false } = .ok jvf := by
  rw [get_java_vframe_eq] at hres ⊢
  have hs : target.self_or_suspended { req with _set := false }
      = target.self_or_suspended req := by
    cases target <;> rfl
  rw [hs]
  simp only
  split at hres
  · cases hres
  · rename_i hsus
    rw [if_neg hsus]
    split at hres
    · cases hres
    · rename_i f sender hdrop
      split at hres
      · cases hres
      · rename_i hcond
        cases hres
        simp only [Bool.or_eq_true, not_or] at hcond
        simp [hcond.2]

/-- After the frame addressed by a get request is replaced by its image under a
function that keeps it a Java frame, the same request resolves to the image. -/
theorem get_java_vframe_modify_at (target : Target) (req : Request) (jvf : FrameInfo)
    (g : FrameInfo → FrameInfo) (hget : req._set = false)
    (hg : ∀ f, (g f).is_java_frame = f.is_java_frame)
    (hres : VM_BaseGetOrSetLocal.get_java_vframe target req = .ok jvf) :
    VM_BaseGetOrSetLocal.get_java_vframe (target.modify_at req._depth.toNat g) req
      = .ok (g jvf) := by
  rw [get_java_vframe_eq] at hres ⊢
  have hs : (target.modify_at req._depth.toNat g).self_or_suspended req
      = target.self_or_suspended req := by
    cases target <;> rfl
  rw [hs, Target.top_modify_at, vframe.drop_modify_at]
  split at hres
  · cases hres
  · rename_i hsus
    rw [if_neg hsus]
    split at hres
    · cases hres
    · rename_i f sender hdrop
      split at hres
      · cases hres
      · rename_i hcond
        cases hres
        simp only [Bool.or_eq_true, not_or] at hcond
        simp [hget, hg, hcond.2]

theorem StackValueCollection.store_eq_some (locals : StackValueCollection) (slot v : Int)
    (sv : StackValue) (h : StackValueCollection.at locals slot = some sv) :
    StackValueCollection.store locals slot v
      = some (locals.set slot.toNat { sv with value := v }) := by
  unfold StackValueCollection.store
  rw [h]

theorem StackValueCollection.store_eq_none (locals : StackValueCollection) (slot v : Int)
    (h : StackValueCollection.at locals slot = none) :
    StackValueCollection.store locals slot v = none := by
  unfold StackValueCollection.store
  rw [h]

/-- After a store the slot written holds the payload, with its type tag kept. -/
theorem StackValueCollection.at_set_same (locals : StackValueCollection) (slot v : Int)
    (sv : StackValue) (h : StackValueCollection.at locals slot = some sv) :
    StackValueCollection.at (locals.set slot.toNat { sv with value := v }) slot
      = some { sv with value := v } := by
  unfold StackValueCollection.at at h ⊢
  split at h
  · cases h
  · rename_i hneg
    rw [if_neg hneg]
    have hlt : slot.toNat < locals.length := by
      by_contra hge
      rw [List.getElem?_eq_none (by omega)] at h
      cases h
    rw [List.getElem?_set_self hlt]

/-- A store changes no type tag. -/
theorem StackValueCollection.at_set_type (locals : StackValueCollection) (slot v : Int)
    (sv : StackValue) (h : StackValueCollection.at locals slot = some sv) (j : Int) :
    (StackValueCollection.at (locals.set slot.toNat { sv with value := v }) j).map
        (fun x => x.type)
      = (StackValueCollection.at locals j).map (fun x => x.type) := by
  unfold StackValueCollection.at at h ⊢
  split at h
  · cases h
  · rename_i hneg
    by_cases hj : j < 0
    · simp [hj]
    · simp only [hj, if_false]
      by_cases heq : slot.toNat = j.toNat
      · have hlt : slot.toNat < locals.length := by
          by_contra hge
          rw [List.getElem?_eq_none (by omega)] at h
          cases h
        rw [← heq, List.getElem?_set_self hlt, h]
        rfl
      · rw [List.getElem?_set_ne heq]

/-- The slot in which the payload of a kind is kept: `index + 1` for the two
2-slot kinds, `index` for the others. -/
theorem StackValueCollection.update_deferred_value_eq (locals : StackValueCollection)
    (type : BasicType) (index : Int) (v : jvalue) (sv : StackValue)
    (hkind : type.is_local_kind = true)
    (hat : StackValueCollection.at locals
      (if type = .T_LONG ∨ type = .T_DOUBLE then index + 1 else index) = some sv) :
    StackValueCollection.update_deferred_value locals type index v
      = locals.set (if type = .T_LONG ∨ type = .T_DOUBLE then index + 1 else index).toNat
          { sv with value := v } := by
  cases type <;> simp only [BasicType.is_local_kind, Bool.false_eq_true] at hkind <;>
    simp only [reduceCtorEq, or_false, false_or, or_self, or_true, true_or, if_true, if_false]
      at hat ⊢ <;>
    simp only [StackValueCollection.update_deferred_value, StackValueCollection.set_int_at,
      StackValueCollection.set_long_at,
      StackValueCollection.store_eq_some locals _ v sv hat, Option.getD_some]

theorem VM_BaseGetOrSetLocal.check_slot_type_no_lvt_congr (req req2 : Request)
    (f f2 : FrameInfo) (hi : req2._index = req._index) (hty : req2._type = req._type)
    (hm : f2.method = f.method)
    (ht : ∀ j, (StackValueCollection.at f2.locals j).map (fun x => x.type)
      = (StackValueCollection.at f.locals j).map (fun x => x.type)) :
    VM_BaseGetOrSetLocal.check_slot_type_no_lvt req2 f2
      = VM_BaseGetOrSetLocal.check_slot_type_no_lvt req f := by
  have e1 := ht req._index
  have e2 := ht (jint_add req._index 1)
  unfold VM_BaseGetOrSetLocal.check_slot_type_no_lvt VM_BaseGetOrSetLocal.extra_slot
  simp only [hm, hi, hty]
  cases h1 : StackValueCollection.at f.locals req._index <;>
    cases h2 : StackValueCollection.at f2.locals req._index <;>
    cases h3 : StackValueCollection.at f.locals (jint_add req._index 1) <;>
    cases h4 : StackValueCollection.at f2.locals (jint_add req._index 1) <;>
    simp_all

/-- A generic request that passed `check_slot_type_no_lvt` with an index in the
`jint` range addresses slots that the locals have. -/
theorem VM_BaseGetOrSetLocal.check_slot_type_no_lvt_slots (req : Request) (f : FrameInfo)
    (hhi : req._index ≤ 2147483647)
    (hpass : VM_BaseGetOrSetLocal.check_slot_type_no_lvt req f = .pass) :
    ∃ sv, StackValueCollection.at f.locals
      (if req._type = .T_LONG ∨ req._type = .T_DOUBLE then req._index + 1 else req._index)
      = some sv := by
  unfold VM_BaseGetOrSetLocal.check_slot_type_no_lvt at hpass
  simp only at hpass
  split at hpass
  · cases hpass
  · rename_i hb
    simp only [Bool.or_eq_true, decide_eq_true_eq, not_or, not_lt] at hb
    split at hpass
    · cases hpass
    · rename_i sv hsv
      split at hpass
      · cases hpass
      · by_cases hx : req._type = .T_LONG ∨ req._type = .T_DOUBLE
        · have hx1 : VM_BaseGetOrSetLocal.extra_slot req = 1 := by
            unfold VM_BaseGetOrSetLocal.extra_slot
            rcases hx with h | h <;> simp [h]
          rw [if_pos hx]
          rw [hx1] at hpass
          simp only [bne_iff_ne, ne_eq, one_ne_zero, not_false_eq_true, if_true] at hpass
          split at hpass
          · cases hpass
          · rename_i sv2 hsv2
            have hnn : ¬ jint_add req._index 1 < 0 := by
              intro hneg
              unfold StackValueCollection.at at hsv2
              rw [if_pos hneg] at hsv2
              cases hsv2
            have hj : jint_add req._index 1 = req._index + 1 := by
              unfold jint_add at hnn ⊢
              omega
            rw [← hj]
            exact ⟨sv2, hsv2⟩
        · rw [if_neg hx]
          exact ⟨sv, hsv⟩

/-- A set that succeeds has passed the suspend-boundary test, the checks and the
liveness test, and its outcome is the one of the set branch. -/
theorem VM_BaseGetOrSetLocal.doit_set_success (rt : Runtime) (target : Target)
    (req : Request) (jvf : FrameInfo) (o : Outcome) (hset : req._set = true)
    (hres : VM_BaseGetOrSetLocal.get_java_vframe target req = .ok jvf)
    (ho : VM_BaseGetOrSetLocal.doit rt target req = some o)
    (hok : o._result = JVMTI_ERROR_NONE) :
    VM_BaseGetOrSetLocal.doit_checks rt req jvf = .pass ∧
    jvf.method.is_dead jvf.bci req._index = false ∧
    VM_BaseGetOrSetLocal.doit_set rt target req jvf = some o := by
  rw [VM_BaseGetOrSetLocal.doit_of_resolved rt target req jvf hres] at ho
  split at ho
  · cases ho; cases hok
  · cases hc : VM_BaseGetOrSetLocal.doit_checks rt req jvf with
    | fail e =>
      rw [hc] at ho
      cases ho
      exact absurd hok (VM_BaseGetOrSetLocal.doit_checks_fail_ne_none rt req jvf e hc)
    | fault => rw [hc] at ho; cases ho
    | pass =>
      rw [hc] at ho
      simp only [hset, if_true] at ho
      split at ho
      · cases ho; cases hok
      · rename_i hdead
        exact ⟨rfl, by simpa using hdead, ho⟩

/-- When a generic request passed the checks of `doit` on a frame, a get request
for the same slot and kind passes them on every frame with the same method, the
same offset and locals of the same types. -/
theorem VM_BaseGetOrSetLocal.doit_checks_get_after (rt : Runtime) (req req2 : Request)
    (f f2 : FrameInfo) (hr : req.getting_receiver = false)
    (hi : req2._index = req._index) (hty : req2._type = req._type)
    (hget : req2._set = false) (hr2 : req2.getting_receiver = false)
    (hm : f2.method = f.method) (hb : f2.bci = f.bci)
    (ht : ∀ j, (StackValueCollection.at f2.locals j).map (fun x => x.type)
      = (StackValueCollection.at f.locals j).map (fun x => x.type))
    (hpass : VM_BaseGetOrSetLocal.doit_checks rt req f = .pass) :
    VM_BaseGetOrSetLocal.doit_checks rt req2 f2 = .pass := by
  obtain ⟨hn, hno, hl⟩ := VM_BaseGetOrSetLocal.doit_checks_generic_pass rt req f hr hpass
  have hno2 := VM_BaseGetOrSetLocal.check_slot_type_no_lvt_congr req req2 f f2 hi hty hm ht
  rw [hno] at hno2
  unfold VM_BaseGetOrSetLocal.doit_checks
  simp only [hr2, hm, hn, hno2, Bool.false_eq_true, if_false]
  cases hlvt : f.method.has_localvariable_table
  · simp
  · simp only [if_true]
    have hp := hl hlvt
    have hlvt2 : f2.method.has_localvariable_table = true := by rw [hm]; exact hlvt
    cases hfind : f.method.localvariable_table.find?
        (fun e => e.covers req._index f.bci) with
    | none =>
      rw [VM_BaseGetOrSetLocal.check_slot_type_lvt_not_found rt req f hlvt hfind] at hp
      cases hp
    | some entry =>
      have hfind2 : f2.method.localvariable_table.find?
          (fun e => e.covers req2._index f2.bci) = some entry := by
        rw [hm, hb, hi]
        exact hfind
      rw [VM_BaseGetOrSetLocal.check_slot_type_lvt_found rt req f entry hlvt hfind] at hp
      rw [VM_BaseGetOrSetLocal.check_slot_type_lvt_found rt req2 f2 entry hlvt2 hfind2, hm, hty]
      split at hp
      · cases hp
      · rename_i hcond
        rw [if_neg hcond]
        simp [hget]

/-- The changes made by a set that succeeds: a deferred update after a scheduled
deoptimization for a frame that can be deoptimized, a direct store otherwise. -/
theorem VM_BaseGetOrSetLocal.doit_set_success_effects (rt : Runtime) (target : Target)
    (req : Request) (jvf jvf0 : FrameInfo) (o : Outcome) (sv : StackValue)
    (hres : VM_BaseGetOrSetLocal.get_java_vframe target req = .ok jvf0)
    (hkind : req._type.is_local_kind = true)
    (hat : StackValueCollection.at jvf.locals
      (if req._type = .T_LONG ∨ req._type = .T_DOUBLE then req._index + 1 else req._index)
      = some sv)
    (h : VM_BaseGetOrSetLocal.doit_set rt target req jvf = some o)
    (hok : o._result = JVMTI_ERROR_NONE) :
    (can_be_deoptimized jvf = true →
      o.effects = [.deoptimize_frame jvf.id, .update_local req._type req._index
        (if req._type = .T_OBJECT then rt.resolve_external_guard req._value
          else req._value)]) ∧
    (can_be_deoptimized jvf = false →
      o.effects = [.set_locals (StackValueCollection.update_deferred_value jvf.locals
        req._type req._index
        (if req._type = .T_OBJECT then rt.resolve_external_guard req._value
          else req._value))]) := by
  unfold VM_BaseGetOrSetLocal.doit_set at h
  rw [hres] at h
  simp only at h
  split at h
  · cases h; cases hok
  · cases hc : can_be_deoptimized jvf
    · simp only [hc, Bool.false_eq_true, if_false] at h
      refine ⟨fun hx => (by cases hx), fun _ => ?_⟩
      have hu := StackValueCollection.update_deferred_value_eq jvf.locals req._type
        req._index (if req._type = .T_OBJECT then rt.resolve_external_guard req._value
          else req._value) sv hkind hat
      rw [hu]
      cases hty : req._type <;> rw [hty] at hkind hat h <;>
        simp only [BasicType.is_local_kind, Bool.false_eq_true] at hkind <;>
        simp only [reduceCtorEq, or_false, false_or, or_self, or_true, true_or, if_true,
          if_false] at hat ⊢ <;>
        simp only [StackValueCollection.set_int_at, StackValueCollection.set_long_at,
          StackValueCollection.store_eq_some jvf.locals _ _ sv hat] at h <;>
        (cases h; rfl)
    · simp only [hc, if_true] at h
      refine ⟨fun _ => ?_, fun hx => (by cases hx)⟩
      split at h
      · cases h; cases hok
      · cases h
        by_cases hty : req._type = .T_OBJECT <;> simp [hty]

theorem Effect.apply_method (discarded : Bool) (e : Effect) (f : FrameInfo) :
    (e.apply discarded f).method = f.method ∧ (e.apply discarded f).bci = f.bci ∧
    (e.apply discarded f).is_java_frame = f.is_java_frame := by
  cases e with
  | set_locals l => exact ⟨rfl, rfl, rfl⟩
  | update_local t i v => exact ⟨rfl, rfl, rfl⟩
  | deoptimize_frame id =>
    simp only [Effect.apply]
    split <;> exact ⟨rfl, rfl, rfl⟩

theorem Effect.apply_deoptimize_locals (discarded : Bool) (id : Nat) (f : FrameInfo) :
    ((Effect.deoptimize_frame id).apply discarded f).locals = f.locals := by
  simp only [Effect.apply]
  split <;> rfl

/-- A get request with the depth and the self flag of a request that resolved
resolves to the same frame. -/
theorem get_java_vframe_of_get (target : Target) (req get : Request) (jvf : FrameInfo)
    (hd : get._depth = req._depth) (hself : get._self = req._self)
    (hget : get._set = false)
    (hres : VM_BaseGetOrSetLocal.get_java_vframe target req = .ok jvf) :
    VM_BaseGetOrSetLocal.get_java_vframe target get = .ok jvf := by
  have h := get_java_vframe_of_set target req jvf hres
  rw [get_java_vframe_eq] at h ⊢
  have hs : target.self_or_suspended get
      = target.self_or_suspended { req with _set := false } := by
    cases target <;> simp [Target.self_or_suspended, hself]
  rw [hs, hd, hget]
  exact h

/-- After the changes of an operation, a get request at the same depth resolves to
the frame that the changes made of the frame addressed before. -/
theorem get_java_vframe_after (discarded : Bool) (req get : Request)
    (hd : get._depth = req._depth) (hget : get._set = false) :
    ∀ (effects : List Effect) (target : Target) (jvf : FrameInfo),
      VM_BaseGetOrSetLocal.get_java_vframe target get = .ok jvf →
      VM_BaseGetOrSetLocal.get_java_vframe (target.after discarded req effects) get
        = .ok (effects.foldl (fun f e => e.apply discarded f) jvf) := by
  intro effects
  induction effects with
  | nil => intro target jvf h; exact h
  | cons e rest ih =>
    intro target jvf h
    have h1 := get_java_vframe_modify_at target get jvf (e.apply discarded) hget
      (fun f => (Effect.apply_method discarded e f).2.2) h
    rw [hd] at h1
    exact ih (target.modify_at req._depth.toNat (e.apply discarded)) (e.apply discarded jvf) h1

/-- What the get branch of `doit` reads for each of the five kinds. -/
theorem VM_BaseGetOrSetLocal.doit_get_reads (rt : Runtime) (get : Request) (f : FrameInfo)
    (sv : StackValue) (hn : f.method.is_native = false)
    (hkind : get._type.is_local_kind = true)
    (hat : StackValueCollection.at f.locals
      (if get._type = .T_LONG ∨ get._type = .T_DOUBLE then get._index + 1 else get._index)
      = some sv) :
    VM_BaseGetOrSetLocal.doit_get rt get f
      = some ⟨JVMTI_ERROR_NONE,
          if get._type = .T_OBJECT then rt.make_local sv.value else sv.value, []⟩ := by
  unfold VM_BaseGetOrSetLocal.doit_get
  simp only [hn, Bool.false_and, Bool.false_eq_true, if_false]
  cases hty : get._type <;> rw [hty] at hkind hat <;>
    simp only [BasicType.is_local_kind, Bool.false_eq_true] at hkind <;>
    simp only [reduceCtorEq, or_false, false_or, or_self, or_true, true_or, if_true,
      if_false] at hat ⊢ <;>
    simp [StackValueCollection.int_at, StackValueCollection.long_at, hat]

/-- A get request that resolves to a frame with the method and the offset of a
frame on which the set passed its checks, and with the locals of that frame after
the store of the set, reads the stored payload back. -/
theorem VM_BaseGetOrSetLocal.doit_get_after_store (rt : Runtime) (target2 : Target)
    (req get : Request) (jvf f2 : FrameInfo) (sv : StackValue) (v : jvalue)
    (hrecv : req.getting_receiver = false) (hkind : req._type.is_local_kind = true)
    (hi : get._index = req._index) (hty : get._type = req._type)
    (hget : get._set = false) (hrecv2 : get.getting_receiver = false)
    (hchecks : VM_BaseGetOrSetLocal.doit_checks rt req jvf = .pass)
    (hdead : jvf.method.is_dead jvf.bci req._index = false)
    (hat : StackValueCollection.at jvf.locals
      (if req._type = .T_LONG ∨ req._type = .T_DOUBLE then req._index + 1 else req._index)
      = some sv)
    (hm : f2.method = jvf.method) (hb : f2.bci = jvf.bci)
    (hl : f2.locals = StackValueCollection.update_deferred_value jvf.locals req._type
      req._index v)
    (hres2 : VM_BaseGetOrSetLocal.get_java_vframe target2 get = .ok f2) :
    VM_BaseGetOrSetLocal.doit rt target2 get
      = some ⟨JVMTI_ERROR_NONE, if req._type = .T_OBJECT then rt.make_local v else v, []⟩ := by
  have hl2 : f2.locals = jvf.locals.set
      (if req._type = .T_LONG ∨ req._type = .T_DOUBLE then req._index + 1
        else req._index).toNat { sv with value := v } := by
    rw [hl]
    exact StackValueCollection.update_deferred_value_eq jvf.locals req._type req._index v sv
      hkind hat
  have ht : ∀ j, (StackValueCollection.at f2.locals j).map (fun x => x.type)
      = (StackValueCollection.at jvf.locals j).map (fun x => x.type) := by
    intro j
    rw [hl2]
    exact StackValueCollection.at_set_type jvf.locals _ v sv hat j
  have hchecks2 := VM_BaseGetOrSetLocal.doit_checks_get_after rt req get jvf f2 hrecv hi hty
    hget hrecv2 hm hb ht hchecks
  have hn := (VM_BaseGetOrSetLocal.doit_checks_generic_pass rt req jvf hrecv hchecks).1
  have hat2 : StackValueCollection.at f2.locals
      (if get._type = .T_LONG ∨ get._type = .T_DOUBLE then get._index + 1 else get._index)
      = some { sv with value := v } := by
    rw [hl2, hty, hi]
    exact StackValueCollection.at_set_same jvf.locals _ v sv hat
  have hread := VM_BaseGetOrSetLocal.doit_get_reads rt get f2
    { sv with value := v } (by rw [hm]; exact hn) (by rw [hty]; exact hkind) hat2
  rw [VM_BaseGetOrSetLocal.doit_of_resolved rt target2 get f2 hres2, hchecks2]
  simp only [hget, Bool.false_and, Bool.false_eq_true, if_false, hm, hb, hi, hdead]
  rw [hread, hty]

/-- C20. Take a generic set request of one of the five kinds, with a slot index
in the `jint` range, that resolved to the frame `jvf` and succeeded.  If `jvf`
cannot be deoptimized the value was stored directly into its locals
(`set_locals`); if it can, the set scheduled the deoptimization of exactly `jvf`
and recorded the deferred update (kind, slot, value).  In both cases every get
request of the same depth, slot, kind and self flag, whatever value its
`_value` holds when it is made, run on the target as the set left it — whether
or not the scheduled discard of the frame has run by then — succeeds and
returns the value written: the same payload for the primitive kinds, and for a
reference a handle to the object that the written handle refers to.  This holds
in particular for the request that the constructor of a getter makes, whose
`_value` is `_DEFAULT_VALUE`. -/
theorem set_then_get_round_trip (rt : Runtime) (target : Target) (req : Request)
    (jvf : FrameInfo) (o : Outcome)
    (hset : req._set = true) (hrecv : req.getting_receiver = false)
    (hkind : req._type.is_local_kind = true) (hjint : req._index ≤ 2147483647)
    (hres : VM_BaseGetOrSetLocal.get_java_vframe target req = .ok jvf)
    (ho : VM_BaseGetOrSetLocal.doit rt target req = some o)
    (hok : o._result = JVMTI_ERROR_NONE) :
    (can_be_deoptimized jvf = false →
      o.effects = [.set_locals (StackValueCollection.update_deferred_value jvf.locals
        req._type req._index
        (if req._type = .T_OBJECT then rt.resolve_external_guard req._value
          else req._value))]) ∧
    (can_be_deoptimized jvf = true →
      o.effects = [.deoptimize_frame jvf.id, .update_local req._type req._index
        (if req._type = .T_OBJECT then rt.resolve_external_guard req._value
          else req._value)]) ∧
    (∀ (discarded : Bool) (get : Request),
      get._set = false → get.getting_receiver = false → get._depth = req._depth →
      get._index = req._index → get._type = req._type → get._self = req._self →
      VM_BaseGetOrSetLocal.doit rt (target.after discarded req o.effects) get
        = some ⟨JVMTI_ERROR_NONE,
            if req._type = .T_OBJECT then
              rt.make_local (rt.resolve_external_guard req._value)
            else req._value, []⟩) ∧
    (∀ discarded : Bool,
      VM_BaseGetOrSetLocal.doit rt (target.after discarded req o.effects)
          (VM_BaseGetOrSetLocal.getter req._depth req._index req._type req._self)
        = some ⟨JVMTI_ERROR_NONE,
            if req._type = .T_OBJECT then
              rt.make_local (rt.resolve_external_guard req._value)
            else req._value, []⟩) ∧
    ((∀ obj, rt.resolve_external_guard (rt.make_local obj) = obj) →
      rt.resolve_external_guard (rt.make_local (rt.resolve_external_guard req._value))
        = rt.resolve_external_guard req._value) := by
  obtain ⟨hchecks, hdead, hsetres⟩ :=
    VM_BaseGetOrSetLocal.doit_set_success rt target req jvf o hset hres ho hok
  obtain ⟨-, hno, -⟩ := VM_BaseGetOrSetLocal.doit_checks_generic_pass rt req jvf hrecv hchecks
  obtain ⟨sv, hat⟩ := VM_BaseGetOrSetLocal.check_slot_type_no_lvt_slots req jvf hjint hno
  obtain ⟨heff1, heff2⟩ := VM_BaseGetOrSetLocal.doit_set_success_effects rt target req jvf
    jvf o sv hres hkind hat hsetres hok
  have hgen : ∀ (discarded : Bool) (get : Request),
      get._set = false → get.getting_receiver = false → get._depth = req._depth →
      get._index = req._index → get._type = req._type → get._self = req._self →
      VM_BaseGetOrSetLocal.doit rt (target.after discarded req o.effects) get
        = some ⟨JVMTI_ERROR_NONE,
            if req._type = .T_OBJECT then
              rt.make_local (rt.resolve_external_guard req._value)
            else req._value, []⟩ := by
    intro discarded get hget hrecv2 hd hi hty hself
    have hresget := get_java_vframe_of_get target req get jvf hd hself hget hres
    have hafter := get_java_vframe_after discarded req get hd hget o.effects target jvf
      hresget
    have hfinal : VM_BaseGetOrSetLocal.doit rt (target.after discarded req o.effects) get
        = some ⟨JVMTI_ERROR_NONE,
            if req._type = .T_OBJECT then
              rt.make_local (if req._type = .T_OBJECT then
                rt.resolve_external_guard req._value else req._value)
            else (if req._type = .T_OBJECT then
                rt.resolve_external_guard req._value else req._value), []⟩ := by
      apply VM_BaseGetOrSetLocal.doit_get_after_store rt
        (target.after discarded req o.effects) req get jvf
        (o.effects.foldl (fun f e => e.apply discarded f) jvf) sv _ hrecv hkind hi hty hget
        hrecv2 hchecks hdead hat ?_ ?_ ?_ hafter
      · cases hc : can_be_deoptimized jvf
        · rw [heff2 hc]; rfl
        · rw [heff1 hc]
          simp only [List.foldl]
          rw [(Effect.apply_method discarded _ _).1, (Effect.apply_method discarded _ _).1]
      · cases hc : can_be_deoptimized jvf
        · rw [heff2 hc]; rfl
        · rw [heff1 hc]
          simp only [List.foldl]
          rw [(Effect.apply_method discarded _ _).2.1,
            (Effect.apply_method discarded _ _).2.1]
      · cases hc : can_be_deoptimized jvf
        · rw [heff2 hc]; rfl
        · rw [heff1 hc]
          simp only [List.foldl]
          show StackValueCollection.update_deferred_value
            ((Effect.deoptimize_frame jvf.id).apply discarded jvf).locals _ _ _ = _
          rw [Effect.apply_deoptimize_locals]
    rw [hfinal]
    by_cases hty2 : req._type = .T_OBJECT <;> simp [hty2]
  exact ⟨heff2, heff1, hgen,
    fun discarded => hgen discarded _ rfl rfl rfl rfl rfl rfl, fun hlaw => hlaw _⟩

/-- C20, witness. Writing 5 into local 1 of a compiled frame schedules its
deoptimization and records the deferred update; a getter issued afterwards, once
the frame has been discarded and rebuilt, returns 5, not the 0 that its `_value`
held, and not the 22 that the slot held before.  Writing the `long` 5 into local
0 of an interpreted frame stores it directly, and the getter returns 5. -/
theorem set_then_get_round_trip_witness :
    VM_BaseGetOrSetLocal.doit runtime_example (.thread thread_compiled)
      (request_top true 1 .T_INT)
      = some ⟨JVMTI_ERROR_NONE, 5, [.deoptimize_frame 7, .update_local .T_INT 1 5]⟩ ∧
    (VM_BaseGetOrSetLocal.getter 0 1 .T_INT true)._value = 0 ∧
    VM_BaseGetOrSetLocal.doit runtime_example (.thread thread_compiled)
      (VM_BaseGetOrSetLocal.getter 0 1 .T_INT true) = some ⟨JVMTI_ERROR_NONE, 22, []⟩ ∧
    VM_BaseGetOrSetLocal.doit runtime_example
      ((Target.thread thread_compiled).after true (request_top true 1 .T_INT)
        [.deoptimize_frame 7, .update_local .T_INT 1 5])
      (VM_BaseGetOrSetLocal.getter 0 1 .T_INT true) = some ⟨JVMTI_ERROR_NONE, 5, []⟩ ∧
    VM_BaseGetOrSetLocal.doit runtime_example
      ((Target.thread thread_example).after false (request_top true 0 .T_LONG)
        [.set_locals [⟨.T_INT, 11⟩, ⟨.T_INT, 5⟩]])
      (VM_BaseGetOrSetLocal.getter 0 0 .T_LONG true) = some ⟨JVMTI_ERROR_NONE, 5, []⟩ :=
  ⟨rfl, rfl, by decide,
    (set_then_get_round_trip runtime_example (.thread thread_compiled)
      (request_top true 1 .T_INT) frame_compiled
      ⟨JVMTI_ERROR_NONE, 5, [.deoptimize_frame 7, .update_local .T_INT 1 5]⟩
      rfl rfl rfl (by decide) rfl rfl rfl).2.2.2.1 true,
    (set_then_get_round_trip runtime_example (.thread thread_example)
      (request_top true 0 .T_LONG) (frame_example 1)
      ⟨JVMTI_ERROR_NONE, 5, [.set_locals [⟨.T_INT, 11⟩, ⟨.T_INT, 5⟩]]⟩
      rfl rfl rfl (by decide) rfl rfl rfl).2.2.2.1 false⟩

/-! ## The chain of nodes of the event queue -/


theorem NodeHeap.lt_fresh (heap : NodeHeap) (a : Nat) (h : a ∈ heap.map Prod.fst) :
    a < NodeHeap.fresh heap := by
  unfold NodeHeap.fresh
  induction heap with
  | nil => simp at h
  | cons x rest ih =>
    simp only [List.map_cons, List.mem_cons, List.foldr_cons] at h ⊢
    rcases h with h | h
    · subst h
      omega
    · have := ih h
      omega

theorem NodeHeap.fresh_ne_zero (heap : NodeHeap) : NodeHeap.fresh heap ≠ 0 := by
  unfold NodeHeap.fresh
  omega

theorem NodeHeap.fresh_not_mem (heap : NodeHeap) :
    NodeHeap.fresh heap ∉ heap.map Prod.fst := by
  intro h
  have := NodeHeap.lt_fresh heap _ h
  omega

theorem NodeHeap.at_append_of_not_mem (pre suf : NodeHeap) (p : Nat)
    (h : p ∉ pre.map Prod.fst) : NodeHeap.at (pre ++ suf) p = NodeHeap.at suf p := by
  induction pre with
  | nil => rfl
  | cons x rest ih =>
    obtain ⟨a, n⟩ := x
    simp only [List.map_cons, List.mem_cons, not_or] at h
    have hne : (a == p) = false := by
      simp only [beq_eq_false_iff_ne, ne_eq]
      exact fun e => h.1 e.symm
    simp only [List.cons_append, NodeHeap.at, hne, Bool.false_eq_true, if_false]
    exact ih h.2

theorem NodeHeap.at_append_of_some (heap more : NodeHeap) (p : Nat) (n : QueueNode)
    (h : NodeHeap.at heap p = some n) : NodeHeap.at (heap ++ more) p = some n := by
  induction heap with
  | nil => simp [NodeHeap.at] at h
  | cons x rest ih =>
    obtain ⟨a, m⟩ := x
    simp only [List.cons_append, NodeHeap.at] at h ⊢
    by_cases hap : (a == p) = true
    · simpa [hap] using h
    · simp only [hap, if_false] at h ⊢
      exact ih h

theorem NodeHeap.at_middle (pre rest : NodeHeap) (a : Nat) (n : QueueNode)
    (h : a ∉ pre.map Prod.fst) : NodeHeap.at (pre ++ (a, n) :: rest) a = some n := by
  rw [NodeHeap.at_append_of_not_mem pre _ a h]
  simp [NodeHeap.at]

theorem NodeHeap.linked_zero (heap : NodeHeap) (h : NodeHeap.linked heap 0) : heap = [] := by
  cases heap with
  | nil => rfl
  | cons x rest =>
    obtain ⟨a, n⟩ := x
    simp only [NodeHeap.linked] at h
    exact absurd h.1.symm h.2.1

theorem NodeHeap.linked_nil_iff (heap : NodeHeap) (head : Nat) (h : NodeHeap.linked heap head) :
    head = 0 ↔ heap = [] := by
  constructor
  · intro h0
    subst h0
    exact NodeHeap.linked_zero heap h
  · intro hn
    subst hn
    exact h

theorem NodeHeap.linked_keys_ne_zero (heap : NodeHeap) (head : Nat)
    (h : NodeHeap.linked heap head) : ∀ a ∈ heap.map Prod.fst, a ≠ 0 := by
  induction heap generalizing head with
  | nil => simp
  | cons x rest ih =>
    obtain ⟨a, n⟩ := x
    simp only [NodeHeap.linked] at h
    intro b hb
    simp only [List.map_cons, List.mem_cons] at hb
    rcases hb with hb | hb
    · subst hb
      exact h.2.1
    · exact ih _ h.2.2 b hb

theorem NodeHeap.last_key_ne_zero (heap : NodeHeap) (head : Nat)
    (h : NodeHeap.linked heap head) (hne : heap ≠ []) :
    ((heap.map Prod.fst).getLast?).getD 0 ≠ 0 := by
  have hk := NodeHeap.linked_keys_ne_zero heap head h
  have hne2 : heap.map Prod.fst ≠ [] := by simpa using hne
  rw [List.getLast?_eq_getLast _ hne2]
  simp only [Option.getD_some]
  exact hk _ (List.getLast_mem hne2)

theorem NodeHeap.last_key_mem (heap : NodeHeap) (hne : heap ≠ []) :
    ((heap.map Prod.fst).getLast?).getD 0 ∈ heap.map Prod.fst := by
  have hne2 : heap.map Prod.fst ≠ [] := by simpa using hne
  rw [List.getLast?_eq_getLast _ hne2]
  simp only [Option.getD_some]
  exact List.getLast_mem hne2

theorem NodeHeap.last_key_cons (x : Nat × QueueNode) (rest : NodeHeap) (hne : rest ≠ []) :
    (((x :: rest).map Prod.fst).getLast?).getD 0 = ((rest.map Prod.fst).getLast?).getD 0 := by
  cases rest with
  | nil => exact absurd rfl hne
  | cons y more => simp [List.getLast?_cons_cons]

theorem NodeHeap.set_next_keys (heap : NodeHeap) (p next : Nat) :
    (NodeHeap.set_next heap p next).map Prod.fst = heap.map Prod.fst := by
  unfold NodeHeap.set_next
  induction heap with
  | nil => rfl
  | cons x rest ih =>
    simp only [List.map_cons, List.cons.injEq]
    refine ⟨?_, ih⟩
    by_cases h : (x.1 == p) = true <;> simp [h]

theorem NodeHeap.set_next_events (heap : NodeHeap) (p next : Nat) :
    (NodeHeap.set_next heap p next).map (fun x => x.2._event) =
      heap.map (fun x => x.2._event) := by
  unfold NodeHeap.set_next
  induction heap with
  | nil => rfl
  | cons x rest ih =>
    simp only [List.map_cons, List.cons.injEq]
    refine ⟨?_, ih⟩
    by_cases h : (x.1 == p) = true <;> simp [h]

theorem NodeHeap.set_next_cons_ne (a : Nat) (n : QueueNode) (rest : NodeHeap) (p next : Nat)
    (h : (a == p) = false) :
    NodeHeap.set_next ((a, n) :: rest) p next = (a, n) :: NodeHeap.set_next rest p next := by
  simp only [NodeHeap.set_next, List.map_cons, h, Bool.false_eq_true, if_false]

theorem NodeHeap.set_next_cons_eq (a : Nat) (n : QueueNode) (rest : NodeHeap) (next : Nat) :
    NodeHeap.set_next ((a, n) :: rest) a next =
      (a, { _event := n._event, _next := next }) :: NodeHeap.set_next rest a next := by
  simp [NodeHeap.set_next]

theorem NodeHeap.set_next_of_not_mem (heap : NodeHeap) (p next : Nat)
    (h : p ∉ heap.map Prod.fst) : NodeHeap.set_next heap p next = heap := by
  induction heap with
  | nil => rfl
  | cons x rest ih =>
    obtain ⟨a, n⟩ := x
    simp only [List.map_cons, List.mem_cons, not_or] at h
    have hne : (a == p) = false := by
      simp only [beq_eq_false_iff_ne, ne_eq]
      exact fun e => h.1 e.symm
    rw [NodeHeap.set_next_cons_ne a n rest p next hne, ih h.2]

/-- Linking a new node behind the last node of a chain gives a chain. -/
theorem NodeHeap.linked_set_next_append (event : JvmtiDeferredEvent) (f : Nat) (hf : f ≠ 0)
    (heap : NodeHeap) (head : Nat) (hne : heap ≠ []) (hl : NodeHeap.linked heap head)
    (hnd : (heap.map Prod.fst).Nodup) (hfm : f ∉ heap.map Prod.fst) :
    NodeHeap.linked
      (NodeHeap.set_next (heap ++ [(f, { _event := event, _next := 0 })])
        (((heap.map Prod.fst).getLast?).getD 0) f) head := by
  induction heap generalizing head with
  | nil => exact absurd rfl hne
  | cons x rest ih =>
    obtain ⟨a, n⟩ := x
    simp only [NodeHeap.linked] at hl
    obtain ⟨hh, ha, hrest⟩ := hl
    simp only [List.map_cons, List.nodup_cons] at hnd
    simp only [List.map_cons, List.mem_cons, not_or] at hfm
    by_cases hr : rest = []
    · subst hr
      simp only [NodeHeap.linked] at hrest
      have hfa : (f == a) = false := by
        simp only [beq_eq_false_iff_ne, ne_eq]
        exact hfm.1
      show NodeHeap.linked (NodeHeap.set_next ((a, n) :: [(f, _)]) a f) head
      rw [NodeHeap.set_next_cons_eq, NodeHeap.set_next_cons_ne _ _ _ _ _ hfa]
      simp only [NodeHeap.linked]
      exact ⟨hh, ha, trivial, hf, trivial⟩
    · rw [NodeHeap.last_key_cons _ _ hr]
      have hmem := NodeHeap.last_key_mem rest hr
      have hne2 : (a == ((rest.map Prod.fst).getLast?).getD 0) = false := by
        simp only [beq_eq_false_iff_ne, ne_eq]
        intro e
        exact hnd.1 (e ▸ hmem)
      have := ih n._next hr hrest hnd.2 hfm.2
      rw [List.cons_append, NodeHeap.set_next_cons_ne _ _ _ _ _ hne2]
      simp only [NodeHeap.linked]
      exact ⟨hh, ha, this⟩

/-- The last node of a chain has no successor. -/
theorem NodeHeap.linked_at_last (heap : NodeHeap) (head : Nat) (hne : heap ≠ [])
    (hl : NodeHeap.linked heap head) (hnd : (heap.map Prod.fst).Nodup) :
    ∃ n, NodeHeap.at heap (((heap.map Prod.fst).getLast?).getD 0) = some n ∧ n._next = 0 := by
  induction heap generalizing head with
  | nil => exact absurd rfl hne
  | cons x rest ih =>
    obtain ⟨a, n⟩ := x
    simp only [NodeHeap.linked] at hl
    obtain ⟨_, _, hrest⟩ := hl
    simp only [List.map_cons, List.nodup_cons] at hnd
    by_cases hr : rest = []
    · subst hr
      simp only [NodeHeap.linked] at hrest
      exact ⟨n, by simp [NodeHeap.at], hrest⟩
    · rw [NodeHeap.last_key_cons _ _ hr]
      have hmem := NodeHeap.last_key_mem rest hr
      have hne2 : (a == ((rest.map Prod.fst).getLast?).getD 0) = false := by
        simp only [beq_eq_false_iff_ne, ne_eq]
        intro e
        exact hnd.1 (e ▸ hmem)
      obtain ⟨m, hm, hm0⟩ := ih n._next hr hrest hnd.2
      refine ⟨m, ?_, hm0⟩
      simp only [NodeHeap.at, hne2, Bool.false_eq_true, if_false]
      exact hm

theorem NodeHeap.delete_head (a : Nat) (n : QueueNode) (rest : NodeHeap)
    (h : a ∉ rest.map Prod.fst) : NodeHeap.delete ((a, n) :: rest) a = rest := by
  unfold NodeHeap.delete
  rw [List.filter_cons_of_neg (by simp)]
  apply List.filter_eq_self.mpr
  intro x hx
  simp only [bne_iff_ne, ne_eq]
  intro e
  exact h (List.mem_map.mpr ⟨x, hx, e⟩)

theorem JvmtiDeferredEventQueue.well_formed_empty :
    JvmtiDeferredEventQueue.empty.well_formed := by
  simp [JvmtiDeferredEventQueue.well_formed, JvmtiDeferredEventQueue.empty, NodeHeap.linked]

theorem JvmtiDeferredEventQueue.head_eq_zero_iff (q : JvmtiDeferredEventQueue)
    (h : q.well_formed) : q._queue_head = 0 ↔ q.nodes = [] :=
  NodeHeap.linked_nil_iff _ _ h.1

theorem JvmtiDeferredEventQueue.tail_eq_zero_iff (q : JvmtiDeferredEventQueue)
    (h : q.well_formed) : q._queue_tail = 0 ↔ q.nodes = [] := by
  constructor
  · intro h0
    by_contra hne
    exact NodeHeap.last_key_ne_zero _ _ h.1 hne (h.2.2 ▸ h0)
  · intro hn
    rw [h.2.2, hn]
    rfl

/-- On a well-formed queue `enqueue` follows no dangling pointer, fails no
assertion, keeps the queue well formed and puts the new node last. -/
theorem JvmtiDeferredEventQueue.enqueue_well_formed (q : JvmtiDeferredEventQueue)
    (event : JvmtiDeferredEvent) (h : q.well_formed) :
    ∃ q1, q.enqueue event = some (q1, []) ∧ q1.well_formed ∧
      q1.nodes.map (fun x => x.2._event) = q.nodes.map (fun x => x.2._event) ++ [event] := by
  have hf0 := NodeHeap.fresh_ne_zero q.nodes
  have hfm := NodeHeap.fresh_not_mem q.nodes
  by_cases ht : q._queue_tail = 0
  · have hn := (q.tail_eq_zero_iff h).mp ht
    refine ⟨{ nodes := q.nodes ++ [(NodeHeap.fresh q.nodes, { _event := event, _next := 0 })],
              _queue_head := NodeHeap.fresh q.nodes, _queue_tail := NodeHeap.fresh q.nodes },
      ?_, ?_, ?_⟩
    · simp only [JvmtiDeferredEventQueue.enqueue, ht, beq_self_eq_true, if_true,
        JvmtiDeferredEventQueue.check_markers]
    · simp [JvmtiDeferredEventQueue.well_formed, hn, NodeHeap.linked, NodeHeap.fresh_ne_zero]
    · simp [hn]
  · have hne : q.nodes ≠ [] := fun e => ht ((q.tail_eq_zero_iff h).mpr e)
    obtain ⟨n, hn, hn0⟩ := NodeHeap.linked_at_last _ _ hne h.1 h.2.1
    rw [← h.2.2] at hn
    have hh : q._queue_head ≠ 0 := fun e => hne ((q.head_eq_zero_iff h).mp e)
    have hat := NodeHeap.at_append_of_some q.nodes
      [(NodeHeap.fresh q.nodes, { _event := event, _next := 0 })] _ n hn
    have htb : (q._queue_tail == 0) = false := by simpa using ht
    have hhb : (q._queue_head == 0) = false := by simpa using hh
    have hfb : (NodeHeap.fresh q.nodes == 0) = false := by simpa using hf0
    refine ⟨{ nodes := NodeHeap.set_next
                (q.nodes ++ [(NodeHeap.fresh q.nodes, { _event := event, _next := 0 })])
                q._queue_tail (NodeHeap.fresh q.nodes),
              _queue_head := q._queue_head, _queue_tail := NodeHeap.fresh q.nodes },
      ?_, ?_, ?_⟩
    · simp only [JvmtiDeferredEventQueue.enqueue, htb, Bool.false_eq_true, if_false, hat, hn0,
        beq_self_eq_true, if_true, JvmtiDeferredEventQueue.check_markers, hhb, hfb,
        List.append_nil]
    · refine ⟨?_, ?_, ?_⟩
      · have := NodeHeap.linked_set_next_append event _ hf0 q.nodes q._queue_head hne h.1 h.2.1 hfm
        rw [← h.2.2] at this
        exact this
      · simp only [NodeHeap.set_next_keys, List.map_append, List.map_cons, List.map_nil]
        rw [List.nodup_append]
        refine ⟨h.2.1, by simp, ?_⟩
        intro a ha hb
        simp only [List.mem_singleton] at hb
        subst hb
        exact hfm ha
      · simp [NodeHeap.set_next_keys]
    · simp [NodeHeap.set_next_events]

/-- On an empty queue `dequeue` fails its first assertion, returns a default
event and leaves the queue as it is. -/
theorem JvmtiDeferredEventQueue.dequeue_empty (q : JvmtiDeferredEventQueue)
    (h : q._queue_head = 0) :
    q.dequeue = some (.TYPE_NONE, q, [.nothing_to_dequeue]) := by
  simp [JvmtiDeferredEventQueue.dequeue, h]

/-- On a well-formed queue with a node, `dequeue` follows no dangling pointer,
fails no assertion, returns the event of the first node and keeps the others. -/
theorem JvmtiDeferredEventQueue.dequeue_well_formed (q : JvmtiDeferredEventQueue)
    (h : q.well_formed) (a : Nat) (n : QueueNode) (rest : NodeHeap)
    (hq : q.nodes = (a, n) :: rest) :
    ∃ q1, q.dequeue = some (n._event, q1, []) ∧ q1.well_formed ∧ q1.nodes = rest := by
  obtain ⟨hl, hnd, ht⟩ := h
  rw [hq] at hl hnd ht
  simp only [NodeHeap.linked] at hl
  obtain ⟨hh, ha, hrest⟩ := hl
  simp only [List.map_cons, List.nodup_cons] at hnd
  have hh0 : q._queue_head ≠ 0 := by
    rw [hh]
    exact ha
  have hat : NodeHeap.at q.nodes q._queue_head = some n := by
    rw [hq, hh]
    simp [NodeHeap.at]
  have hdel : NodeHeap.delete q.nodes q._queue_head = rest := by
    rw [hq, hh]
    exact NodeHeap.delete_head a n rest hnd.1
  by_cases hr : rest = []
  · subst hr
    simp only [NodeHeap.linked] at hrest
    refine ⟨{ nodes := [], _queue_head := n._next, _queue_tail := 0 }, ?_, ?_, rfl⟩
    · simp [JvmtiDeferredEventQueue.dequeue, hh0, hat, hdel, hrest,
        JvmtiDeferredEventQueue.check_markers]
    · simp [JvmtiDeferredEventQueue.well_formed, NodeHeap.linked, hrest]
  · have hn0 : n._next ≠ 0 := fun e => hr (NodeHeap.linked_zero rest (e ▸ hrest))
    have ht2 : q._queue_tail ≠ 0 := by
      rw [ht, NodeHeap.last_key_cons _ _ hr]
      exact NodeHeap.last_key_ne_zero rest _ hrest hr
    refine ⟨{ nodes := rest, _queue_head := n._next, _queue_tail := q._queue_tail }, ?_, ?_, rfl⟩
    · simp [JvmtiDeferredEventQueue.dequeue, hh0, hat, hdel, hn0, ht2,
        JvmtiDeferredEventQueue.check_markers]
    · refine ⟨hrest, hnd.2, ?_⟩
      show q._queue_tail = _
      rw [ht, NodeHeap.last_key_cons _ _ hr]

theorem NodeHeap.at_of_nodup (pre rest : NodeHeap) (a : Nat) (n : QueueNode)
    (hnd : ((pre ++ (a, n) :: rest).map Prod.fst).Nodup) :
    NodeHeap.at (pre ++ (a, n) :: rest) a = some n := by
  apply NodeHeap.at_middle
  simp only [List.map_append, List.map_cons] at hnd
  have := (List.nodup_cons.mp (List.nodup_middle.mp hnd)).1
  exact fun h => this (List.mem_append_left _ h)

/-- Following a well-formed chain gives the events of its nodes in order. -/
theorem NodeHeap.events_linked (suf : NodeHeap) (pre : NodeHeap) (head fuel : Nat)
    (hl : NodeHeap.linked suf head) (hnd : ((pre ++ suf).map Prod.fst).Nodup)
    (hf : suf.length ≤ fuel) :
    NodeHeap.events (pre ++ suf) fuel head = suf.map (fun x => x.2._event) := by
  induction suf generalizing pre head fuel with
  | nil =>
    simp only [NodeHeap.linked] at hl
    subst hl
    cases fuel <;> simp [NodeHeap.events]
  | cons x rest ih =>
    obtain ⟨a, n⟩ := x
    simp only [NodeHeap.linked] at hl
    obtain ⟨hh, ha, hrest⟩ := hl
    subst hh
    cases fuel with
    | zero => simp at hf
    | succ fuel =>
      have hat := NodeHeap.at_of_nodup pre rest head n hnd
      have hb : (head == 0) = false := by simpa using ha
      simp only [NodeHeap.events, hb, Bool.false_eq_true, if_false, hat, List.map_cons,
        List.cons.injEq, true_and]
      have hassoc : pre ++ (head, n) :: rest = (pre ++ [(head, n)]) ++ rest := by simp
      rw [hassoc] at hnd ⊢
      exact ih (pre ++ [(head, n)]) n._next fuel hrest hnd (by simpa using hf)

/-- The loop of the hooks visits the events of a well-formed chain in order and
comes to its end. -/
theorem NodeHeap.for_each_node_linked (visit : JvmtiDeferredEvent → List nmethod)
    (suf : NodeHeap) (pre : NodeHeap) (head fuel : Nat)
    (hl : NodeHeap.linked suf head) (hnd : ((pre ++ suf).map Prod.fst).Nodup)
    (hf : suf.length ≤ fuel) :
    NodeHeap.for_each_node (pre ++ suf) visit fuel head =
      some ((suf.map (fun x => x.2._event)).foldr (fun e acc => visit e ++ acc) []) := by
  induction suf generalizing pre head fuel with
  | nil =>
    simp only [NodeHeap.linked] at hl
    subst hl
    cases fuel <;> simp [NodeHeap.for_each_node]
  | cons x rest ih =>
    obtain ⟨a, n⟩ := x
    simp only [NodeHeap.linked] at hl
    obtain ⟨hh, ha, hrest⟩ := hl
    subst hh
    cases fuel with
    | zero => simp at hf
    | succ fuel =>
      have hat := NodeHeap.at_of_nodup pre rest head n hnd
      have hb : (head == 0) = false := by simpa using ha
      have hassoc : pre ++ (head, n) :: rest = (pre ++ [(head, n)]) ++ rest := by simp
      have := ih (pre ++ [(head, n)]) n._next fuel hrest (hassoc ▸ hnd) (by simpa using hf)
      rw [← hassoc] at this
      simp only [NodeHeap.for_each_node, hb, Bool.false_eq_true, if_false, hat, this,
        Option.map_some', List.map_cons, List.foldr_cons]

/-- The chain from the first node of a well-formed chain comes to its last node. -/
theorem NodeHeap.reaches_linked (suf : NodeHeap) (pre : NodeHeap) (head fuel : Nat)
    (hne : suf ≠ []) (hl : NodeHeap.linked suf head)
    (hnd : ((pre ++ suf).map Prod.fst).Nodup) (hf : suf.length ≤ fuel) :
    NodeHeap.reaches (pre ++ suf) (((suf.map Prod.fst).getLast?).getD 0) fuel head = true := by
  induction suf generalizing pre head fuel with
  | nil => exact absurd rfl hne
  | cons x rest ih =>
    obtain ⟨a, n⟩ := x
    simp only [NodeHeap.linked] at hl
    obtain ⟨hh, ha, hrest⟩ := hl
    subst hh
    cases fuel with
    | zero => simp at hf
    | succ fuel =>
      have hat := NodeHeap.at_of_nodup pre rest head n hnd
      have hb : (head != 0) = true := by simpa using ha
      by_cases hr : rest = []
      · subst hr
        simp [NodeHeap.reaches, ha]
      · rw [NodeHeap.last_key_cons _ _ hr]
        have hassoc : pre ++ (head, n) :: rest = (pre ++ [(head, n)]) ++ rest := by simp
        have := ih (pre ++ [(head, n)]) n._next fuel hr hrest (hassoc ▸ hnd)
          (by simpa using hf)
        rw [← hassoc] at this
        simp only [NodeHeap.reaches, hb, hat, this, Bool.or_true, Bool.and_self]

/-- The events in a well-formed queue are those of its nodes, in order. -/
theorem JvmtiDeferredEventQueue.events_eq (q : JvmtiDeferredEventQueue) (h : q.well_formed) :
    q.events = q.nodes.map (fun x => x.2._event) :=
  NodeHeap.events_linked q.nodes [] q._queue_head q.nodes.length h.1 h.2.1 (Nat.le_refl _)

theorem JvmtiDeferredEventQueue.eq_empty (q : JvmtiDeferredEventQueue) (h : q.well_formed)
    (hn : q.nodes = []) : q = JvmtiDeferredEventQueue.empty := by
  have hh := (q.head_eq_zero_iff h).mpr hn
  have ht := (q.tail_eq_zero_iff h).mpr hn
  cases q
  simp only [JvmtiDeferredEventQueue.empty] at *
  simp [hn, hh, ht]

/-- Every sequence of operations on a well-formed queue follows no dangling
pointer, keeps the queue well formed, behaves as the list of the
specification, and fails no assertion but the first one of `dequeue`. -/
theorem JvmtiDeferredEventQueue.run_well_formed (ops : List QueueOp)
    (q : JvmtiDeferredEventQueue) (h : q.well_formed) :
    ∃ q1 out failed, JvmtiDeferredEventQueue.run ops q = some (q1, out, failed) ∧
      q1.well_formed ∧
      q1.nodes.map (fun x => x.2._event) =
        (FifoList.run ops (q.nodes.map (fun x => x.2._event))).1 ∧
      out = (FifoList.run ops (q.nodes.map (fun x => x.2._event))).2 ∧
      ∀ a ∈ failed, a = Assertion.nothing_to_dequeue := by
  induction ops generalizing q with
  | nil => exact ⟨q, [], [], rfl, h, rfl, rfl, by simp⟩
  | cons op ops ih =>
    cases op with
    | enqueue event =>
      obtain ⟨q1, he, hw, hev⟩ := q.enqueue_well_formed event h
      obtain ⟨q2, out, failed, hr, hw2, hev2, hout, hf⟩ := ih q1 hw
      refine ⟨q2, out, failed, ?_, hw2, ?_, ?_, hf⟩
      · simp only [JvmtiDeferredEventQueue.run, he, hr, List.nil_append]
      · rw [hev2, hev]
        rfl
      · rw [hout, hev]
        rfl
    | dequeue =>
      cases hq : q.nodes with
      | nil =>
        have hh := (q.head_eq_zero_iff h).mpr hq
        have hd := q.dequeue_empty hh
        obtain ⟨q2, out, failed, hr, hw2, hev2, hout, hf⟩ := ih q h
        refine ⟨q2, .TYPE_NONE :: out, [.nothing_to_dequeue] ++ failed, ?_, hw2, ?_, ?_, ?_⟩
        · simp only [JvmtiDeferredEventQueue.run, hd, hr]
        · rw [hev2, hq]
          rfl
        · rw [hout, hq]
          rfl
        · intro a ha
          simp only [List.singleton_append, List.mem_cons] at ha
          rcases ha with ha | ha
          · exact ha
          · exact hf a ha
      | cons x rest =>
        obtain ⟨a, n⟩ := x
        obtain ⟨q1, hd, hw, hn⟩ := q.dequeue_well_formed h a n rest hq
        obtain ⟨q2, out, failed, hr, hw2, hev2, hout, hf⟩ := ih q1 hw
        refine ⟨q2, n._event :: out, failed, ?_, hw2, ?_, ?_, hf⟩
        · simp only [JvmtiDeferredEventQueue.run, hd, hr, List.nil_append]
        · rw [hev2, hn]
          rfl
        · rw [hout, hn]
          rfl

theorem JvmtiDeferredEventQueue.post_well_formed (env : JvmtiEnv) (fuel : Nat)
    (q : JvmtiDeferredEventQueue) (h : q.well_formed) (hf : q.nodes.length ≤ fuel) :
    JvmtiDeferredEventQueue.post env fuel q =
      some (JvmtiDeferredEventQueue.empty,
        (q.nodes.map (fun x => x.2._event)).map
          (fun e => (e.post_compiled_method_load_event env).1),
        (q.nodes.map (fun x => x.2._event)).foldr
          (fun e acc => (e.post_compiled_method_load_event env).2 ++ acc) []) := by
  induction fuel generalizing q with
  | zero =>
    have hn : q.nodes = [] := List.eq_nil_of_length_eq_zero (Nat.le_zero.mp hf)
    have he := q.eq_empty h hn
    subst he
    rfl
  | succ fuel ih =>
    cases hq : q.nodes with
    | nil =>
      have he := q.eq_empty h hq
      subst he
      rfl
    | cons x rest =>
      obtain ⟨a, n⟩ := x
      obtain ⟨q1, hd, hw, hn⟩ := q.dequeue_well_formed h a n rest hq
      have hh0 : q._queue_head ≠ 0 := fun e => by
        have := (q.head_eq_zero_iff h).mp e
        rw [hq] at this
        cases this
      have hhb : (q._queue_head == 0) = false := by simpa using hh0
      have hat : NodeHeap.at q.nodes q._queue_head = some n := by
        have := h.1
        rw [hq] at this ⊢
        simp only [NodeHeap.linked] at this
        rw [this.1]
        simp [NodeHeap.at]
      have hlen : q1.nodes.length ≤ fuel := by
        rw [hn]
        rw [hq] at hf
        simpa using hf
      have := ih q1 hw hlen
      simp only [JvmtiDeferredEventQueue.post, hhb, Bool.false_eq_true, if_false, hat, hd, this,
        hn, List.map_cons, List.foldr_cons, List.append_nil]

theorem JvmtiDeferredEvent.calls_of_loads (env : JvmtiEnv) (nms : List nmethod) :
    (nms.map JvmtiDeferredEvent.compiled_method_load_event).map
        (fun e => (e.post_compiled_method_load_event env).1) =
      nms.map (fun nm => Call.post_compiled_method_load (some env) (some nm)) := by
  induction nms with
  | nil => rfl
  | cons nm rest ih =>
    simp only [List.map_cons, ih]
    rfl

theorem JvmtiDeferredEvent.failed_of_loads (env : JvmtiEnv) (nms : List nmethod) :
    (nms.map JvmtiDeferredEvent.compiled_method_load_event).foldr
        (fun e acc => (e.post_compiled_method_load_event env).2 ++ acc) [] = [] := by
  induction nms with
  | nil => rfl
  | cons nm rest ih =>
    simp only [List.map_cons, List.foldr_cons, ih]
    rfl

theorem JvmtiDeferredEvent.visited_of_events (visit : JvmtiDeferredEvent → List nmethod)
    (hv : ∀ e, visit e = e.code_object.toList) (l : List JvmtiDeferredEvent) :
    l.foldr (fun e acc => visit e ++ acc) [] = l.filterMap JvmtiDeferredEvent.code_object := by
  induction l with
  | nil => rfl
  | cons e rest ih =>
    rw [List.foldr_cons, ih, hv]
    cases e <;> simp [JvmtiDeferredEvent.code_object]

theorem JvmtiDeferredEvent.visited_of_events_null (visit : JvmtiDeferredEvent → List nmethod)
    (hv : ∀ e, visit e = []) (l : List JvmtiDeferredEvent) :
    l.foldr (fun e acc => visit e ++ acc) [] = [] := by
  induction l with
  | nil => rfl
  | cons e rest ih => rw [List.foldr_cons, ih, hv]; rfl

/-- What can be said of the queue after any sequence of operations from the
empty queue. -/
theorem JvmtiDeferredEventQueue.run_from_empty (ops : List QueueOp) :
    ∃ q out failed,
      JvmtiDeferredEventQueue.run ops JvmtiDeferredEventQueue.empty = some (q, out, failed) ∧
      q.well_formed ∧ q.events = (FifoList.run ops []).1 ∧ out = (FifoList.run ops []).2 ∧
      ∀ a ∈ failed, a = Assertion.nothing_to_dequeue := by
  obtain ⟨q, out, failed, hr, hw, hev, hout, hf⟩ :=
    JvmtiDeferredEventQueue.run_well_formed ops _ JvmtiDeferredEventQueue.well_formed_empty
  exact ⟨q, out, failed, hr, hw, by rw [q.events_eq hw, hev]; rfl, hout, hf⟩

theorem JvmtiDeferredEventQueue.events_length (q : JvmtiDeferredEventQueue)
    (h : q.well_formed) : q.events.length = q.nodes.length := by
  rw [q.events_eq h, List.length_map]

theorem JvmtiDeferredEventQueue.head_ne_zero_iff (q : JvmtiDeferredEventQueue)
    (h : q.well_formed) : q._queue_head ≠ 0 ↔ q.events ≠ [] := by
  rw [q.events_eq h, Ne, q.head_eq_zero_iff h]
  simp

/-! ## Properties of the deferred event queue -/

theorem FifoList.run_enqueues (es : List JvmtiDeferredEvent) (ops : List QueueOp)
    (l : List JvmtiDeferredEvent) :
    FifoList.run (es.map QueueOp.enqueue ++ ops) l = FifoList.run ops (l ++ es) := by
  induction es generalizing l with
  | nil => simp
  | cons e rest ih =>
    show FifoList.run (rest.map QueueOp.enqueue ++ ops) (l ++ [e]) = _
    rw [ih]
    simp

theorem FifoList.run_dequeues (l : List JvmtiDeferredEvent) :
    FifoList.run (List.replicate l.length QueueOp.dequeue) l = ([], l) := by
  induction l with
  | nil => rfl
  | cons e rest ih =>
    simp only [List.length_cons, List.replicate_succ, FifoList.run, FifoList.dequeue, ih]

/-- C21. Run any sequence of enqueue and dequeue operations on the empty queue.
No pointer to a missing node is followed, and the linked list behaves as the
list of the specification run on the same operations (enqueue appends at the
tail, dequeue removes and returns the head, a default event from the empty
list): the events in the chain from `_queue_head` are that list, and the events
that the dequeue operations returned are those the list returned.  From the
queue so reached, enqueuing any events `es` and then dequeuing as often as
there are events returns the events that were in the queue followed by `es`, in
that order, each once, and leaves no event.  In particular `e1`, `e2`, `e3`
enqueued into the empty queue are dequeued in that order, no assertion fails and
the queue is empty again. -/
theorem queue_behaves_as_fifo_list :
    (∀ ops : List QueueOp, ∃ q out failed,
      JvmtiDeferredEventQueue.run ops JvmtiDeferredEventQueue.empty = some (q, out, failed) ∧
      q.events = (FifoList.run ops []).1 ∧ out = (FifoList.run ops []).2 ∧
      ∀ es : List JvmtiDeferredEvent, ∃ q2 failed2,
        JvmtiDeferredEventQueue.run
          (es.map QueueOp.enqueue ++
            List.replicate (q.events.length + es.length) QueueOp.dequeue) q
          = some (q2, q.events ++ es, failed2) ∧ q2.events = []) ∧
    (∀ e1 e2 e3 : JvmtiDeferredEvent,
      JvmtiDeferredEventQueue.run
        [.enqueue e1, .enqueue e2, .enqueue e3, .dequeue, .dequeue, .dequeue]
        JvmtiDeferredEventQueue.empty
        = some (JvmtiDeferredEventQueue.empty, [e1, e2, e3], [])) := by
  refine ⟨?_, fun e1 e2 e3 => rfl⟩
  intro ops
  obtain ⟨q, out, failed, hr, hw, hev, hout, -⟩ := JvmtiDeferredEventQueue.run_from_empty ops
  refine ⟨q, out, failed, hr, hev, hout, ?_⟩
  intro es
  obtain ⟨q2, out2, failed2, hr2, hw2, hev2, hout2, -⟩ :=
    JvmtiDeferredEventQueue.run_well_formed
      (es.map QueueOp.enqueue ++
        List.replicate (q.events.length + es.length) QueueOp.dequeue) q hw
  rw [← q.events_eq hw, FifoList.run_enqueues, ← List.length_append,
    FifoList.run_dequeues] at hev2 hout2
  refine ⟨q2, failed2, ?_, ?_⟩
  · rw [hr2, hout2]
  · rw [q2.events_eq hw2, hev2]

/-- C22. For the queue after any sequence of operations from the empty queue and
for every VM phase, `has_events` returns true exactly when the phase is the
live phase and the queue holds an event: it returns false in each phase before
the live phase, false when the queue holds no event, and true in the live phase
when the queue holds an event. -/
theorem has_events_iff_live_and_nonempty (ops : List QueueOp) (phase : jvmtiPhase) :
    ∃ q out failed,
      JvmtiDeferredEventQueue.run ops JvmtiDeferredEventQueue.empty = some (q, out, failed) ∧
      (q.has_events phase = true ↔ phase = .JVMTI_PHASE_LIVE ∧ q.events ≠ []) ∧
      (phase.before_live = true → q.has_events phase = false) ∧
      (q.events = [] → q.has_events phase = false) ∧
      (phase = .JVMTI_PHASE_LIVE → q.events ≠ [] → q.has_events phase = true) := by
  obtain ⟨q, out, failed, hr, hw, -, -, -⟩ := JvmtiDeferredEventQueue.run_from_empty ops
  have hiff : q.has_events phase = true ↔ phase = .JVMTI_PHASE_LIVE ∧ q.events ≠ [] := by
    rw [← q.head_ne_zero_iff hw]
    simp [JvmtiDeferredEventQueue.has_events]
  refine ⟨q, out, failed, hr, hiff, ?_, ?_, ?_⟩
  · intro hb
    cases hh : q.has_events phase
    · rfl
    · have := (hiff.mp hh).1
      subst this
      cases hb
  · intro he
    cases hh : q.has_events phase
    · rfl
    · exact absurd he (hiff.mp hh).2
  · intro hl hne
    exact hiff.mpr ⟨hl, hne⟩

/-- C24. For the queue after any sequence of operations from the empty queue,
each hook, run with a bound of at least the number of queued events, comes to
the end of the chain, and the nmethods it reaches are the code objects of the
compiled-method-load events in the queue, each once and in queue order, and
nothing for an event of another kind: the entry barrier is run on exactly
those, and `oops_do` and `nmethods_do` with a non-null code closure pass
exactly those to `do_nmethod`.  With a null code closure `oops_do` and
`nmethods_do` reach nothing. -/
theorem collector_hooks_cover_queued_code (ops : List QueueOp) :
    ∃ q out failed,
      JvmtiDeferredEventQueue.run ops JvmtiDeferredEventQueue.empty = some (q, out, failed) ∧
      ∀ fuel, q.events.length ≤ fuel →
        q.run_nmethod_entry_barriers fuel =
          some (q.events.filterMap JvmtiDeferredEvent.code_object) ∧
        (∀ f cf, cf ≠ 0 →
          q.oops_do f cf fuel = some (q.events.filterMap JvmtiDeferredEvent.code_object)) ∧
        (∀ cf, cf ≠ 0 →
          q.nmethods_do cf fuel = some (q.events.filterMap JvmtiDeferredEvent.code_object)) ∧
        (∀ f, q.oops_do f 0 fuel = some []) ∧
        q.nmethods_do 0 fuel = some [] := by
  obtain ⟨q, out, failed, hr, hw, -, -, -⟩ := JvmtiDeferredEventQueue.run_from_empty ops
  refine ⟨q, out, failed, hr, ?_⟩
  intro fuel hf
  rw [q.events_length hw] at hf
  have hloop : ∀ visit, NodeHeap.for_each_node q.nodes visit fuel q._queue_head =
      some ((q.nodes.map (fun x => x.2._event)).foldr (fun e acc => visit e ++ acc) []) :=
    fun visit =>
      NodeHeap.for_each_node_linked visit q.nodes [] q._queue_head fuel hw.1 hw.2.1 hf
  rw [q.events_eq hw]
  refine ⟨?_, ?_, ?_, ?_, ?_⟩
  · unfold JvmtiDeferredEventQueue.run_nmethod_entry_barriers
    rw [hloop, JvmtiDeferredEvent.visited_of_events]
    intro e
    cases e <;> rfl
  · intro f cf hcf
    unfold JvmtiDeferredEventQueue.oops_do
    rw [hloop, JvmtiDeferredEvent.visited_of_events]
    intro e
    cases e <;> simp [JvmtiDeferredEvent.oops_do, JvmtiDeferredEvent.code_object, hcf]
  · intro cf hcf
    unfold JvmtiDeferredEventQueue.nmethods_do
    rw [hloop, JvmtiDeferredEvent.visited_of_events]
    intro e
    cases e <;> simp [JvmtiDeferredEvent.nmethods_do, JvmtiDeferredEvent.code_object, hcf]
  · intro f
    unfold JvmtiDeferredEventQueue.oops_do
    rw [hloop, JvmtiDeferredEvent.visited_of_events_null]
    intro e
    cases e <;> rfl
  · unfold JvmtiDeferredEventQueue.nmethods_do
    rw [hloop, JvmtiDeferredEvent.visited_of_events_null]
    intro e
    cases e <;> rfl

/-- C23, as the code has it. `JvmtiDeferredEventQueue::post(env)` treats every
queued event as a compiled-method-load event.  Take the queue after any
sequence of operations from the empty queue.  When its events are the
compiled-method-load events of the nmethods `nms`, then for every bound of at
least their number the loop comes to its end, the calls made are
`post_compiled_method_load(env, nm)` for each of them, once and in queue order,
no assertion fails, and the queue is left empty, both markers null and no node
in use.  For an event of any kind `post_compiled_method_load_event` calls
`post_compiled_method_load` with the member `compiled_method_load` of the union
as it is, and its assertion holds exactly when the event is a
compiled-method-load event. -/
theorem post_env_drains_load_events (ops : List QueueOp) (env : JvmtiEnv) :
    ∃ q out failed,
      JvmtiDeferredEventQueue.run ops JvmtiDeferredEventQueue.empty = some (q, out, failed) ∧
      (∀ fuel (nms : List nmethod), q.events.length ≤ fuel →
        q.events = nms.map JvmtiDeferredEvent.compiled_method_load_event →
        JvmtiDeferredEventQueue.post env fuel q =
          some (JvmtiDeferredEventQueue.empty,
            nms.map (fun nm => Call.post_compiled_method_load (some env) (some nm)), [])) ∧
      (∀ event : JvmtiDeferredEvent,
        (event.post_compiled_method_load_event env).1 =
          Call.post_compiled_method_load (some env) event.compiled_method_load ∧
        ((event.post_compiled_method_load_event env).2 = [] ↔
          ∃ nm, event = .TYPE_COMPILED_METHOD_LOAD nm) ∧
        ((event.post_compiled_method_load_event env).2 = [] ∨
          (event.post_compiled_method_load_event env).2 =
            [Assertion.only_user_of_this_method])) := by
  obtain ⟨q, out, failed, hr, hw, -, -, -⟩ := JvmtiDeferredEventQueue.run_from_empty ops
  refine ⟨q, out, failed, hr, ?_, ?_⟩
  · intro fuel nms hf hnms
    rw [q.events_length hw] at hf
    have hpost := JvmtiDeferredEventQueue.post_well_formed env fuel q hw hf
    rw [← q.events_eq hw, hnms, JvmtiDeferredEvent.calls_of_loads,
      JvmtiDeferredEvent.failed_of_loads] at hpost
    exact hpost
  · intro event
    refine ⟨rfl, ?_, ?_⟩
    · cases event <;> simp [JvmtiDeferredEvent.post_compiled_method_load_event]
    · cases event <;> simp [JvmtiDeferredEvent.post_compiled_method_load_event]

/-- C23, witness. The compiled-method-load events of the nmethods 7 and 8 are
enqueued into the empty queue; `post(env)` with the environment 9 posts them in
that order to the environment, fails no assertion and leaves the queue empty. -/
theorem post_env_drains_load_events_witness :
    JvmtiDeferredEventQueue.run
        [.enqueue (.TYPE_COMPILED_METHOD_LOAD 7), .enqueue (.TYPE_COMPILED_METHOD_LOAD 8)]
        JvmtiDeferredEventQueue.empty = some (queue_two_loads, [], []) ∧
    JvmtiDeferredEventQueue.post 9 2 queue_two_loads =
      some (JvmtiDeferredEventQueue.empty,
        [.post_compiled_method_load (some 9) (some 7),
         .post_compiled_method_load (some 9) (some 8)], []) := by
  obtain ⟨q, out, failed, hr, h, -⟩ := post_env_drains_load_events
    [.enqueue (.TYPE_COMPILED_METHOD_LOAD 7), .enqueue (.TYPE_COMPILED_METHOD_LOAD 8)] 9
  have hrun : JvmtiDeferredEventQueue.run
      [.enqueue (.TYPE_COMPILED_METHOD_LOAD 7), .enqueue (.TYPE_COMPILED_METHOD_LOAD 8)]
      JvmtiDeferredEventQueue.empty = some (queue_two_loads, [], []) := rfl
  rw [hrun] at hr
  have hq : queue_two_loads = q := by
    injection hr with hr
    injection hr
  subst hq
  exact ⟨hrun, h 2 [7, 8] (by decide) rfl⟩

/-- C23, counterexample. A class-unload event with the name `A` is enqueued into
the empty queue.  `JvmtiDeferredEventQueue::post(env)` then fails the assertion
`_type == TYPE_COMPILED_METHOD_LOAD` and calls `post_compiled_method_load` with
a pointer that is not an nmethod, where `JvmtiDeferredEvent::post` posts the
event according to its kind, with `post_class_unload_internal`, and frees the
name. -/
theorem post_env_on_class_unload_event :
    JvmtiDeferredEventQueue.empty.enqueue (JvmtiDeferredEvent.class_unload_event true "A")
      = some (queue_class_unload, []) ∧
    (JvmtiDeferredEvent.class_unload_event true "A").post_compiled_method_load_event 9
      = (.post_compiled_method_load (some 9) none, [.only_user_of_this_method]) ∧
    (JvmtiDeferredEventQueue.post 9 1 queue_class_unload).map (fun r => r.2)
      = some ([.post_compiled_method_load (some 9) none], [.only_user_of_this_method]) ∧
    (JvmtiDeferredEvent.class_unload_event true "A").post true
      = some ([.post_class_unload_internal "A", .free "A"], []) :=
  ⟨rfl, rfl, rfl, rfl⟩

/-- C25. An event made by `dynamic_code_generated_event` or `class_unload_event`
whose name could not be copied is still posted by `post`, under the name
`unknown_code` or `unknown_class` and, for generated code, with the code range
that was given, and nothing is freed.  When the copy was made, `post` passes
the copied name, which has the characters of the name that was given, and then
frees the copy, once.  The only assertion that can fail is the one on the
posting thread. -/
theorem placeholder_name_on_allocation_failure (is_service_thread : Bool)
    (name : String) (code_begin code_end : address) :
    (JvmtiDeferredEvent.dynamic_code_generated_event false name code_begin code_end).post
        is_service_thread
      = some ([.post_dynamic_code_generated_internal "unknown_code" code_begin code_end],
          if is_service_thread then [] else [.service_thread_must_post]) ∧
    (JvmtiDeferredEvent.class_unload_event false name).post is_service_thread
      = some ([.post_class_unload_internal "unknown_class"],
          if is_service_thread then [] else [.service_thread_must_post]) ∧
    (JvmtiDeferredEvent.dynamic_code_generated_event true name code_begin code_end).post
        is_service_thread
      = some ([.post_dynamic_code_generated_internal name code_begin code_end, .free name],
          if is_service_thread then [] else [.service_thread_must_post]) ∧
    (JvmtiDeferredEvent.class_unload_event true name).post is_service_thread
      = some ([.post_class_unload_internal name, .free name],
          if is_service_thread then [] else [.service_thread_must_post]) :=
  ⟨rfl, rfl, rfl, rfl⟩

/-- C27, as the code has it. After any sequence of enqueue and dequeue
operations from the empty queue, `_queue_head` is null exactly when
`_queue_tail` is; when `_queue_tail` is not null it is the address of a node
without a successor, and the chain from `_queue_head` comes to that node.  The
only assertion that failed on the way is the first one of `dequeue`.  From the
queue so reached, `enqueue` fails no assertion, `dequeue` on a queue with a node
fails none either, and `dequeue` on the queue without a node fails its first
assertion, `_queue_head != nullptr`, returns a default event and leaves the
queue as it is, with no event. -/
theorem queue_structural_invariant (ops : List QueueOp) :
    ∃ q out failed,
      JvmtiDeferredEventQueue.run ops JvmtiDeferredEventQueue.empty = some (q, out, failed) ∧
      (q._queue_head = 0 ↔ q._queue_tail = 0) ∧
      (q._queue_tail ≠ 0 →
        (∃ n, NodeHeap.at q.nodes q._queue_tail = some n ∧ n._next = 0) ∧
        NodeHeap.reaches q.nodes q._queue_tail q.nodes.length q._queue_head = true) ∧
      (∀ a ∈ failed, a = Assertion.nothing_to_dequeue) ∧
      (∀ event, ∃ q1, q.enqueue event = some (q1, [])) ∧
      (q._queue_head ≠ 0 → ∃ event q1, q.dequeue = some (event, q1, [])) ∧
      (q._queue_head = 0 →
        q.dequeue = some (.TYPE_NONE, q, [.nothing_to_dequeue]) ∧ q.events = []) := by
  obtain ⟨q, out, failed, hr, hw, -, -, hfailed⟩ := JvmtiDeferredEventQueue.run_from_empty ops
  refine ⟨q, out, failed, hr, ?_, ?_, hfailed, ?_, ?_, ?_⟩
  · rw [q.head_eq_zero_iff hw, q.tail_eq_zero_iff hw]
  · intro ht
    have hne : q.nodes ≠ [] := fun e => ht ((q.tail_eq_zero_iff hw).mpr e)
    have hlast := NodeHeap.linked_at_last q.nodes q._queue_head hne hw.1 hw.2.1
    have hreach := NodeHeap.reaches_linked q.nodes [] q._queue_head q.nodes.length hne hw.1
      hw.2.1 (Nat.le_refl _)
    rw [← hw.2.2] at hlast hreach
    exact ⟨hlast, hreach⟩
  · intro event
    obtain ⟨q1, he, -, -⟩ := q.enqueue_well_formed event hw
    exact ⟨q1, he⟩
  · intro hh
    cases hq : q.nodes with
    | nil => exact absurd ((q.head_eq_zero_iff hw).mpr hq) hh
    | cons x rest =>
      obtain ⟨a, n⟩ := x
      obtain ⟨q1, hd, -, -⟩ := q.dequeue_well_formed hw a n rest hq
      exact ⟨n._event, q1, hd⟩
  · intro hh
    refine ⟨q.dequeue_empty hh, ?_⟩
    rw [q.events_eq hw, (q.head_eq_zero_iff hw).mp hh]
    rfl

/-- C27, counterexample. `dequeue` on the empty queue fails the assertion
`_queue_head != nullptr`. -/
theorem dequeue_on_empty_queue_fails_assertion :
    JvmtiDeferredEventQueue.empty.dequeue
      = some (.TYPE_NONE, JvmtiDeferredEventQueue.empty, [.nothing_to_dequeue]) ∧
    JvmtiDeferredEventQueue.run [.dequeue] JvmtiDeferredEventQueue.empty
      = some (JvmtiDeferredEventQueue.empty, [.TYPE_NONE], [.nothing_to_dequeue]) :=
  ⟨rfl, rfl⟩

/-! ## The dataflow-derived kinds and the local-variable table -/

end JvmtiImpl
